import Mathlib

/-!
# The Koneksi MCP server and its bridge

The file has three models, each followed further down by its theorems: the request
correlation of the bridge and its tool-call endpoint (`namespace Bridge`), the storage
client with its data and its methods (`namespace Koneksi`), and the protocol dispatcher with
the server's message loop (`namespace Mcp`). The line scanner through which both loops read
is `namespace Scanner`.
-/

/-!
# Request correlation in the MCP bridge (`cmd/koneksi-mcp-bridge/main.go`)

A shallow embedding of the bridge's correlation mechanism: the `pending` table of
`MCPBridge`, the request counter, `sendRequest` and the background loop `readResponses`.

Modelling conventions.
* A Go `interface{}` identifier is a `GoValue`: a dynamic type tag together with a value.
  Two interface values are equal exactly when tag and value agree, which is constructor
  equality here.
* `encoding/json` and the pipe to the subprocess are not part of the repository; the decoder
  is a parameter `unmarshal`, and the outcome of `json.Marshal` and of `stdin.Write` are
  inputs of `sendRequest`.
* A channel is an index into the list `chans` of channel buffers (creation order).
* `log` is a history variable: it records what the code did to reply slots and table entries
  and is read by no operation.
-/

namespace Bridge

/-- Go `interface{}` values that occur as identifiers. `int` is the dynamic type of the
bridge's counter; `float64`, `str`, `bool`, `null` and `composite` (a `[]interface{}` or a
`map[string]interface{}`) are what `encoding/json` stores in an `interface{}` field. A finite
`float64` is represented by the rational number it denotes. -/
inductive GoValue where
  | null
  | int (n : Int)
  | float64 (x : ℚ)
  | str (s : String)
  | bool (b : Bool)
  | composite
  deriving DecidableEq, Repr

/-- Whether a value may be used as a key of a Go map with `interface{}` keys: slices and maps
are not hashable, and indexing the map with one panics at run time. -/
def GoValue.hashable : GoValue → Bool
  | .composite => false
  | _ => true

/-- Dynamic types that `json.Unmarshal` stores into an `interface{}`: never `int`. -/
def GoValue.jsonDecoded : GoValue → Bool
  | .int _ => false
  | _ => true

/-- A `json.RawMessage`: `none` is the nil slice. -/
abbrev RawMessage := Option String

/-- Go type `MCPError`. -/
structure MCPError where
  Code : Int
  Message : String
  deriving DecidableEq, Repr

/-- Go type `MCPRequest`. -/
structure MCPRequest where
  JSONRPC : String
  ID : GoValue
  Method : String
  Params : List (String × GoValue)
  deriving DecidableEq, Repr

/-- Go type `MCPResponse`. -/
structure MCPResponse where
  JSONRPC : String
  ID : GoValue
  Result : RawMessage
  Error : Option MCPError
  deriving DecidableEq, Repr

/-- Why an entry left the pending table. -/
inductive Cause where
  | reply
  | timeout
  | sendFailure
  deriving DecidableEq, Repr

/-- History of reply slots and table entries; a slot is named by its channel index. -/
inductive Event where
  | delivered (ch : Nat) (v : RawMessage)
  | removed (ch : Nat) (cause : Cause)
  deriving DecidableEq, Repr

/-- Ways in which a goroutine fails to proceed. -/
inductive Fault where
  | unhashableKey
  | sendBlocked
  deriving DecidableEq, Repr

/-- The correlation state of Go type `MCPBridge`: the counter `requestID`, the table
`pending` (an association list with at most one entry per key), the buffers of the channels
created so far, and the history `log`. -/
structure MCPBridge where
  requestID : Int
  pending : List (GoValue × Nat)
  chans : List (List RawMessage)
  log : List Event
  deriving DecidableEq, Repr

/-- Go `int` arithmetic on a 64-bit platform: results wrap into `[-2^63, 2^63)`. -/
def wrapInt (x : Int) : Int := (x + 2 ^ 63) % 2 ^ 64 - 2 ^ 63

/-- Map read `ch, ok := m[k]`. -/
def lookup (k : GoValue) : List (GoValue × Nat) → Option Nat
  | [] => none
  | (k', c) :: rest => if k' = k then some c else lookup k rest

/-- Map removal `delete(m, k)`. -/
def delete (k : GoValue) (m : List (GoValue × Nat)) : List (GoValue × Nat) :=
  m.filter (fun e => decide (e.1 ≠ k))

/-- Map write `m[k] = c`: an existing entry for `k` is replaced. -/
def store (k : GoValue) (c : Nat) (m : List (GoValue × Nat)) : List (GoValue × Nat) :=
  (k, c) :: delete k m

/-- State built by `NewMCPBridge`: counter zero, `make(map[interface{}]chan json.RawMessage)`. -/
def NewMCPBridge : MCPBridge :=
  { requestID := 0, pending := [], chans := [], log := [] }

/-- Lines 130-139 of `sendRequest`: under the lock, a request without identifier gets the
incremented counter (a Go `int`), a channel of capacity one is made and stored under the
identifier. Returns the new state, the identifier and the channel. -/
def register (b : MCPBridge) (req : MCPRequest) : Except Fault (MCPBridge × GoValue × Nat) :=
  let requestID := if req.ID = GoValue.null then wrapInt (b.requestID + 1) else b.requestID
  let id := if req.ID = GoValue.null then GoValue.int requestID else req.ID
  let respChan := b.chans.length
  if id.hashable then
    .ok ({ requestID := requestID, pending := store id respChan b.pending,
           chans := b.chans ++ [[]], log := b.log }, id, respChan)
  else
    .error Fault.unhashableKey

/-- The locked `delete(b.pending, req.ID)` of lines 144-146, 151-153 and 162-164. -/
def deleteKey (cause : Cause) (id : GoValue) (b : MCPBridge) : Except Fault MCPBridge :=
  if id.hashable then
    .ok { b with
          pending := delete id b.pending,
          log := match lookup id b.pending with
            | some ch => b.log ++ [Event.removed ch cause]
            | none => b.log }
  else
    .error Fault.unhashableKey

/-- Channel send `ch <- v` on a channel of capacity one: proceeds when the buffer is empty;
a full buffer (or a nil channel) blocks the sender. -/
def chanSend (chans : List (List RawMessage)) (ch : Nat) (v : RawMessage) :
    Except Fault (List (List RawMessage)) :=
  match chans[ch]? with
  | some buf => if buf.length < 1 then .ok (chans.set ch (buf ++ [v])) else .error Fault.sendBlocked
  | none => .error Fault.sendBlocked

/-- Channel receive `<-ch` when a value is ready: the oldest buffered value and the buffers
after taking it; `none` when nothing is buffered. -/
def chanRecv (chans : List (List RawMessage)) (ch : Nat) :
    Option (RawMessage × List (List RawMessage)) :=
  match chans[ch]? with
  | some (v :: rest) => some (v, chans.set ch rest)
  | _ => none

/-- One iteration of the loop of `readResponses` (lines 171-189). -/
def handleLine (unmarshal : String → Option MCPResponse) (b : MCPBridge) (line : String) :
    Except Fault MCPBridge :=
  match unmarshal line with
  | none => .ok b
  | some resp =>
    if resp.ID.hashable then
      match lookup resp.ID b.pending with
      | some ch =>
        let v : RawMessage := if resp.Error.isSome then none else resp.Result
        match chanSend b.chans ch v with
        | .ok chans =>
          .ok { b with
                pending := delete resp.ID b.pending,
                chans := chans,
                log := b.log ++ [Event.removed ch Cause.reply, Event.delivered ch v] }
        | .error f => .error f
      | none => .ok b
    else
      .error Fault.unhashableKey

/-- The loop of Go `readResponses` (lines 170-190) over the tokens that `b.scanner` yields,
in order; it returns when `Scan` returns false. Which tokens a stream yields is
`Scanner.scanLines` further down, and `readStream` is the function on a stream. -/
def readResponses (unmarshal : String → Option MCPResponse) :
    List String → MCPBridge → Except Fault MCPBridge
  | [], b => .ok b
  | line :: rest, b =>
    match handleLine unmarshal b line with
    | .ok b' => readResponses unmarshal rest b'
    | .error f => .error f

/-- Go `sendRequest`, for one caller. `marshalErr` and `writeErr` are the errors (if any) of
`json.Marshal` and `stdin.Write`; `lines` are the tokens the reader goroutine consumes
before the 30 second timer of the `select` fires. Returns the state and the pair `(result, error)`. -/
def sendRequest (unmarshal : String → Option MCPResponse) (b : MCPBridge) (req : MCPRequest)
    (marshalErr writeErr : Option String) (lines : List String) :
    Except Fault (MCPBridge × RawMessage × Option String) :=
  match register b req with
  | .error f => .error f
  | .ok (b1, id, respChan) =>
    match marshalErr with
    | some err =>
      match deleteKey Cause.sendFailure id b1 with
      | .ok b2 => .ok (b2, none, some err)
      | .error f => .error f
    | none =>
      match writeErr with
      | some err =>
        match deleteKey Cause.sendFailure id b1 with
        | .ok b2 => .ok (b2, none, some err)
        | .error f => .error f
      | none =>
        match readResponses unmarshal lines b1 with
        | .error f => .error f
        | .ok b2 =>
          match chanRecv b2.chans respChan with
          | some (resp, chans) => .ok ({ b2 with chans := chans }, resp, none)
          | none =>
            match deleteKey Cause.timeout id b2 with
            | .ok b3 => .ok (b3, none, some "request timeout")
            | .error f => .error f

/-- The atomic steps of the bridge's goroutines: the locked sections of `sendRequest`
(registration, removal after a failed send, removal after the timer fired), its receive from
the reply channel, and one iteration of `readResponses`. -/
inductive Step where
  | register (req : MCPRequest)
  | sendFailure (id : GoValue)
  | readLine (line : String)
  | timeout (id : GoValue)
  | receive (ch : Nat)
  deriving DecidableEq, Repr

/-- Effect of one step on the bridge. -/
def step (unmarshal : String → Option MCPResponse) (b : MCPBridge) : Step → Except Fault MCPBridge
  | .register req =>
    match register b req with
    | .ok (b', _, _) => .ok b'
    | .error f => .error f
  | .sendFailure id => deleteKey Cause.sendFailure id b
  | .readLine line => handleLine unmarshal b line
  | .timeout id => deleteKey Cause.timeout id b
  | .receive ch =>
    match chanRecv b.chans ch with
    | some (_, chans) => .ok { b with chans := chans }
    | none => .ok b

/-- An interleaving of steps, executed in order; a fault ends the run. -/
def run (unmarshal : String → Option MCPResponse) : List Step → MCPBridge → Except Fault MCPBridge
  | [], b => .ok b
  | s :: rest, b =>
    match step unmarshal b s with
    | .ok b' => run unmarshal rest b'
    | .error f => .error f

/-- The identifiers that the calls of `sendRequest` without caller-supplied identifier
receive during an interleaving, in call order. -/
def assignedIDs (unmarshal : String → Option MCPResponse) : List Step → MCPBridge → List GoValue
  | [], _ => []
  | .register req :: rest, b =>
    match register b req with
    | .ok (b', id, _) =>
      if req.ID = GoValue.null then id :: assignedIDs unmarshal rest b'
      else assignedIDs unmarshal rest b'
    | .error _ => []
  | s :: rest, b =>
    match step unmarshal b s with
    | .ok b' => assignedIDs unmarshal rest b'
    | .error _ => []

/-- Number of values delivered to the reply slot `ch` according to a history. -/
def deliveries (ch : Nat) (log : List Event) : Nat :=
  log.countP (fun e => match e with
    | .delivered c _ => decide (c = ch)
    | .removed _ _ => false)

/-- Number of times the table entry holding slot `ch` was removed according to a history. -/
def removals (ch : Nat) (log : List Event) : Nat :=
  log.countP (fun e => match e with
    | .delivered _ _ => false
    | .removed c _ => decide (c = ch))

/-- Consistency of table, channels and history: a pending entry owns an existing, empty,
never used channel; no two entries share a channel; no slot was filled twice and no entry
removed twice; channels not yet made have no history; the removals of one entry have one
cause; a delivery goes with a removal by the reader. -/
structure Inv (b : MCPBridge) : Prop where
  fresh : ∀ k c, (k, c) ∈ b.pending →
    b.chans[c]? = some [] ∧ deliveries c b.log = 0 ∧ removals c b.log = 0
  owner : ∀ k₁ k₂ c, (k₁, c) ∈ b.pending → (k₂, c) ∈ b.pending → k₁ = k₂
  once : ∀ c, deliveries c b.log ≤ 1 ∧ removals c b.log ≤ 1
  unborn : ∀ c, b.chans.length ≤ c → deliveries c b.log = 0 ∧ removals c b.log = 0
  exclusive : ∀ c x y, Event.removed c x ∈ b.log → Event.removed c y ∈ b.log → x = y
  paired : ∀ c v, Event.delivered c v ∈ b.log → Event.removed c Cause.reply ∈ b.log

/-! ### Sample wire data -/

/-- Reply `{"jsonrpc":"2.0","id":1,"result":{"tools":[]}}`. -/
def lineResult1 : String :=
  "\x7b\"jsonrpc\":\"2.0\",\"id\":1,\"result\":\x7b\"tools\":[]\x7d\x7d"

/-- Reply `{"jsonrpc":"2.0","id":"init","result":{}}`. -/
def lineInitOk : String :=
  "\x7b\"jsonrpc\":\"2.0\",\"id\":\"init\",\"result\":\x7b\x7d\x7d"

/-- Reply `{"jsonrpc":"2.0","id":"init","error":{"code":-32603,"message":"boom"}}`. -/
def lineInitErr : String :=
  "\x7b\"jsonrpc\":\"2.0\",\"id\":\"init\",\"error\":\x7b\"code\":-32603,\"message\":\"boom\"\x7d\x7d"

/-- Reply `{"jsonrpc":"2.0","id":7,"result":1}`. -/
def lineResult7 : String := "\x7b\"jsonrpc\":\"2.0\",\"id\":7,\"result\":1\x7d"

/-- What `json.Unmarshal` into an `MCPResponse` yields on the sample lines; every other line
used below is not JSON and is rejected. -/
def sampleUnmarshal (line : String) : Option MCPResponse :=
  if line = lineResult1 then
    some { JSONRPC := "2.0", ID := .float64 1, Result := some "\x7b\"tools\":[]\x7d", Error := none }
  else if line = lineInitOk then
    some { JSONRPC := "2.0", ID := .str "init", Result := some "\x7b\x7d", Error := none }
  else if line = lineInitErr then
    some { JSONRPC := "2.0", ID := .str "init", Result := none,
           Error := some { Code := -32603, Message := "boom" } }
  else if line = lineResult7 then
    some { JSONRPC := "2.0", ID := .float64 7, Result := some "1", Error := none }
  else none

/-- Request built by `handleListTools`: no identifier. -/
def listToolsReq : MCPRequest :=
  { JSONRPC := "2.0", ID := .null, Method := "tools/list", Params := [] }

/-- Request built by `initialize`: identifier `"init"`. -/
def initReq : MCPRequest :=
  { JSONRPC := "2.0", ID := .str "init", Method := "initialize", Params := [] }

/-- State once `initialize` has registered its identifier on a new bridge. -/
def initPending : MCPBridge :=
  { requestID := 0, pending := [(GoValue.str "init", 0)], chans := [[]], log := [] }

/-- State once two `tools/list` calls have been registered on a new bridge. -/
def twoPending : MCPBridge :=
  { requestID := 2, pending := [(GoValue.int 2, 1), (GoValue.int 1, 0)], chans := [[], []],
    log := [] }

end Bridge

/-!
# The lock discipline of `sendRequest`
-/

namespace Bridge

/-- The statements of `sendRequest` that take or release `b.mu`, use the shared counter and
table, or talk to the subprocess. -/
inductive Op where
  | lock
  | unlock
  | assignID
  | storePending
  | marshal
  | write
  | deletePending
  | wait
  deriving DecidableEq, Repr

/-- The statements one call of `sendRequest` executes, in order: lines 130-139, then
`json.Marshal` (142), then either the removal of lines 144-146 or the write (150), then either
the removal of lines 151-153 or the `select` (158), then on expiry the removal of lines
162-164. `hasID` tells whether the caller supplied an identifier. -/
def sendRequestOps (hasID : Bool) (marshalErr writeErr : Option String) (timedOut : Bool) :
    List Op :=
  [Op.lock] ++ (if hasID then [] else [Op.assignID]) ++
    [Op.storePending, Op.unlock, Op.marshal] ++
    match marshalErr with
    | some _ => [Op.lock, Op.deletePending, Op.unlock]
    | none =>
      [Op.write] ++
        match writeErr with
        | some _ => [Op.lock, Op.deletePending, Op.unlock]
        | none =>
          [Op.wait] ++ (if timedOut then [Op.lock, Op.deletePending, Op.unlock] else [])

/-- Each statement of a sequence together with whether the caller holds `b.mu` when it
executes it; `held` is the state before the first statement. -/
def lockTrace : Bool → List Op → List (Op × Bool)
  | _, [] => []
  | held, Op.lock :: rest => (Op.lock, held) :: lockTrace true rest
  | held, Op.unlock :: rest => (Op.unlock, held) :: lockTrace false rest
  | held, op :: rest => (op, held) :: lockTrace held rest

end Bridge

/-!
# The storage client's data (`internal/koneksi/client.go`)
-/

namespace Koneksi

/-- A Go `time.Time`, as nanoseconds since the Unix epoch. -/
structure Time where
  unixNano : Int
  deriving DecidableEq, Repr

/-- Go type `Client`; the pointer `HttpClient` is set once by `NewClient` and is left out. -/
structure Client where
  BaseURL : String
  ClientID : String
  ClientSecret : String
  DirectoryID : String
  deriving DecidableEq, Repr

/-- Go type `FileUploadResponse`. -/
structure FileUploadResponse where
  FileID : String
  FileName : String
  Size : Int
  UploadedAt : Time
  Status : String
  deriving DecidableEq, Repr

/-- Go type `DirectoryInfo`. -/
structure DirectoryInfo where
  ID : String
  Name : String
  Description : String
  CreatedAt : Time
  FileCount : Int
  TotalSize : Int
  deriving DecidableEq, Repr

/-- Go type `DirectoryResponse`. -/
structure DirectoryResponse where
  DirectoryID : String
  Name : String
  Description : String
  CreatedAt : Time
  deriving DecidableEq, Repr

/-- Go type `FileInfo`. -/
structure FileInfo where
  ID : String
  Name : String
  Size : Int
  ContentType : String
  Hash : String
  deriving DecidableEq, Repr

/-- Go `NewClient`. -/
def NewClient (baseURL clientID clientSecret directoryID : String) : Client :=
  { BaseURL := baseURL, ClientID := clientID, ClientSecret := clientSecret,
    DirectoryID := directoryID }

end Koneksi

/-!
# The protocol dispatcher (`internal/mcp/server.go`) and the server's message loop
(`cmd/koneksi-mcp-server/main.go`)

Modelling conventions.
* A Go value built from maps, slices, strings, numbers and booleans is a `Value`; a map is an
  association list in the order of the source literal, and indexing takes the first entry of
  a key.
* `gjson`, `encoding/json`, `path/filepath` and `time` are libraries outside the repository:
  their functions are the fields of `Lib`. The file system and the remote storage service, as
  reached through the methods of `koneksi.Client`, are the fields of `World`. An error is
  represented by its message.
* Every call that leaves the process is recorded as an `Effect`, in call order.
* Dereferencing a nil `*koneksi.Client` is the result `panic`.
-/

namespace Mcp

open Koneksi

/-- Go values that the server builds or decodes: the contents of an `interface{}`. -/
inductive Value where
  | null
  | bool (b : Bool)
  | number (x : ℚ)
  | str (s : String)
  | list (xs : List Value)
  | map (kv : List (String × Value))

/-- Comparison `v == nil` of an `interface{}`. -/
def Value.isNil : Value → Bool
  | .null => true
  | _ => false

/-- Type assertion `v.(string)`. -/
def Value.asString : Value → Option String
  | .str s => some s
  | _ => none

/-- Type assertion `v.(bool)`. -/
def Value.asBool : Value → Option Bool
  | .bool b => some b
  | _ => none

/-- Map read `m[k]` of a `map[string]interface{}`: nil when the key is absent. -/
def get (k : String) : List (String × Value) → Value
  | [] => Value.null
  | (k', v) :: rest => if k' = k then v else get k rest

/-- Map read `v[k]` after the assertion that `v` is a map; nil otherwise. -/
def Value.field (v : Value) (k : String) : Value :=
  match v with
  | .map kv => get k kv
  | _ => Value.null

/-- Whether a map has the key `k`. -/
def Value.hasKey (v : Value) (k : String) : Bool :=
  match v with
  | .map kv => kv.any (fun e => decide (e.1 = k))
  | _ => false

/-- The elements of a slice; none for other values. -/
def Value.elems : Value → List Value
  | .list xs => xs
  | _ => []

/-- Library functions used by the server. -/
structure Lib where
  /-- The call `gjson.Parse(json).Get(path).String()`. -/
  gjsonString : String → String → String
  /-- The call `gjson.Parse(json).Get(path).Value()`. -/
  gjsonValue : String → String → Value
  /-- The call `json.Unmarshal(data, &m)` for `m` a `map[string]interface{}`: the map, or the
  error's message. -/
  jsonUnmarshalMap : String → Except String (List (String × Value))
  /-- Go `filepath.Base`. -/
  filepathBase : String → String
  /-- Go `filepath.Dir`. -/
  filepathDir : String → String
  /-- The call `t.Format("2006-01-02 15:04:05")`. -/
  formatTime : Time → String

/-- The file system and the storage service at the time of one request. A storage method is
given the client it is called on. -/
structure World where
  /-- Go `os.Open`. -/
  osOpen : String → Except String Unit
  /-- The call `file.Stat()` on an open file: its size. -/
  fileStat : String → Except String Int
  /-- Go `os.MkdirAll(dir, 0755)`. -/
  osMkdirAll : String → Except String Unit
  /-- Go `os.Create`. -/
  osCreate : String → Except String Unit
  /-- The call `io.Copy(outFile, reader)`: output path and downloaded content to the number of
  bytes written. -/
  ioCopy : String → String → Except String Int
  /-- Method `UploadFile(fileName, file, size, "")`, the file given by its path. -/
  UploadFile : Client → String → String → Int → Except String FileUploadResponse
  /-- Method `DownloadFile(fileID)`: the content of the returned stream. -/
  DownloadFile : Client → String → Except String String
  /-- Method `ListDirectories()`. -/
  ListDirectories : Client → Except String (List DirectoryInfo)
  /-- Method `CreateDirectory(name, description)`. -/
  CreateDirectory : Client → String → String → Except String DirectoryResponse
  /-- Method `GetDirectoryFiles(directoryID)`. -/
  GetDirectoryFiles : Client → String → Except String (List FileInfo)

/-- Calls that leave the process. -/
inductive Effect where
  | osOpen (path : String)
  | fileStat (path : String)
  | osMkdirAll (dir : String)
  | osCreate (path : String)
  | ioCopy (path : String)
  | UploadFile (c : Client) (fileName : String) (path : String) (size : Int)
  | DownloadFile (c : Client) (fileId : String)
  | ListDirectories (c : Client)
  | CreateDirectory (c : Client) (name : String) (description : String)
  | GetDirectoryFiles (c : Client) (directoryId : String)
  deriving DecidableEq, Repr

/-- Whether an effect is a call of the storage service. -/
def Effect.isStorage : Effect → Bool
  | .UploadFile _ _ _ _ => true
  | .DownloadFile _ _ => true
  | .ListDirectories _ => true
  | .CreateDirectory _ _ _ => true
  | .GetDirectoryFiles _ _ => true
  | _ => false

/-- Go type `Server`; `client` is a pointer and may be nil. -/
structure Server where
  name : String
  version : String
  client : Option Client
  deriving DecidableEq, Repr

/-- Go `NewServer`. -/
def NewServer (name version : String) (client : Option Client) : Server :=
  { name := name, version := version, client := client }

/-- What a handler returns: a response, an error (its message), or a panic. -/
inductive Result where
  | ok (response : Value)
  | error (msg : String)
  | panic

/-- A handler's outcome: the server afterwards, the effects performed, the result. -/
structure Handled where
  server : Server
  effects : List Effect
  result : Result

/-- The value `{"content": [{"type": "text", "text": content}]}` that every tool returns. -/
def textContent (content : String) : Value :=
  Value.map [("content", Value.list [Value.map [("type", Value.str "text"),
    ("text", Value.str content)]])]


/-- Go `handleInitialize`. -/
def handleInitialize (s : Server) (id : Value) : Handled :=
  let response : List (String × Value) :=
    [("jsonrpc", Value.str "2.0"),
     ("result", Value.map
       [("protocolVersion", Value.str "2024-11-05"),
        ("capabilities", Value.map [("tools", Value.map [])]),
        ("serverInfo", Value.map
          [("name", Value.str s.name), ("version", Value.str s.version)])])]
  let response := if id.isNil then response else response ++ [("id", id)]
  { server := s, effects := [], result := Result.ok (Value.map response) }

/-- A property `{"type": "string" | "boolean", "description": ...}` of an input schema. -/
def schemaProperty (type description : String) : Value :=
  Value.map [("type", Value.str type), ("description", Value.str description)]

/-- The slice `tools` of `handleToolsList`. -/
def tools : List Value :=
  [ Value.map
      [("name", Value.str "upload_file"),
       ("description", Value.str "Upload a file to Koneksi Storage"),
       ("inputSchema", Value.map
         [("type", Value.str "object"),
          ("properties", Value.map
            [("filePath", schemaProperty "string" "Path to the file to upload"),
             ("directoryId", schemaProperty "string" "Directory ID to upload to (optional)")]),
          ("required", Value.list [Value.str "filePath"])])],
    Value.map
      [("name", Value.str "download_file"),
       ("description", Value.str "Download a file from Koneksi Storage"),
       ("inputSchema", Value.map
         [("type", Value.str "object"),
          ("properties", Value.map
            [("fileId", schemaProperty "string" "ID of the file to download"),
             ("outputPath", schemaProperty "string" "Path where to save the downloaded file")]),
          ("required", Value.list [Value.str "fileId", Value.str "outputPath"])])],
    Value.map
      [("name", Value.str "list_directories"),
       ("description", Value.str "List all directories in Koneksi Storage"),
       ("inputSchema", Value.map
         [("type", Value.str "object"),
          ("properties", Value.map [])])],
    Value.map
      [("name", Value.str "create_directory"),
       ("description", Value.str "Create a new directory in Koneksi Storage"),
       ("inputSchema", Value.map
         [("type", Value.str "object"),
          ("properties", Value.map
            [("name", schemaProperty "string" "Name of the directory"),
             ("description", schemaProperty "string" "Description of the directory")]),
          ("required", Value.list [Value.str "name"])])],
    Value.map
      [("name", Value.str "search_files"),
       ("description", Value.str "List files in a directory"),
       ("inputSchema", Value.map
         [("type", Value.str "object"),
          ("properties", Value.map
            [("directoryId", schemaProperty "string" "Directory ID to search in")]),
          ("required", Value.list [Value.str "directoryId"])])],
    Value.map
      [("name", Value.str "backup_file"),
       ("description", Value.str "Backup a file with optional compression and encryption"),
       ("inputSchema", Value.map
         [("type", Value.str "object"),
          ("properties", Value.map
            [("filePath", schemaProperty "string" "Path to the file to backup"),
             ("directoryId", schemaProperty "string" "Directory ID to backup to (optional)"),
             ("compress", schemaProperty "boolean" "Compress the file before backup"),
             ("encrypt", schemaProperty "boolean" "Encrypt the file before backup"),
             ("encryptPassword", schemaProperty "string" "Password for encryption (optional)")]),
          ("required", Value.list [Value.str "filePath"])])] ]

/-- Go `handleToolsList`. -/
def handleToolsList (s : Server) (id : Value) : Handled :=
  let response : List (String × Value) :=
    [("jsonrpc", Value.str "2.0"),
     ("result", Value.map [("tools", Value.list tools)])]
  let response := if id.isNil then response else response ++ [("id", id)]
  { server := s, effects := [], result := Result.ok (Value.map response) }

/-- Go `uploadFile`. -/
def uploadFile (L : Lib) (W : World) (s : Server) (args : List (String × Value)) : Handled :=
  match (get "filePath" args).asString with
  | none => { server := s, effects := [], result := Result.error "filePath is required" }
  | some filePath =>
    let directoryId := ((get "directoryId" args).asString).getD ""
    match W.osOpen filePath with
    | .error e =>
      { server := s, effects := [Effect.osOpen filePath],
        result := Result.error ("failed to open file: " ++ e) }
    | .ok _ =>
      match W.fileStat filePath with
      | .error e =>
        { server := s, effects := [Effect.osOpen filePath, Effect.fileStat filePath],
          result := Result.error ("failed to stat file: " ++ e) }
      | .ok size =>
        match s.client with
        | none =>
          { server := s, effects := [Effect.osOpen filePath, Effect.fileStat filePath],
            result := Result.panic }
        | some c =>
          let c' : Client :=
            if directoryId ≠ "" then { c with DirectoryID := directoryId }
            else { c with DirectoryID := "" }
          let s' : Server := { s with client := some c' }
          let fileName := L.filepathBase filePath
          let effects := [Effect.osOpen filePath, Effect.fileStat filePath,
            Effect.UploadFile c' fileName filePath size]
          match W.UploadFile c' fileName filePath size with
          | .error e =>
            { server := s', effects := effects,
              result := Result.error ("failed to upload file: " ++ e) }
          | .ok resp =>
            let content := "File uploaded successfully!\nFile ID: " ++ resp.FileID ++
              "\nFile Name: " ++ resp.FileName ++ "\nSize: " ++ toString resp.Size ++ " bytes"
            { server := s', effects := effects, result := Result.ok (textContent content) }

/-- Go `downloadFile`. -/
def downloadFile (L : Lib) (W : World) (s : Server) (args : List (String × Value)) : Handled :=
  match (get "fileId" args).asString with
  | none => { server := s, effects := [], result := Result.error "fileId is required" }
  | some fileId =>
    match (get "outputPath" args).asString with
    | none => { server := s, effects := [], result := Result.error "outputPath is required" }
    | some outputPath =>
      match s.client with
      | none => { server := s, effects := [], result := Result.panic }
      | some c =>
        match W.DownloadFile c fileId with
        | .error e =>
          { server := s, effects := [Effect.DownloadFile c fileId],
            result := Result.error ("failed to download file: " ++ e) }
        | .ok data =>
          let dir := L.filepathDir outputPath
          match W.osMkdirAll dir with
          | .error e =>
            { server := s, effects := [Effect.DownloadFile c fileId, Effect.osMkdirAll dir],
              result := Result.error ("failed to create directory: " ++ e) }
          | .ok _ =>
            match W.osCreate outputPath with
            | .error e =>
              { server := s,
                effects := [Effect.DownloadFile c fileId, Effect.osMkdirAll dir,
                  Effect.osCreate outputPath],
                result := Result.error ("failed to create output file: " ++ e) }
            | .ok _ =>
              let effects := [Effect.DownloadFile c fileId, Effect.osMkdirAll dir,
                Effect.osCreate outputPath, Effect.ioCopy outputPath]
              match W.ioCopy outputPath data with
              | .error e =>
                { server := s, effects := effects,
                  result := Result.error ("failed to write file: " ++ e) }
              | .ok written =>
                let content := "File downloaded successfully!\nSaved to: " ++ outputPath ++
                  "\nSize: " ++ toString written ++ " bytes"
                { server := s, effects := effects, result := Result.ok (textContent content) }


/-- Go `listDirectories`. -/
def listDirectories (L : Lib) (W : World) (s : Server) : Handled :=
  match s.client with
  | none => { server := s, effects := [], result := Result.panic }
  | some c =>
    match W.ListDirectories c with
    | .error e =>
      { server := s, effects := [Effect.ListDirectories c],
        result := Result.error ("failed to list directories: " ++ e) }
    | .ok directories =>
      let content := directories.foldl
        (fun content dir => content ++ "- " ++ dir.Name ++ " (ID: " ++ dir.ID ++ ")\n  Files: " ++
          toString dir.FileCount ++ ", Size: " ++ toString dir.TotalSize ++
          " bytes\n  Created: " ++ L.formatTime dir.CreatedAt ++ "\n")
        "Directories:\n"
      { server := s, effects := [Effect.ListDirectories c],
        result := Result.ok (textContent content) }

/-- Go `createDirectory`. -/
def createDirectory (W : World) (s : Server) (args : List (String × Value)) : Handled :=
  match (get "name" args).asString with
  | none => { server := s, effects := [], result := Result.error "name is required" }
  | some name =>
    let description := ((get "description" args).asString).getD ""
    match s.client with
    | none => { server := s, effects := [], result := Result.panic }
    | some c =>
      match W.CreateDirectory c name description with
      | .error e =>
        { server := s, effects := [Effect.CreateDirectory c name description],
          result := Result.error ("failed to create directory: " ++ e) }
      | .ok resp =>
        let content := "Directory created!\nID: " ++ resp.DirectoryID ++ "\nName: " ++
          resp.Name ++ "\nDescription: " ++ resp.Description
        { server := s, effects := [Effect.CreateDirectory c name description],
          result := Result.ok (textContent content) }

/-- Go `searchFiles`. -/
def searchFiles (W : World) (s : Server) (args : List (String × Value)) : Handled :=
  match (get "directoryId" args).asString with
  | none => { server := s, effects := [], result := Result.error "directoryId is required" }
  | some directoryId =>
    match s.client with
    | none => { server := s, effects := [], result := Result.panic }
    | some c =>
      match W.GetDirectoryFiles c directoryId with
      | .error e =>
        { server := s, effects := [Effect.GetDirectoryFiles c directoryId],
          result := Result.error ("failed to get directory files: " ++ e) }
      | .ok files =>
        let content := files.foldl
          (fun content file => content ++ "- " ++ file.Name ++ " (ID: " ++ file.ID ++
            ", Size: " ++ toString file.Size ++ " bytes)\n")
          ("Files in directory " ++ directoryId ++ ":\n")
        { server := s, effects := [Effect.GetDirectoryFiles c directoryId],
          result := Result.ok (textContent content) }

/-- Go `backupFile`. -/
def backupFile (L : Lib) (W : World) (s : Server) (args : List (String × Value)) : Handled :=
  match (get "filePath" args).asString with
  | none => { server := s, effects := [], result := Result.error "filePath is required" }
  | some filePath =>
    let directoryId := ((get "directoryId" args).asString).getD ""
    let compress := ((get "compress" args).asBool).getD false
    let encrypt := ((get "encrypt" args).asBool).getD false
    let encryptPassword := ((get "encryptPassword" args).asString).getD ""
    match W.osOpen filePath with
    | .error e =>
      { server := s, effects := [Effect.osOpen filePath],
        result := Result.error ("failed to open file: " ++ e) }
    | .ok _ =>
      match W.fileStat filePath with
      | .error e =>
        { server := s, effects := [Effect.osOpen filePath, Effect.fileStat filePath],
          result := Result.error ("failed to stat file: " ++ e) }
      | .ok size =>
        match s.client with
        | none =>
          { server := s, effects := [Effect.osOpen filePath, Effect.fileStat filePath],
            result := Result.panic }
        | some c =>
          let c' : Client := if directoryId ≠ "" then { c with DirectoryID := directoryId } else c
          let s' : Server := { s with client := some c' }
          let fileName := L.filepathBase filePath
          let fileName := if compress then fileName ++ ".gz" else fileName
          let fileName := if encrypt then fileName ++ ".enc" else fileName
          let effects := [Effect.osOpen filePath, Effect.fileStat filePath,
            Effect.UploadFile c' fileName filePath size]
          match W.UploadFile c' fileName filePath size with
          | .error e =>
            { server := s', effects := effects,
              result := Result.error ("failed to backup file: " ++ e) }
          | .ok resp =>
            let content := "File backed up successfully!\nFile ID: " ++ resp.FileID ++
              "\nFile Name: " ++ resp.FileName ++ "\nSize: " ++ toString resp.Size ++
              " bytes\nCompression: " ++ toString compress ++ "\nEncryption: " ++
              toString encrypt
            let content :=
              if encrypt && decide (encryptPassword ≠ "") then
                content ++ "\nEncryption password was provided"
              else content
            { server := s', effects := effects, result := Result.ok (textContent content) }

/-- The names of the tools of the catalog, in order. -/
def toolNames : List String :=
  tools.filterMap (fun t => (t.field "name").asString)

/-- The arguments that the catalog declares as required for a tool: the `required` list of
the input schema of the entry named `toolName`, empty when there is none. -/
def requiredArgs (toolName : String) : List String :=
  match tools.find? (fun t => decide ((t.field "name").asString = some toolName)) with
  | some t => (((t.field "inputSchema").field "required").elems).filterMap Value.asString
  | none => []

/-- The end of `handleToolCall` (lines 223-231): an error of the tool is returned as it is, a
result is put into an envelope with the request's identifier. -/
def toolResponse (id : Value) (h : Handled) : Handled :=
  match h.result with
  | Result.ok result =>
    { h with result := Result.ok (Value.map
        [("jsonrpc", Value.str "2.0"), ("id", id), ("result", result)]) }
  | _ => h

/-- Go `handleToolCall`; `request` is the text that `parsed` was made from. -/
def handleToolCall (L : Lib) (W : World) (s : Server) (request : String) (id : Value) :
    Handled :=
  let toolName := L.gjsonString request "params.name"
  let args := L.gjsonString request "params.arguments"
  match L.jsonUnmarshalMap args with
  | .error e =>
    { server := s, effects := [], result := Result.error ("failed to parse arguments: " ++ e) }
  | .ok arguments =>
    if toolName = "upload_file" then toolResponse id (uploadFile L W s arguments)
    else if toolName = "download_file" then toolResponse id (downloadFile L W s arguments)
    else if toolName = "list_directories" then toolResponse id (listDirectories L W s)
    else if toolName = "create_directory" then toolResponse id (createDirectory W s arguments)
    else if toolName = "search_files" then toolResponse id (searchFiles W s arguments)
    else if toolName = "backup_file" then toolResponse id (backupFile L W s arguments)
    else { server := s, effects := [], result := Result.error ("unknown tool: " ++ toolName) }

/-- Go `HandleRequest`. -/
def HandleRequest (L : Lib) (W : World) (s : Server) (requestStr : String) : Handled :=
  let method := L.gjsonString requestStr "method"
  let id := L.gjsonValue requestStr "id"
  if method = "initialize" then handleInitialize s id
  else if method = "tools/list" then handleToolsList s id
  else if method = "tools/call" then handleToolCall L W s requestStr id
  else { server := s, effects := [], result := Result.error ("unknown method: " ++ method) }

/-- The server `s'` differs from `s` at most in the `DirectoryID` of its client. -/
def Server.sameUpToDirectory (s s' : Server) : Prop :=
  s'.name = s.name ∧ s'.version = s.version ∧
    match s.client, s'.client with
    | none, none => True
    | some c, some c' =>
      c'.BaseURL = c.BaseURL ∧ c'.ClientID = c.ClientID ∧ c'.ClientSecret = c.ClientSecret
    | _, _ => False

/-- The server `s` once the `DirectoryID` of its client `c` has been set to `d`. -/
def Server.withDirectory (s : Server) (c : Client) (d : String) : Server :=
  { s with client := some { c with DirectoryID := d } }

/-- One iteration of the message loop of `main`: the server afterwards, the effects, the
envelopes handed to `encoder.Encode`, and whether the process died of a panic. -/
structure Iteration where
  server : Server
  effects : List Effect
  output : List Value
  panicked : Bool

/-- The body of the message loop of `main` (lines 47-85) for one line of standard input. -/
def mainStep (L : Lib) (W : World) (s : Server) (request : String) : Iteration :=
  match L.jsonUnmarshalMap request with
  | .error _ => { server := s, effects := [], output := [], panicked := false }
  | .ok req =>
    let h := HandleRequest L W s request
    match h.result with
    | Result.panic =>
      { server := h.server, effects := h.effects, output := [], panicked := true }
    | Result.error msg =>
      if (get "id" req).isNil then
        { server := h.server, effects := h.effects, output := [], panicked := false }
      else
        let errorResponse := Value.map
          [("jsonrpc", Value.str "2.0"),
           ("id", get "id" req),
           ("error", Value.map [("code", Value.number (-32603)), ("message", Value.str msg)])]
        { server := h.server, effects := h.effects, output := [errorResponse],
          panicked := false }
    | Result.ok response =>
      if (get "id" req).isNil then
        { server := h.server, effects := h.effects, output := [], panicked := false }
      else
        { server := h.server, effects := h.effects, output := [response], panicked := false }

/-- The message loop of `main` (lines 46-86) over the tokens that the scanner yields: each
token is handled in the world as it is when its line arrives; a panic ends the process. Which
tokens the standard input yields is `scanInput` further down, and `mainStream` is the loop on
a stream. -/
def mainLoop (L : Lib) : List (World × String) → Server → Iteration
  | [], s => { server := s, effects := [], output := [], panicked := false }
  | (W, request) :: rest, s =>
    let it := mainStep L W s request
    if it.panicked then it
    else
      let tail := mainLoop L rest it.server
      { server := tail.server, effects := it.effects ++ tail.effects,
        output := it.output ++ tail.output, panicked := tail.panicked }


/-! ### Sample wire data -/

/-- Request of `TestServer_HandleInitialize`. -/
def reqInit : String :=
  "\x7b\"jsonrpc\":\"2.0\",\"id\":1,\"method\":\"initialize\",\"params\":\x7b\x7d" ++
    "\x7d"

/-- Request of `TestServer_HandleToolsList`. -/
def reqToolsList : String :=
  "\x7b\"jsonrpc\":\"2.0\",\"id\":2,\"method\":\"tools/list\",\"params\":\x7b\x7d" ++
    "\x7d"

/-- Request `unknown method` of `TestServer_ErrorHandling`. -/
def reqUnknown : String :=
  "\x7b\"jsonrpc\":\"2.0\",\"id\":1,\"method\":\"unknown\",\"params\":\x7b\x7d\x7d"

/-- A notification: no identifier. -/
def reqNotify : String :=
  "\x7b\"jsonrpc\":\"2.0\",\"method\":\"notifications/initialized\"\x7d"

/-- Request `unknown tool` of `TestServer_ErrorHandling`. -/
def reqUnknownTool : String :=
  "\x7b\"jsonrpc\":\"2.0\",\"id\":1,\"method\":\"tools/call\",\"params\":\x7b\"name" ++
    "\":\"unknown_tool\",\"arguments\":\"\x7b\x7d\"\x7d\x7d"

/-- A call of an unknown tool without arguments. -/
def reqUnknownToolNoArgs : String :=
  "\x7b\"jsonrpc\":\"2.0\",\"id\":3,\"method\":\"tools/call\",\"params\":\x7b\"name" ++
    "\":\"unknown_tool\"\x7d\x7d"

/-- Request `invalid arguments` of `TestServer_ErrorHandling`. -/
def reqUploadBadArgs : String :=
  "\x7b\"jsonrpc\":\"2.0\",\"id\":1,\"method\":\"tools/call\",\"params\":\x7b\"name" ++
    "\":\"upload_file\",\"arguments\":\"invalid json\"\x7d\x7d"

/-- Request `upload_file missing filePath` of `TestServer_HandleToolCall_RequiredParameters`. -/
def reqUploadNoPath : String :=
  "\x7b\"jsonrpc\":\"2.0\",\"id\":1,\"method\":\"tools/call\",\"params\":\x7b\"name" ++
    "\":\"upload_file\",\"arguments\":\"\x7b\x7d\"\x7d\x7d"

/-- An upload into directory `dir-9`. -/
def reqUploadDir : String :=
  "\x7b\"jsonrpc\":\"2.0\",\"id\":4,\"method\":\"tools/call\",\"params\":\x7b\"name" ++
    "\":\"upload_file\",\"arguments\":\"\x7b\\\"filePath\\\":\\\"/tmp/a.txt\\\",\\\"d" ++
    "irectoryId\\\":\\\"dir-9\\\"\x7d\"\x7d\x7d"

/-- A backup without directory. -/
def reqBackup : String :=
  "\x7b\"jsonrpc\":\"2.0\",\"id\":5,\"method\":\"tools/call\",\"params\":\x7b\"name" ++
    "\":\"backup_file\",\"arguments\":\"\x7b\\\"filePath\\\":\\\"/tmp/a.txt\\\"\x7d\"" ++
    "\x7d\x7d"

/-- Arguments of `reqUploadDir`. -/
def argsUploadDir : String :=
  "\x7b\"filePath\":\"/tmp/a.txt\",\"directoryId\":\"dir-9\"\x7d"

/-- Arguments of `reqBackup`. -/
def argsBackup : String :=
  "\x7b\"filePath\":\"/tmp/a.txt\"\x7d"

/-- What `gjson` and `encoding/json` yield on the sample requests and argument texts, with
`filepath.Base` and `filepath.Dir` of `/tmp/a.txt`; texts not listed are treated as the
empty document. -/
def sampleLib : Lib where
  gjsonString := fun json path =>
    if path = "method" then
      if json = reqInit then "initialize"
      else if json = reqToolsList then "tools/list"
      else if json = reqUnknown then "unknown"
      else if json = reqNotify then "notifications/initialized"
      else if json = reqUnknownTool ∨ json = reqUnknownToolNoArgs ∨ json = reqUploadBadArgs ∨
          json = reqUploadNoPath ∨ json = reqUploadDir ∨ json = reqBackup then "tools/call"
      else ""
    else if path = "params.name" then
      if json = reqUnknownTool ∨ json = reqUnknownToolNoArgs then "unknown_tool"
      else if json = reqUploadBadArgs ∨ json = reqUploadNoPath ∨ json = reqUploadDir then
        "upload_file"
      else if json = reqBackup then "backup_file"
      else ""
    else if path = "params.arguments" then
      if json = reqUnknownTool ∨ json = reqUploadNoPath then "\x7b\x7d"
      else if json = reqUploadBadArgs then "invalid json"
      else if json = reqUploadDir then argsUploadDir
      else if json = reqBackup then argsBackup
      else ""
    else ""
  gjsonValue := fun json path =>
    if path = "id" then
      if json = reqInit ∨ json = reqUnknown ∨ json = reqUnknownTool ∨ json = reqUploadBadArgs ∨
          json = reqUploadNoPath then Value.number 1
      else if json = reqToolsList then Value.number 2
      else if json = reqUnknownToolNoArgs then Value.number 3
      else if json = reqUploadDir then Value.number 4
      else if json = reqBackup then Value.number 5
      else Value.null
    else Value.null
  jsonUnmarshalMap := fun data =>
    if data = reqInit then
      .ok [("jsonrpc", Value.str "2.0"), ("id", Value.number 1),
        ("method", Value.str "initialize"), ("params", Value.map [])]
    else if data = reqToolsList then
      .ok [("jsonrpc", Value.str "2.0"), ("id", Value.number 2),
        ("method", Value.str "tools/list"), ("params", Value.map [])]
    else if data = reqUnknown then
      .ok [("jsonrpc", Value.str "2.0"), ("id", Value.number 1),
        ("method", Value.str "unknown"), ("params", Value.map [])]
    else if data = reqNotify then
      .ok [("jsonrpc", Value.str "2.0"), ("method", Value.str "notifications/initialized")]
    else if data = reqUnknownToolNoArgs then
      .ok [("jsonrpc", Value.str "2.0"), ("id", Value.number 3),
        ("method", Value.str "tools/call"),
        ("params", Value.map [("name", Value.str "unknown_tool")])]
    else if data = reqUploadDir then
      .ok [("jsonrpc", Value.str "2.0"), ("id", Value.number 4),
        ("method", Value.str "tools/call"),
        ("params", Value.map [("name", Value.str "upload_file"),
          ("arguments", Value.str argsUploadDir)])]
    else if data = reqUnknownTool then
      .ok [("jsonrpc", Value.str "2.0"), ("id", Value.number 1),
        ("method", Value.str "tools/call"),
        ("params", Value.map [("name", Value.str "unknown_tool"),
          ("arguments", Value.str "\x7b\x7d")])]
    else if data = reqUploadBadArgs then
      .ok [("jsonrpc", Value.str "2.0"), ("id", Value.number 1),
        ("method", Value.str "tools/call"),
        ("params", Value.map [("name", Value.str "upload_file"),
          ("arguments", Value.str "invalid json")])]
    else if data = reqUploadNoPath then
      .ok [("jsonrpc", Value.str "2.0"), ("id", Value.number 1),
        ("method", Value.str "tools/call"),
        ("params", Value.map [("name", Value.str "upload_file"),
          ("arguments", Value.str "\x7b\x7d")])]
    else if data = reqBackup then
      .ok [("jsonrpc", Value.str "2.0"), ("id", Value.number 5),
        ("method", Value.str "tools/call"),
        ("params", Value.map [("name", Value.str "backup_file"),
          ("arguments", Value.str argsBackup)])]
    else if data = "\x7b\x7d" then .ok []
    else if data = argsUploadDir then
      .ok [("filePath", Value.str "/tmp/a.txt"), ("directoryId", Value.str "dir-9")]
    else if data = argsBackup then .ok [("filePath", Value.str "/tmp/a.txt")]
    else if data = "" then .error "unexpected end of JSON input"
    else .error "invalid character 'i' looking for beginning of value"
  filepathBase := fun path => if path = "/tmp/a.txt" then "a.txt" else path
  filepathDir := fun path => if path = "/tmp/a.txt" then "/tmp" else "."
  formatTime := fun _ => "2023-01-01 00:00:00"

/-- A world in which `/tmp/a.txt` is a file of five bytes, every upload is accepted and the
other storage calls are refused. -/
def sampleWorld : World where
  osOpen := fun path =>
    if path = "/tmp/a.txt" then .ok () else .error ("open " ++ path ++ ": no such file or directory")
  fileStat := fun _ => .ok 5
  osMkdirAll := fun _ => .ok ()
  osCreate := fun _ => .ok ()
  ioCopy := fun _ data => .ok data.length
  UploadFile := fun _ fileName _ size =>
    .ok { FileID := "f1", FileName := fileName, Size := size, UploadedAt := { unixNano := 0 },
          Status := "success" }
  DownloadFile := fun _ _ => .error "download failed with status 404: "
  ListDirectories := fun _ => .error "request failed with status 500: "
  CreateDirectory := fun _ _ _ => .error "request failed with status 500: "
  GetDirectoryFiles := fun _ _ => .error "request failed with status 500: "

/-- The client and server that `main` builds when no directory is configured. -/
def sampleServer : Server :=
  NewServer "koneksi-storage" "1.0.0"
    (some (NewClient "https://staging.koneksi.co.kr" "id" "secret" ""))

end Mcp

/-!
# The storage client's methods (`internal/koneksi/client.go`)

Modelling conventions.
* `net/http` and the remote service are the oracle `Http`: whether `http.NewRequest` accepts
  a method and URL, and what `c.HttpClient.Do` yields for a request. A response is its status
  code and the bytes of its body.
* `encoding/json`, `mime/multipart` and `time` are libraries outside the repository: their
  functions are the fields of `Codec`. A decoder is given the text of a response body and
  yields the value that `Decode` stores into the method's variable `apiResp`, or the error's
  message.
* A method returns a `Call`: the requests it handed to `Do`, in order, and its Go result
  `(value, error)` as an `Except`, the error being its message.
* `CreateFormFile` and `Close` of a `multipart.Writer` over a `bytes.Buffer` do not fail, so of
  the three error returns at the top of `UploadFile` only the copy from `fileData` is kept.
-/

namespace Koneksi

/-- An `http.Request` as the client builds it: headers in the order of the `Set` calls. -/
structure Request where
  Method : String
  URL : String
  Header : List (String × String)
  Body : String
  deriving DecidableEq, Repr

/-- An `http.Response`: the status code and the content of the body stream. -/
structure Response where
  StatusCode : Int
  Body : String
  deriving DecidableEq, Repr

/-- The network as the client sees it. -/
structure Http where
  /-- The call `http.NewRequest(method, url, body)`: the error, if there is one. -/
  NewRequest : String → String → Option String
  /-- The call `c.HttpClient.Do(req)`. -/
  Do : Request → Except String Response

/-- What a method did and returned. -/
structure Call (α : Type) where
  sent : List Request
  result : Except String α

/-- Field `Data` of the variable `apiResp` of `UploadFile`. -/
structure UploadData where
  FileID : String
  Hash : String
  Name : String
  Size : Int
  deriving DecidableEq, Repr

/-- The variable `apiResp` of `UploadFile`. -/
structure UploadReply where
  Data : UploadData
  Status : String
  deriving DecidableEq, Repr

/-- Field `Data.Directory` of the variable `apiResp` of `ListDirectories`. -/
structure RootEntry where
  ID : String
  Name : String
  Size : Int
  CreatedAt : String
  deriving DecidableEq, Repr

/-- An element of `Data.Subdirectories` of the variable `apiResp` of `ListDirectories`. -/
structure SubdirEntry where
  ID : String
  Name : String
  Size : Int
  CreatedAt : String
  UpdatedAt : String
  deriving DecidableEq, Repr

/-- An element of `Data.Files` of the variable `apiResp` of `ListDirectories`. -/
structure RootFileEntry where
  ID : String
  Name : String
  Size : Int
  deriving DecidableEq, Repr

/-- Field `Data` of the variable `apiResp` of `ListDirectories`. -/
structure ListReply where
  Directory : RootEntry
  Subdirectories : List SubdirEntry
  Files : List RootFileEntry
  deriving DecidableEq, Repr

/-- Field `Data` of the variable `apiResp` of `CreateDirectory`. -/
structure CreateReply where
  ID : String
  Name : String
  Description : String
  CreatedAt : String
  deriving DecidableEq, Repr

/-- An element of `Data.Files` of the variable `apiResp` of `GetDirectoryFiles`. -/
structure FileEntry where
  ID : String
  Name : String
  Size : Int
  ContentType : String
  Hash : String
  deriving DecidableEq, Repr

/-- Library functions used by the client. -/
structure Codec where
  /-- A `multipart.Writer` with the single file field `file`: from file name and content to
  the bytes of the form and the value of `FormDataContentType()`. -/
  multipartForm : String → String → String × String
  /-- The call `Decode(&apiResp)` of `UploadFile`. -/
  decodeUpload : String → Except String UploadReply
  /-- The call `Decode(&apiResp)` of `ListDirectories`: field `Data`. -/
  decodeList : String → Except String ListReply
  /-- The call `Decode(&apiResp)` of `CreateDirectory`: field `Data`. -/
  decodeCreate : String → Except String CreateReply
  /-- The call `Decode(&apiResp)` of `GetDirectoryFiles`: field `Data.Files`. -/
  decodeFiles : String → Except String (List FileEntry)
  /-- The call `json.Marshal` of the map with the keys `name` and `description`. -/
  marshalCreate : String → String → Except String String
  /-- The call `time.Parse(time.RFC3339, s)` with its error dropped. -/
  parseTime : String → Time
  /-- The call `time.Now()`. -/
  now : Time

/-- The URL that `UploadFile` posts to (lines 88-91). -/
def uploadURL (c : Client) : String :=
  let url := c.BaseURL ++ "/api/clients/v1/files"
  if c.DirectoryID ≠ "" then url ++ ("?directory_id=" ++ c.DirectoryID) else url

/-- The request that `UploadFile` builds (lines 93-101). -/
def uploadRequest (K : Codec) (c : Client) (fileName content : String) : Request :=
  { Method := "POST", URL := uploadURL c,
    Header := [("Client-ID", c.ClientID), ("Client-Secret", c.ClientSecret),
      ("Content-Type", (K.multipartForm fileName content).2)],
    Body := (K.multipartForm fileName content).1 }

/-- Go `UploadFile`; `fileData` is the content that the reader yields, or its read error.
The parameters `size` and `checksum` are not used by the method. -/
def UploadFile (H : Http) (K : Codec) (c : Client) (fileName : String)
    (fileData : Except String String) (_size : Int) (_checksum : String) :
    Call FileUploadResponse :=
  match fileData with
  | .error e => { sent := [], result := .error ("failed to copy file data: " ++ e) }
  | .ok content =>
    match H.NewRequest "POST" (uploadURL c) with
    | some e => { sent := [], result := .error ("failed to create request: " ++ e) }
    | none =>
      let req := uploadRequest K c fileName content
      match H.Do req with
      | .error e => { sent := [req], result := .error ("failed to execute request: " ++ e) }
      | .ok resp =>
        if resp.StatusCode ≠ 200 ∧ resp.StatusCode ≠ 201 then
          { sent := [req],
            result := .error ("upload failed with status " ++ toString resp.StatusCode ++
              ": " ++ resp.Body) }
        else
          match K.decodeUpload resp.Body with
          | .error e => { sent := [req], result := .error ("failed to parse response: " ++ e) }
          | .ok apiResp =>
            let fileID := apiResp.Data.FileID
            let fileID := if fileID = "" then apiResp.Data.Hash else fileID
            let response : FileUploadResponse :=
              { FileID := fileID, FileName := apiResp.Data.Name, Size := apiResp.Data.Size,
                UploadedAt := K.now, Status := apiResp.Status }
            { sent := [req], result := .ok response }

/-- Go `UploadFileFromBytes`: the client after the call (the deferred function has run) and
what the call did. -/
def UploadFileFromBytes (H : Http) (K : Codec) (c : Client)
    (fileName fileContent directoryID : String) : Client × Call FileUploadResponse :=
  let originalDirID := c.DirectoryID
  let c1 : Client := if directoryID ≠ "" then { c with DirectoryID := directoryID } else c
  let r := UploadFile H K c1 fileName (.ok fileContent) fileContent.utf8ByteSize ""
  ({ c1 with DirectoryID := originalDirID }, r)

/-- The request that `DownloadFile` builds (lines 162-170). -/
def downloadRequest (c : Client) (fileID : String) : Request :=
  { Method := "GET", URL := c.BaseURL ++ ("/api/clients/v1/files/" ++ fileID ++ "/download"),
    Header := [("Client-ID", c.ClientID), ("Client-Secret", c.ClientSecret)], Body := "" }

/-- Go `DownloadFile`: the result is the content of the returned stream. -/
def DownloadFile (H : Http) (c : Client) (fileID : String) : Call String :=
  let req := downloadRequest c fileID
  match H.NewRequest "GET" req.URL with
  | some e => { sent := [], result := .error ("failed to create request: " ++ e) }
  | none =>
    match H.Do req with
    | .error e => { sent := [req], result := .error ("failed to execute request: " ++ e) }
    | .ok resp =>
      if resp.StatusCode ≠ 200 then
        { sent := [req],
          result := .error ("download failed with status " ++ toString resp.StatusCode ++
            ": " ++ resp.Body) }
      else { sent := [req], result := .ok resp.Body }

/-- The request that `ListDirectories` builds (lines 188-197). -/
def listRequest (c : Client) : Request :=
  { Method := "GET", URL := c.BaseURL ++ "/api/clients/v1/directories/root",
    Header := [("Client-ID", c.ClientID), ("Client-Secret", c.ClientSecret),
      ("Content-Type", "application/json")],
    Body := "" }

/-- The entry that `ListDirectories` makes for the root directory (lines 238-248). -/
def rootInfo (K : Codec) (data : ListReply) : DirectoryInfo :=
  { ID := data.Directory.ID, Name := data.Directory.Name, Description := "Root directory",
    CreatedAt := K.parseTime data.Directory.CreatedAt, FileCount := data.Files.length,
    TotalSize := data.Directory.Size }

/-- The entry that `ListDirectories` appends for a subdirectory (lines 252-260). -/
def subdirInfo (K : Codec) (dir : SubdirEntry) : DirectoryInfo :=
  { ID := dir.ID, Name := dir.Name, Description := "", CreatedAt := K.parseTime dir.CreatedAt,
    FileCount := 0, TotalSize := dir.Size }

/-- Go `ListDirectories`. -/
def ListDirectories (H : Http) (K : Codec) (c : Client) : Call (List DirectoryInfo) :=
  let req := listRequest c
  match H.NewRequest "GET" req.URL with
  | some e => { sent := [], result := .error ("failed to create request: " ++ e) }
  | none =>
    match H.Do req with
    | .error e => { sent := [req], result := .error ("failed to execute request: " ++ e) }
    | .ok resp =>
      if resp.StatusCode ≠ 200 then
        { sent := [req],
          result := .error ("request failed with status " ++ toString resp.StatusCode ++
            ": " ++ resp.Body) }
      else
        match K.decodeList resp.Body with
        | .error e => { sent := [req], result := .error ("failed to parse response: " ++ e) }
        | .ok data =>
          let directories := [rootInfo K data]
          let directories := data.Subdirectories.foldl
            (fun directories dir => directories ++ [subdirInfo K dir]) directories
          { sent := [req], result := .ok directories }

/-- The request that `CreateDirectory` builds (lines 279-286). -/
def createRequest (c : Client) (jsonData : String) : Request :=
  { Method := "POST", URL := c.BaseURL ++ "/api/clients/v1/directories",
    Header := [("Client-ID", c.ClientID), ("Client-Secret", c.ClientSecret),
      ("Content-Type", "application/json")],
    Body := jsonData }

/-- Go `CreateDirectory`. -/
def CreateDirectory (H : Http) (K : Codec) (c : Client) (name description : String) :
    Call DirectoryResponse :=
  match K.marshalCreate name description with
  | .error e => { sent := [], result := .error ("failed to marshal request: " ++ e) }
  | .ok jsonData =>
    let req := createRequest c jsonData
    match H.NewRequest "POST" req.URL with
    | some e => { sent := [], result := .error ("failed to create request: " ++ e) }
    | none =>
      match H.Do req with
      | .error e => { sent := [req], result := .error ("failed to execute request: " ++ e) }
      | .ok resp =>
        if resp.StatusCode ≠ 200 ∧ resp.StatusCode ≠ 201 then
          { sent := [req],
            result := .error ("request failed with status " ++ toString resp.StatusCode ++
              ": " ++ resp.Body) }
        else
          match K.decodeCreate resp.Body with
          | .error e => { sent := [req], result := .error ("failed to parse response: " ++ e) }
          | .ok data =>
            let response : DirectoryResponse :=
              { DirectoryID := data.ID, Name := data.Name, Description := data.Description,
                CreatedAt := K.parseTime data.CreatedAt }
            { sent := [req], result := .ok response }

/-- The request that `GetDirectoryFiles` builds (lines 323-331). -/
def filesRequest (c : Client) (directoryID : String) : Request :=
  { Method := "GET", URL := c.BaseURL ++ ("/api/clients/v1/directories/" ++ directoryID),
    Header := [("Client-ID", c.ClientID), ("Client-Secret", c.ClientSecret)], Body := "" }

/-- The value that `GetDirectoryFiles` appends for an entry (lines 362-368). -/
def fileInfo (file : FileEntry) : FileInfo :=
  { ID := file.ID, Name := file.Name, Size := file.Size, ContentType := file.ContentType,
    Hash := file.Hash }

/-- Go `GetDirectoryFiles`. -/
def GetDirectoryFiles (H : Http) (K : Codec) (c : Client) (directoryID : String) :
    Call (List FileInfo) :=
  let req := filesRequest c directoryID
  match H.NewRequest "GET" req.URL with
  | some e => { sent := [], result := .error ("failed to create request: " ++ e) }
  | none =>
    match H.Do req with
    | .error e => { sent := [req], result := .error ("failed to execute request: " ++ e) }
    | .ok resp =>
      if resp.StatusCode ≠ 200 then
        { sent := [req],
          result := .error ("request failed with status " ++ toString resp.StatusCode ++
            ": " ++ resp.Body) }
      else
        match K.decodeFiles resp.Body with
        | .error e => { sent := [req], result := .error ("failed to parse response: " ++ e) }
        | .ok entries =>
          let files := entries.foldl (fun files file => files ++ [fileInfo file]) []
          { sent := [req], result := .ok files }

/-! ### Sample exchanges -/

/-- Body `successful upload` of `TestClient_UploadFile`. -/
def bodyUpload : String :=
  "\x7b\"data\":\x7b\"file_id\":\"test-file-id\",\"hash\":\"test-hash\",\"name\":" ++
    "\"test.txt\",\"size\":100\x7d,\"status\":\"success\"\x7d\n"

/-- Body `file_id fallback to hash` of `TestClient_UploadFile`. -/
def bodyUploadNoID : String :=
  "\x7b\"data\":\x7b\"file_id\":\"\",\"hash\":\"test-hash\",\"name\":\"test.txt\"" ++
    ",\"size\":100\x7d,\"status\":\"success\"\x7d\n"

/-- Body of `TestClient_ListDirectories`: `data` is a list of directory records. -/
def bodyRecordList : String :=
  "\x7b\"data\":[\x7b\"created_at\":\"2023-01-01T00:00:00Z\",\"description\":\"Te" ++
    "st directory 1\",\"file_count\":5,\"id\":\"dir1\",\"name\":\"Directory 1\",\"t" ++
    "otal_size\":1024\x7d,\x7b\"created_at\":\"2023-01-02T00:00:00Z\",\"description" ++
    "\":\"Test directory 2\",\"file_count\":10,\"id\":\"dir2\",\"name\":\"Directory" ++
    " 2\",\"total_size\":2048\x7d]\x7d\n"

/-- A listing of the root directory in the shape that `ListDirectories` decodes. -/
def bodyRoot : String :=
  "\x7b\"data\":\x7b\"directory\":\x7b\"createdAt\":\"2023-01-01T00:00:00Z\",\"id" ++
    "\":\"root\",\"name\":\"root\",\"size\":3072\x7d,\"files\":[\x7b\"id\":\"file1" ++
    "\",\"name\":\"file1.txt\",\"size\":100\x7d],\"subdirectories\":[\x7b\"createdA" ++
    "t\":\"2023-01-01T00:00:00Z\",\"id\":\"dir1\",\"name\":\"Directory 1\",\"size\"" ++
    ":1024,\"updatedAt\":\"2023-01-01T00:00:00Z\"\x7d,\x7b\"createdAt\":\"2023-01-0" ++
    "2T00:00:00Z\",\"id\":\"dir2\",\"name\":\"Directory 2\",\"size\":2048,\"updated" ++
    "At\":\"2023-01-02T00:00:00Z\"\x7d]\x7d\x7d\n"

/-- Body of `TestClient_GetDirectoryFiles`. -/
def bodyFiles : String :=
  "\x7b\"data\":\x7b\"files\":[\x7b\"content_type\":\"text/plain\",\"hash\":\"has" ++
    "h1\",\"id\":\"file1\",\"name\":\"file1.txt\",\"size\":100\x7d,\x7b\"content_ty" ++
    "pe\":\"text/plain\",\"hash\":\"hash2\",\"id\":\"file2\",\"name\":\"file2.txt\"" ++
    ",\"size\":200\x7d]\x7d\x7d\n"

/-- What `encoding/json`, `mime/multipart` and `time` yield on the sample bodies: a body that
is not JSON is refused, and so is `bodyRecordList` by the decoder of `ListDirectories`, which
expects an object under `data` (the text of the Go type is elided in the message). The form
boundary, which Go draws at random, is `b`. -/
def sampleCodec : Codec where
  multipartForm := fun fileName content =>
    ("--b\r\nContent-Disposition: form-data; name=\"file\"; filename=\"" ++ fileName ++
      "\"\r\nContent-Type: application/octet-stream\r\n\r\n" ++ content ++ "\r\n--b--\r\n",
     "multipart/form-data; boundary=b")
  decodeUpload := fun body =>
    if body = bodyUpload then
      .ok { Data := { FileID := "test-file-id", Hash := "test-hash", Name := "test.txt",
                      Size := 100 },
            Status := "success" }
    else if body = bodyUploadNoID then
      .ok { Data := { FileID := "", Hash := "test-hash", Name := "test.txt", Size := 100 },
            Status := "success" }
    else .error "invalid character 'i' looking for beginning of value"
  decodeList := fun body =>
    if body = bodyRoot then
      .ok { Directory := { ID := "root", Name := "root", Size := 3072,
                           CreatedAt := "2023-01-01T00:00:00Z" },
            Subdirectories :=
              [{ ID := "dir1", Name := "Directory 1", Size := 1024,
                 CreatedAt := "2023-01-01T00:00:00Z", UpdatedAt := "2023-01-01T00:00:00Z" },
               { ID := "dir2", Name := "Directory 2", Size := 2048,
                 CreatedAt := "2023-01-02T00:00:00Z", UpdatedAt := "2023-01-02T00:00:00Z" }],
            Files := [{ ID := "file1", Name := "file1.txt", Size := 100 }] }
    else if body = bodyRecordList then
      .error "json: cannot unmarshal array into Go struct field .data of type struct"
    else .error "invalid character 'i' looking for beginning of value"
  decodeCreate := fun _ => .error "invalid character 'i' looking for beginning of value"
  decodeFiles := fun body =>
    if body = bodyFiles then
      .ok [{ ID := "file1", Name := "file1.txt", Size := 100, ContentType := "text/plain",
             Hash := "hash1" },
           { ID := "file2", Name := "file2.txt", Size := 200, ContentType := "text/plain",
             Hash := "hash2" }]
    else .error "invalid character 'i' looking for beginning of value"
  marshalCreate := fun name description =>
    .ok ("\x7b\"description\":\"" ++ description ++ "\",\"name\":\"" ++ name ++ "\"\x7d")
  parseTime := fun s =>
    if s = "2023-01-01T00:00:00Z" then { unixNano := 1672531200000000000 }
    else if s = "2023-01-02T00:00:00Z" then { unixNano := 1672617600000000000 }
    else { unixNano := -62135596800000000000 }
  now := { unixNano := 1700000000000000000 }

/-- A service that answers every request with the same status and body, as the `httptest`
servers of `client_test.go` do. -/
def sampleHttp (status : Int) (body : String) : Http where
  NewRequest := fun _ _ => none
  Do := fun _ => .ok { StatusCode := status, Body := body }

/-- The client of `client_test.go`. -/
def testClient : Client := NewClient "http://127.0.0.1:8080" "test-id" "test-secret" ""

end Koneksi

/-!
# Tool calls between the bridge and the server
-/

namespace Mcp

/-- Lines 195-201 of the server's `handleToolCall`: the tool name read from the request and
the arguments decoded from it. -/
def toolCallInput (L : Lib) (request : String) :
    String × Except String (List (String × Value)) :=
  (L.gjsonString request "params.name",
   L.jsonUnmarshalMap (L.gjsonString request "params.arguments"))

/-- Decoded arguments of a `backup_file` call that asks for compression and encryption. -/
def argsBackupEncrypt : List (String × Value) :=
  [("filePath", Value.str "/tmp/a.txt"), ("compress", Value.bool true),
   ("encrypt", Value.bool true), ("encryptPassword", Value.str "pw")]

/-- The envelope that answers `reqUnknown`. -/
def envUnknown : Value :=
  Value.map [("jsonrpc", Value.str "2.0"), ("id", Value.number 1),
    ("error", Value.map [("code", Value.number (-32603)),
      ("message", Value.str "unknown method: unknown")])]

end Mcp

namespace Bridge

open Mcp

/-- The package `encoding/json` as the bridge's tool-call endpoint uses it. -/
structure Json where
  /-- The call `Decode(&toolCall)` on the body of the HTTP request: the fields `Name` and
  `Arguments` (`none` is the nil map), or the error's message. -/
  decodeToolCall : String → Except String (String × Option (List (String × Value)))
  /-- The call `json.Marshal(v)`: the text written for a JSON document. -/
  marshal : Value → Except String String

/-- The JSON document of a `map[string]interface{}` that may be nil. -/
def argumentsValue : Option (List (String × Value)) → Value
  | none => Value.null
  | some kv => Value.map kv

/-- The value `mcpReq` of `handleToolCall` (lines 264-272). -/
def mcpReq (name argsJSON : String) : MCPRequest :=
  { JSONRPC := "2.0", ID := GoValue.null, Method := "tools/call",
    Params := [("name", GoValue.str name), ("arguments", GoValue.str argsJSON)] }

/-- Lines 241-272 of the bridge's `handleToolCall`: the request handed to `sendRequest`, or
the error text of the answer with status 400. -/
def toolCallRequest (J : Json) (body : String) : Except String MCPRequest :=
  match J.decodeToolCall body with
  | .error _ => .error "Invalid request body"
  | .ok (name, arguments) =>
    match J.marshal (argumentsValue arguments) with
    | .error _ => .error "Invalid arguments"
    | .ok argsJSON => .ok (mcpReq name argsJSON)

/-- The JSON document of an `interface{}` value; the model keeps no contents of a slice or
map, so `composite` has none. -/
def GoValue.toValue : GoValue → Option Value
  | .null => some Value.null
  | .int n => some (Value.number n)
  | .float64 x => some (Value.number x)
  | .str s => some (Value.str s)
  | .bool b => some (Value.bool b)
  | .composite => none

/-- The JSON document of the field `Params`. -/
def paramsValue : List (String × GoValue) → Option (List (String × Value))
  | [] => some []
  | (k, v) :: rest =>
    match v.toValue, paramsValue rest with
    | some v', some rest' => some ((k, v') :: rest')
    | _, _ => none

/-- The JSON document of an `MCPRequest`: its keys are the struct tags `jsonrpc`, `id`,
`method` and `params`. -/
def MCPRequest.toValue (req : MCPRequest) : Option Value :=
  match req.ID.toValue, paramsValue req.Params with
  | some id, some params =>
    some (Value.map [("jsonrpc", Value.str req.JSONRPC), ("id", id),
      ("method", Value.str req.Method), ("params", Value.map params)])
  | _, _ => none

/-- The document that `sendRequest` marshals for `req` (lines 131-142): the request with the
identifier it has after registration. -/
def requestDocument (b : MCPBridge) (req : MCPRequest) : Option Value :=
  match register b req with
  | .error _ => none
  | .ok (_, id, _) => MCPRequest.toValue { req with ID := id }

/-- The line that `sendRequest` writes to the server's standard input for `req` (lines
142-150), when `json.Marshal` succeeds. -/
def requestLine (J : Json) (b : MCPBridge) (req : MCPRequest) : Option String :=
  match requestDocument b req with
  | none => none
  | some doc =>
    match J.marshal doc with
    | .error _ => none
    | .ok text => some text

/-- On `text`, `gjson` finds at the paths `method`, `params.name` and `params.arguments` the
strings that the document `doc` holds there. -/
def GjsonReads (L : Lib) (text : String) (doc : Value) : Prop :=
  (∀ v, doc.field "method" = Value.str v → L.gjsonString text "method" = v) ∧
  (∀ v, (doc.field "params").field "name" = Value.str v →
    L.gjsonString text "params.name" = v) ∧
  (∀ v, (doc.field "params").field "arguments" = Value.str v →
    L.gjsonString text "params.arguments" = v)

/-! ### Sample wire data -/

/-- A body posted to the endpoint `/api/v1/mcp/tools/call`. -/
def bodyToolCall : String :=
  "\x7b\"name\":\"upload_file\",\"arguments\":\x7b\"filePath\":\"/tmp/a.txt\",\"d" ++
    "irectoryId\":\"dir-9\"\x7d\x7d"

/-- The text that `json.Marshal` writes for the arguments of `bodyToolCall` (keys sorted). -/
def wireArgs : String :=
  "\x7b\"directoryId\":\"dir-9\",\"filePath\":\"/tmp/a.txt\"\x7d"

/-- The line that a new bridge writes for `bodyToolCall`: fields in the order of the struct,
map keys sorted, the first value of the counter as identifier. -/
def wireLine : String :=
  "\x7b\"jsonrpc\":\"2.0\",\"id\":1,\"method\":\"tools/call\",\"params\":\x7b\"ar" ++
    "guments\":\"\x7b\\\"directoryId\\\":\\\"dir-9\\\",\\\"filePath\\\":\\\"/tmp/a." ++
    "txt\\\"\x7d\",\"name\":\"upload_file\"\x7d\x7d"
/-- What `encoding/json` yields in the bridge on the sample body: its decoding, and the texts
marshalled for the request (the document with a key `jsonrpc`) and for its arguments. -/
def sampleJson : Json where
  decodeToolCall := fun body =>
    if body = bodyToolCall then
      .ok ("upload_file",
        some [("filePath", Value.str "/tmp/a.txt"), ("directoryId", Value.str "dir-9")])
    else .error "invalid character 'i' looking for beginning of value"
  marshal := fun v => if v.hasKey "jsonrpc" then .ok wireLine else .ok wireArgs

/-- What `gjson` and `encoding/json` yield in the server on `wireLine` and `wireArgs`; other
texts as in `sampleLib`. -/
def wireLib : Lib where
  gjsonString := fun json path =>
    if json = wireLine then
      if path = "method" then "tools/call"
      else if path = "params.name" then "upload_file"
      else if path = "params.arguments" then wireArgs
      else ""
    else sampleLib.gjsonString json path
  gjsonValue := fun json path =>
    if json = wireLine then
      if path = "id" then Value.number 1 else Value.null
    else sampleLib.gjsonValue json path
  jsonUnmarshalMap := fun data =>
    if data = wireLine then
      .ok [("jsonrpc", Value.str "2.0"), ("id", Value.number 1),
        ("method", Value.str "tools/call"),
        ("params", Value.map [("arguments", Value.str wireArgs),
          ("name", Value.str "upload_file")])]
    else if data = wireArgs then
      .ok [("filePath", Value.str "/tmp/a.txt"), ("directoryId", Value.str "dir-9")]
    else sampleLib.jsonUnmarshalMap data
  filepathBase := sampleLib.filepathBase
  filepathDir := sampleLib.filepathDir
  formatTime := sampleLib.formatTime

end Bridge

/-!
# The line scanner in front of the two loops (`bufio.Scanner`)

The bridge reads the subprocess's output, and the server its standard input, through a
scanner made by `bufio.NewScanner` and left with its default buffer and split function
(bridge `main.go:95,170`, server `main.go:40,46`). The scanner is library code; it is modelled
by what the loops observe of it.
* A stream is given by its lines: the bytes before each newline, in order.
* `Scan` yields a line as the next token when the line and its newline fit the buffer of
  `MaxScanTokenSize` bytes. At the first line that does not fit, `Scan` returns false (the
  error is `ErrTooLong`) and no later line is ever yielded.
* `Text` is the line without a trailing carriage return.
-/

namespace Scanner

/-- Go `bufio.MaxScanTokenSize`. -/
def MaxScanTokenSize : Nat := 64 * 1024

/-- Whether `Scan` gives up at a line: the line has `MaxScanTokenSize` bytes or more. -/
def tooLong (line : String) : Bool := decide (MaxScanTokenSize ≤ line.utf8ByteSize)

/-- Go `dropCR` of `bufio.ScanLines`. -/
def dropCR (line : String) : String :=
  if line.data.getLast? = some '\r' then String.mk line.data.dropLast else line

/-- The tokens that successive calls of `Scan` and `Text` yield for a stream. -/
def scanLines : List String → List String
  | [] => []
  | line :: rest => if tooLong line then [] else dropCR line :: scanLines rest

/-- A run of `MaxScanTokenSize` blanks. -/
def padding : String := String.mk (List.replicate MaxScanTokenSize ' ')

end Scanner

namespace Bridge

/-- Go `readResponses` on the output stream of the subprocess: the scanner of `b.scanner`
and the loop over its tokens. -/
def readStream (unmarshal : String → Option MCPResponse) (stream : List String)
    (b : MCPBridge) : Except Fault MCPBridge :=
  readResponses unmarshal (Scanner.scanLines stream) b

/-- A line of log text followed by 64 KiB of blanks. -/
def lineLong : String := "Koneksi MCP server started" ++ Scanner.padding

end Bridge

namespace Mcp

open Koneksi

/-- The tokens of the server's standard input, each with the world in which its line
arrives. -/
def scanInput : List (World × String) → List (World × String)
  | [] => []
  | (W, line) :: rest =>
    if Scanner.tooLong line then [] else (W, Scanner.dropCR line) :: scanInput rest

/-- The message loop of `main` on the standard input stream: the scanner of line 40 and the
loop over its tokens. -/
def mainStream (L : Lib) (input : List (World × String)) (s : Server) : Iteration :=
  mainLoop L (scanInput input) s

/-- An `upload_file` call without identifier (the arguments are those of `reqBackup`). -/
def reqNotifyUpload : String :=
  "\x7b\"jsonrpc\":\"2.0\",\"method\":\"tools/call\",\"params\":\x7b\"name\":\"up" ++
    "load_file\",\"arguments\":\"\x7b\\\"filePath\\\":\\\"/tmp/a.txt\\\"\x7d\"\x7d" ++
    "\x7d"

/-- An `initialize` request whose object has the key `id` twice. -/
def reqDupId : String :=
  "\x7b\"jsonrpc\":\"2.0\",\"id\":1,\"id\":2,\"method\":\"initialize\"\x7d"

/-- The call `reqNotifyUpload` followed by 64 KiB of blanks. -/
def reqLongNotify : String := reqNotifyUpload ++ Scanner.padding

/-- The request `reqInit` followed by 64 KiB of blanks. -/
def reqLongInit : String := reqInit ++ Scanner.padding

/-- What `gjson` and `encoding/json` yield on `reqNotifyUpload` and `reqDupId`; other texts
as in `sampleLib`. Of a key that occurs twice `gjson` returns the first value, and
`encoding/json` keeps the last. -/
def edgeLib : Lib where
  gjsonString := fun json path =>
    if json = reqNotifyUpload then
      if path = "method" then "tools/call"
      else if path = "params.name" then "upload_file"
      else if path = "params.arguments" then argsBackup
      else ""
    else if json = reqDupId then
      if path = "method" then "initialize" else ""
    else sampleLib.gjsonString json path
  gjsonValue := fun json path =>
    if json = reqNotifyUpload then Value.null
    else if json = reqDupId then
      if path = "id" then Value.number 1 else Value.null
    else sampleLib.gjsonValue json path
  jsonUnmarshalMap := fun data =>
    if data = reqNotifyUpload then
      .ok [("jsonrpc", Value.str "2.0"), ("method", Value.str "tools/call"),
        ("params", Value.map [("name", Value.str "upload_file"),
          ("arguments", Value.str argsBackup)])]
    else if data = reqDupId then
      .ok [("jsonrpc", Value.str "2.0"), ("id", Value.number 2),
        ("method", Value.str "initialize")]
    else sampleLib.jsonUnmarshalMap data
  filepathBase := sampleLib.filepathBase
  filepathDir := sampleLib.filepathDir
  formatTime := sampleLib.formatTime

/-- A library that reads a text of 64 KiB or more as `L` reads `short`, and every other text
as `L` does; for `short` followed by blanks, which are insignificant in JSON, this is what
the JSON libraries do. -/
def padLib (L : Lib) (short : String) : Lib where
  gjsonString := fun json path =>
    if Scanner.tooLong json then L.gjsonString short path else L.gjsonString json path
  gjsonValue := fun json path =>
    if Scanner.tooLong json then L.gjsonValue short path else L.gjsonValue json path
  jsonUnmarshalMap := fun data =>
    if Scanner.tooLong data then L.jsonUnmarshalMap short else L.jsonUnmarshalMap data
  filepathBase := L.filepathBase
  filepathDir := L.filepathDir
  formatTime := L.formatTime

end Mcp

/-! ## Theorems -/

namespace Bridge

/-! ### The pending table -/

theorem delete_cons_self (k : GoValue) (c : Nat) (m : List (GoValue × Nat)) :
    delete k ((k, c) :: m) = delete k m := by
  simp [delete]

theorem delete_cons_ne {k a : GoValue} (h : a ≠ k) (c : Nat) (m : List (GoValue × Nat)) :
    delete k ((a, c) :: m) = (a, c) :: delete k m := by
  simp [delete, h]

theorem lookup_cons_self (k : GoValue) (c : Nat) (m : List (GoValue × Nat)) :
    lookup k ((k, c) :: m) = some c := by
  simp [lookup]

theorem lookup_cons_ne {k a : GoValue} (h : a ≠ k) (c : Nat) (m : List (GoValue × Nat)) :
    lookup k ((a, c) :: m) = lookup k m := by
  simp [lookup, h]

theorem lookup_delete_self (k : GoValue) (m : List (GoValue × Nat)) :
    lookup k (delete k m) = none := by
  induction m with
  | nil => rfl
  | cons e rest ih =>
    obtain ⟨a, c⟩ := e
    by_cases h1 : a = k
    · subst h1
      rw [delete_cons_self, ih]
    · rw [delete_cons_ne h1, lookup_cons_ne h1, ih]

theorem lookup_delete_ne {k k' : GoValue} (h : k' ≠ k) (m : List (GoValue × Nat)) :
    lookup k' (delete k m) = lookup k' m := by
  induction m with
  | nil => rfl
  | cons e rest ih =>
    obtain ⟨a, c⟩ := e
    by_cases h1 : a = k
    · subst h1
      rw [delete_cons_self, ih, lookup_cons_ne (Ne.symm h)]
    · rw [delete_cons_ne h1]
      by_cases h2 : a = k'
      · subst h2
        rw [lookup_cons_self, lookup_cons_self]
      · rw [lookup_cons_ne h2, lookup_cons_ne h2, ih]

theorem lookup_store_self (k : GoValue) (c : Nat) (m : List (GoValue × Nat)) :
    lookup k (store k c m) = some c := by
  rw [store, lookup_cons_self]

theorem lookup_store_ne {k k' : GoValue} (h : k' ≠ k) (c : Nat) (m : List (GoValue × Nat)) :
    lookup k' (store k c m) = lookup k' m := by
  rw [store, lookup_cons_ne (Ne.symm h), lookup_delete_ne h]

theorem mem_of_lookup {k : GoValue} {c : Nat} {m : List (GoValue × Nat)}
    (h : lookup k m = some c) : (k, c) ∈ m := by
  induction m with
  | nil => simp [lookup] at h
  | cons e rest ih =>
    obtain ⟨a, d⟩ := e
    by_cases h1 : a = k
    · simp [lookup, h1] at h
      simp [h1, h]
    · simp [lookup, h1] at h
      exact List.mem_cons_of_mem _ (ih h)

theorem mem_delete {k : GoValue} {e : GoValue × Nat} {m : List (GoValue × Nat)}
    (h : e ∈ delete k m) : e ∈ m ∧ e.1 ≠ k := by
  simpa [delete] using h

/-! ### The locked sections and the reader -/

theorem register_ok {b b1 : MCPBridge} {req : MCPRequest} {id : GoValue} {respChan : Nat}
    (h : register b req = .ok (b1, id, respChan)) :
    id.hashable = true ∧ respChan = b.chans.length ∧
      id = (if req.ID = GoValue.null then GoValue.int (wrapInt (b.requestID + 1)) else req.ID) ∧
      b1.requestID = (if req.ID = GoValue.null then wrapInt (b.requestID + 1) else b.requestID) ∧
      b1.pending = store id respChan b.pending ∧ b1.chans = b.chans ++ [[]] ∧ b1.log = b.log := by
  unfold register at h
  by_cases hh : (if req.ID = GoValue.null then
      GoValue.int (if req.ID = GoValue.null then wrapInt (b.requestID + 1) else b.requestID)
      else req.ID).hashable = true
  · rw [if_pos hh] at h
    injection h with h
    injection h with h1 h2
    injection h2 with h2 h3
    subst h1 h2 h3
    refine ⟨hh, rfl, ?_, rfl, rfl, rfl, rfl⟩
    by_cases hn : req.ID = GoValue.null <;> simp [hn]
  · rw [if_neg hh] at h
    injection h

theorem register_fault {b : MCPBridge} {req : MCPRequest} {f : Fault}
    (h : register b req = .error f) : f = Fault.unhashableKey := by
  unfold register at h
  by_cases hh : (if req.ID = GoValue.null then
      GoValue.int (if req.ID = GoValue.null then wrapInt (b.requestID + 1) else b.requestID)
      else req.ID).hashable = true
  · rw [if_pos hh] at h
    injection h
  · rw [if_neg hh] at h
    injection h with h
    exact h.symm

theorem register_listTools (b : MCPBridge) :
    register b listToolsReq = .ok
      ({ requestID := wrapInt (b.requestID + 1),
         pending := store (GoValue.int (wrapInt (b.requestID + 1))) b.chans.length b.pending,
         chans := b.chans ++ [[]], log := b.log },
       GoValue.int (wrapInt (b.requestID + 1)), b.chans.length) :=
  rfl

theorem deleteKey_ok (cause : Cause) {id : GoValue} (b : MCPBridge) (h : id.hashable = true) :
    ∃ b', deleteKey cause id b = .ok b' ∧ b'.pending = delete id b.pending ∧
      b'.chans = b.chans ∧ b'.requestID = b.requestID := by
  unfold deleteKey
  rw [if_pos h]
  exact ⟨_, rfl, rfl, rfl, rfl⟩

theorem chanSend_empty {chans : List (List RawMessage)} {ch : Nat} (v : RawMessage)
    (h : chans[ch]? = some []) : chanSend chans ch v = .ok (chans.set ch [v]) := by
  unfold chanSend
  rw [h]
  simp

theorem chanSend_other {chans chans' : List (List RawMessage)} {ch c : Nat} {v : RawMessage}
    (h : chanSend chans ch v = .ok chans') (hne : ch ≠ c) : chans'[c]? = chans[c]? := by
  unfold chanSend at h
  cases hslot : chans[ch]? with
  | none =>
    rw [hslot] at h
    injection h
  | some buf =>
    rw [hslot] at h
    simp only at h
    split at h
    · injection h with h
      rw [← h, List.getElem?_set_ne hne]
    · injection h

theorem lt_length_of_getElem_some {α : Type} {l : List α} {i : Nat} {a : α} (h : l[i]? = some a) :
    i < l.length := by
  by_contra hn
  rw [List.getElem?_eq_none (Nat.le_of_not_lt hn)] at h
  injection h

theorem handleLine_undecodable {unmarshal : String → Option MCPResponse} (b : MCPBridge)
    {line : String} (h : unmarshal line = none) : handleLine unmarshal b line = .ok b := by
  unfold handleLine
  rw [h]

theorem handleLine_absent {unmarshal : String → Option MCPResponse} (b : MCPBridge)
    {line : String} {resp : MCPResponse} (hdec : unmarshal line = some resp)
    (hid : resp.ID.hashable = true) (habsent : lookup resp.ID b.pending = none) :
    handleLine unmarshal b line = .ok b := by
  unfold handleLine
  rw [hdec]
  simp only [hid, if_true, habsent]

theorem handleLine_found {unmarshal : String → Option MCPResponse} (b : MCPBridge)
    {line : String} {resp : MCPResponse} {ch : Nat} {chans : List (List RawMessage)}
    (hdec : unmarshal line = some resp) (hid : resp.ID.hashable = true)
    (hfound : lookup resp.ID b.pending = some ch)
    (hsend : chanSend b.chans ch (if resp.Error.isSome then none else resp.Result) = .ok chans) :
    handleLine unmarshal b line = .ok
      { b with
        pending := delete resp.ID b.pending,
        chans := chans,
        log := b.log ++ [Event.removed ch Cause.reply,
          Event.delivered ch (if resp.Error.isSome then none else resp.Result)] } := by
  unfold handleLine
  rw [hdec]
  simp only [hid, if_true, hfound, hsend]

theorem handleLine_ok_cases {unmarshal : String → Option MCPResponse} {b b' : MCPBridge}
    {line : String} (h : handleLine unmarshal b line = .ok b') :
    b' = b ∨ ∃ resp ch chans, unmarshal line = some resp ∧ resp.ID.hashable = true ∧
      lookup resp.ID b.pending = some ch ∧
      chanSend b.chans ch (if resp.Error.isSome then none else resp.Result) = .ok chans ∧
      b' = { b with
          pending := delete resp.ID b.pending,
          chans := chans,
          log := b.log ++ [Event.removed ch Cause.reply,
            Event.delivered ch (if resp.Error.isSome then none else resp.Result)] } := by
  cases hdec : unmarshal line with
  | none =>
    rw [handleLine_undecodable b hdec] at h
    injection h with h
    exact Or.inl h.symm
  | some resp =>
    by_cases hid : resp.ID.hashable = true
    · cases hfound : lookup resp.ID b.pending with
      | none =>
        rw [handleLine_absent b hdec hid hfound] at h
        injection h with h
        exact Or.inl h.symm
      | some ch =>
        cases hsend : chanSend b.chans ch (if resp.Error.isSome then none else resp.Result) with
        | error f =>
          unfold handleLine at h
          rw [hdec] at h
          simp only [hid, if_true, hfound, hsend] at h
          injection h
        | ok chans =>
          rw [handleLine_found b hdec hid hfound hsend] at h
          injection h with h
          exact Or.inr ⟨resp, ch, chans, rfl, hid, hfound, hsend, h.symm⟩
    · unfold handleLine at h
      rw [hdec] at h
      simp only [hid] at h
      injection h

theorem handleLine_other_key {unmarshal : String → Option MCPResponse} {b b' : MCPBridge}
    {line : String} {k : GoValue} (h : handleLine unmarshal b line = .ok b')
    (hk : ∀ resp, unmarshal line = some resp → resp.ID ≠ k) :
    lookup k b'.pending = lookup k b.pending := by
  rcases handleLine_ok_cases h with h1 | ⟨resp, ch, chans, hdec, _, _, _, h1⟩
  · rw [h1]
  · rw [h1]
    exact lookup_delete_ne (Ne.symm (hk resp hdec)) _

/-- A decoded response whose identifier is a JSON array or object stops the reader: indexing
the table with it panics. -/
theorem handleLine_composite (unmarshal : String → Option MCPResponse) (b : MCPBridge)
    (line : String) (resp : MCPResponse) (hdec : unmarshal line = some resp)
    (hid : resp.ID = GoValue.composite) :
    handleLine unmarshal b line = .error Fault.unhashableKey := by
  unfold handleLine
  rw [hdec]
  simp only [hid, GoValue.hashable]
  rfl

theorem readResponses_append (unmarshal : String → Option MCPResponse) (xs ys : List String)
    (b : MCPBridge) :
    readResponses unmarshal (xs ++ ys) b =
      match readResponses unmarshal xs b with
      | .ok b' => readResponses unmarshal ys b'
      | .error f => .error f := by
  induction xs generalizing b with
  | nil => rfl
  | cons x rest ih =>
    simp only [List.cons_append, readResponses]
    cases handleLine unmarshal b x with
    | ok b' => exact ih b'
    | error f => rfl

theorem readResponses_other_key {unmarshal : String → Option MCPResponse} {lines : List String}
    {b b' : MCPBridge} {k : GoValue} (h : readResponses unmarshal lines b = .ok b')
    (hk : ∀ line ∈ lines, ∀ resp, unmarshal line = some resp → resp.ID ≠ k) :
    lookup k b'.pending = lookup k b.pending := by
  induction lines generalizing b with
  | nil =>
    injection h with h
    rw [h]
  | cons x rest ih =>
    simp only [readResponses] at h
    cases hx : handleLine unmarshal b x with
    | error f =>
      rw [hx] at h
      injection h
    | ok b1 =>
      rw [hx] at h
      rw [ih h (fun line hl => hk line (List.mem_cons_of_mem _ hl))]
      exact handleLine_other_key hx (hk x (List.mem_cons_self _ _))

theorem sendRequest_wait {unmarshal : String → Option MCPResponse} {b b1 b2 : MCPBridge}
    {req : MCPRequest} {id : GoValue} {respChan : Nat} {lines : List String}
    (hreg : register b req = .ok (b1, id, respChan))
    (hread : readResponses unmarshal lines b1 = .ok b2) :
    sendRequest unmarshal b req none none lines =
      match chanRecv b2.chans respChan with
      | some (resp, chans) => .ok ({ b2 with chans := chans }, resp, none)
      | none =>
        match deleteKey Cause.timeout id b2 with
        | .ok b3 => .ok (b3, none, some "request timeout")
        | .error f => .error f := by
  unfold sendRequest
  rw [hreg]
  simp only [hread]

theorem sendRequest_fail (unmarshal : String → Option MCPResponse) {b b1 : MCPBridge}
    {req : MCPRequest} {id : GoValue} {respChan : Nat} {marshalErr writeErr : Option String}
    {err : String} (lines : List String)
    (hreg : register b req = .ok (b1, id, respChan))
    (herr : marshalErr = some err ∨ (marshalErr = none ∧ writeErr = some err)) :
    sendRequest unmarshal b req marshalErr writeErr lines =
      match deleteKey Cause.sendFailure id b1 with
      | .ok b2 => .ok (b2, none, some err)
      | .error f => .error f := by
  unfold sendRequest
  rw [hreg]
  rcases herr with h | ⟨h1, h2⟩
  · rw [h]
  · rw [h1, h2]

/-! ### Histories -/

theorem deliveries_append (ch : Nat) (l₁ l₂ : List Event) :
    deliveries ch (l₁ ++ l₂) = deliveries ch l₁ + deliveries ch l₂ := by
  simp [deliveries, List.countP_append]

theorem removals_append (ch : Nat) (l₁ l₂ : List Event) :
    removals ch (l₁ ++ l₂) = removals ch l₁ + removals ch l₂ := by
  simp [removals, List.countP_append]

theorem deliveries_removed (ch c : Nat) (x : Cause) : deliveries ch [Event.removed c x] = 0 := by
  simp [deliveries]

theorem removals_delivered (ch c : Nat) (v : RawMessage) :
    removals ch [Event.delivered c v] = 0 := by
  simp [removals]

theorem deliveries_delivered (ch c : Nat) (v : RawMessage) :
    deliveries ch [Event.delivered c v] = if c = ch then 1 else 0 := by
  by_cases h : c = ch <;> simp [deliveries, h]

theorem removals_removed (ch c : Nat) (x : Cause) :
    removals ch [Event.removed c x] = if c = ch then 1 else 0 := by
  by_cases h : c = ch <;> simp [removals, h]

theorem not_removed_of_removals_zero {ch : Nat} {log : List Event} (h : removals ch log = 0)
    (x : Cause) : Event.removed ch x ∉ log := by
  intro hm
  have := (List.countP_eq_zero.mp h) _ hm
  simp at this

theorem not_delivered_of_deliveries_zero {ch : Nat} {log : List Event}
    (h : deliveries ch log = 0) (v : RawMessage) : Event.delivered ch v ∉ log := by
  intro hm
  have := (List.countP_eq_zero.mp h) _ hm
  simp at this

/-! ### The invariant of the correlation state -/

theorem inv_new : Inv NewMCPBridge where
  fresh := by intro k c h; simp [NewMCPBridge] at h
  owner := by intro k₁ k₂ c h; simp [NewMCPBridge] at h
  once := by intro c; simp [NewMCPBridge, deliveries, removals]
  unborn := by intro c _; simp [NewMCPBridge, deliveries, removals]
  exclusive := by intro c x y h; simp [NewMCPBridge] at h
  paired := by intro c v h; simp [NewMCPBridge] at h

theorem inv_register {b b1 : MCPBridge} {req : MCPRequest} {id : GoValue} {respChan : Nat}
    (hinv : Inv b) (h : register b req = .ok (b1, id, respChan)) : Inv b1 := by
  obtain ⟨-, hc, -, -, hp, hch, hlog⟩ := register_ok h
  have hold : ∀ k c, (k, c) ∈ b1.pending → (k, c) = (id, respChan) ∨ (k, c) ∈ b.pending := by
    intro k c hm
    rw [hp, store, List.mem_cons] at hm
    rcases hm with hm | hm
    · exact Or.inl hm
    · exact Or.inr (mem_delete hm).1
  have hlt : ∀ k c, (k, c) ∈ b.pending → c < b.chans.length := fun k c hm =>
    lt_length_of_getElem_some (hinv.fresh k c hm).1
  refine ⟨?_, ?_, ?_, ?_, ?_, ?_⟩
  · intro k c hm
    rw [hlog, hch]
    rcases hold k c hm with heq | hm
    · injection heq with _ h2
      subst h2
      rw [hc]
      exact ⟨by simp, hinv.unborn _ (Nat.le_refl _)⟩
    · obtain ⟨h1, h2⟩ := hinv.fresh k c hm
      exact ⟨by rw [List.getElem?_append_left (hlt k c hm)]; exact h1, h2⟩
  · intro k₁ k₂ c h1 h2
    rcases hold k₁ c h1 with e1 | m1 <;> rcases hold k₂ c h2 with e2 | m2
    · injection e1 with a1 _
      injection e2 with a2 _
      rw [a1, a2]
    · injection e1 with _ a1
      have := hlt k₂ c m2
      omega
    · injection e2 with _ a2
      have := hlt k₁ c m1
      omega
    · exact hinv.owner k₁ k₂ c m1 m2
  · intro c
    rw [hlog]
    exact hinv.once c
  · intro c hle
    rw [hlog]
    rw [hch, List.length_append] at hle
    exact hinv.unborn c (by simp at hle; omega)
  · intro c x y
    rw [hlog]
    exact hinv.exclusive c x y
  · intro c v
    rw [hlog]
    exact hinv.paired c v

theorem inv_deleteKey {b b' : MCPBridge} {cause : Cause} {id : GoValue} (hinv : Inv b)
    (h : deleteKey cause id b = .ok b') : Inv b' := by
  unfold deleteKey at h
  by_cases hh : id.hashable = true
  · rw [if_pos hh] at h
    injection h with h
    cases hfound : lookup id b.pending with
    | none =>
      rw [hfound] at h
      subst h
      exact ⟨fun k c hm => hinv.fresh k c (mem_delete hm).1,
        fun k₁ k₂ c h1 h2 => hinv.owner k₁ k₂ c (mem_delete h1).1 (mem_delete h2).1,
        hinv.once, hinv.unborn, hinv.exclusive, hinv.paired⟩
    | some ch =>
      rw [hfound] at h
      subst h
      have hmem := mem_of_lookup hfound
      obtain ⟨hslot, hd0, hr0⟩ := hinv.fresh id ch hmem
      refine ⟨?_, ?_, ?_, ?_, ?_, ?_⟩
      · intro k c hm
        obtain ⟨hm1, hne⟩ := mem_delete hm
        obtain ⟨h1, h2, h3⟩ := hinv.fresh k c hm1
        have hcne : ch ≠ c := fun e => hne (hinv.owner k id c hm1 (e ▸ hmem))
        refine ⟨h1, ?_, ?_⟩
        · show deliveries c (b.log ++ [Event.removed ch cause]) = 0
          rw [deliveries_append, deliveries_removed, h2]
        · show removals c (b.log ++ [Event.removed ch cause]) = 0
          rw [removals_append, removals_removed, if_neg hcne, h3]
      · exact fun k₁ k₂ c h1 h2 => hinv.owner k₁ k₂ c (mem_delete h1).1 (mem_delete h2).1
      · intro c
        show deliveries c (b.log ++ [Event.removed ch cause]) ≤ 1 ∧
          removals c (b.log ++ [Event.removed ch cause]) ≤ 1
        rw [deliveries_append, deliveries_removed, removals_append, removals_removed]
        refine ⟨(hinv.once c).1, ?_⟩
        by_cases e : ch = c
        · rw [if_pos e, ← e, hr0]
        · rw [if_neg e]
          exact (hinv.once c).2
      · intro c hle
        show deliveries c (b.log ++ [Event.removed ch cause]) = 0 ∧
          removals c (b.log ++ [Event.removed ch cause]) = 0
        have hlt := lt_length_of_getElem_some hslot
        have hcne : ch ≠ c := by
          intro e
          rw [e] at hlt
          exact absurd hle (Nat.not_le_of_lt hlt)
        rw [deliveries_append, deliveries_removed, removals_append, removals_removed,
          if_neg hcne]
        exact hinv.unborn c hle
      · intro c x y hx hy
        have hx' : Event.removed c x ∈ b.log ++ [Event.removed ch cause] := hx
        have hy' : Event.removed c y ∈ b.log ++ [Event.removed ch cause] := hy
        rw [List.mem_append, List.mem_singleton] at hx' hy'
        rcases hx' with hx' | hx' <;> rcases hy' with hy' | hy'
        · exact hinv.exclusive c x y hx' hy'
        · injection hy' with e1 e2
          exact absurd hx' (e1 ▸ not_removed_of_removals_zero hr0 x)
        · injection hx' with e1 e2
          exact absurd hy' (e1 ▸ not_removed_of_removals_zero hr0 y)
        · injection hx' with _ e1
          injection hy' with _ e2
          rw [e1, e2]
      · intro c v hv
        have hv' : Event.delivered c v ∈ b.log ++ [Event.removed ch cause] := hv
        rw [List.mem_append, List.mem_singleton] at hv'
        rcases hv' with hv' | hv'
        · exact List.mem_append_left _ (hinv.paired c v hv')
        · injection hv'
  · rw [if_neg hh] at h
    injection h

theorem handleLine_not_blocked {unmarshal : String → Option MCPResponse} {b : MCPBridge}
    (hinv : Inv b) (line : String) : handleLine unmarshal b line ≠ .error Fault.sendBlocked := by
  intro h
  cases hdec : unmarshal line with
  | none =>
    rw [handleLine_undecodable b hdec] at h
    injection h
  | some resp =>
    by_cases hid : resp.ID.hashable = true
    · cases hfound : lookup resp.ID b.pending with
      | none =>
        rw [handleLine_absent b hdec hid hfound] at h
        injection h
      | some ch =>
        have hslot := (hinv.fresh _ _ (mem_of_lookup hfound)).1
        rw [handleLine_found b hdec hid hfound (chanSend_empty _ hslot)] at h
        injection h
    · unfold handleLine at h
      rw [hdec] at h
      simp only [hid] at h
      injection h with h
      injection h

theorem inv_handleLine {unmarshal : String → Option MCPResponse} {b b' : MCPBridge}
    {line : String} (hinv : Inv b) (h : handleLine unmarshal b line = .ok b') : Inv b' := by
  rcases handleLine_ok_cases h with h1 | ⟨resp, ch, chans, -, -, hfound, hsend, h1⟩
  · rw [h1]
    exact hinv
  · have hmem := mem_of_lookup hfound
    obtain ⟨hslot, hd0, hr0⟩ := hinv.fresh resp.ID ch hmem
    rw [chanSend_empty _ hslot] at hsend
    injection hsend with hsend
    subst hsend
    subst h1
    generalize (if resp.Error.isSome = true then none else resp.Result) = v
    have hlt := lt_length_of_getElem_some hslot
    have hdl : ∀ c, deliveries c (b.log ++ [Event.removed ch Cause.reply, Event.delivered ch v]) =
        deliveries c b.log + if ch = c then 1 else 0 := by
      intro c
      rw [deliveries_append]
      show _ + deliveries c ([Event.removed ch Cause.reply] ++ [Event.delivered ch v]) = _
      rw [deliveries_append, deliveries_removed, deliveries_delivered, Nat.zero_add]
    have hrm : ∀ c, removals c (b.log ++ [Event.removed ch Cause.reply, Event.delivered ch v]) =
        removals c b.log + if ch = c then 1 else 0 := by
      intro c
      rw [removals_append]
      show _ + removals c ([Event.removed ch Cause.reply] ++ [Event.delivered ch v]) = _
      rw [removals_append, removals_removed, removals_delivered, Nat.add_zero]
    refine ⟨?_, ?_, ?_, ?_, ?_, ?_⟩
    · intro k c hm
      obtain ⟨hm1, hne⟩ := mem_delete hm
      obtain ⟨h1, h2, h3⟩ := hinv.fresh k c hm1
      have hcne : ch ≠ c := fun e => hne (hinv.owner k resp.ID c hm1 (e ▸ hmem))
      refine ⟨?_, ?_, ?_⟩
      · show (b.chans.set ch [v])[c]? = some []
        rw [List.getElem?_set_ne hcne]
        exact h1
      · show deliveries c (b.log ++ [Event.removed ch Cause.reply, Event.delivered ch v]) = 0
        rw [hdl, if_neg hcne, h2]
      · show removals c (b.log ++ [Event.removed ch Cause.reply, Event.delivered ch v]) = 0
        rw [hrm, if_neg hcne, h3]
    · exact fun k₁ k₂ c h1 h2 => hinv.owner k₁ k₂ c (mem_delete h1).1 (mem_delete h2).1
    · intro c
      show deliveries c (b.log ++ [Event.removed ch Cause.reply, Event.delivered ch v]) ≤ 1 ∧
        removals c (b.log ++ [Event.removed ch Cause.reply, Event.delivered ch v]) ≤ 1
      rw [hdl, hrm]
      by_cases e : ch = c
      · rw [if_pos e, ← e, hd0, hr0]
        exact ⟨Nat.le_refl _, Nat.le_refl _⟩
      · rw [if_neg e]
        exact hinv.once c
    · intro c hle
      show deliveries c (b.log ++ [Event.removed ch Cause.reply, Event.delivered ch v]) = 0 ∧
        removals c (b.log ++ [Event.removed ch Cause.reply, Event.delivered ch v]) = 0
      have hle' : b.chans.length ≤ c := by
        have : (b.chans.set ch [v]).length ≤ c := hle
        rwa [List.length_set] at this
      have hcne : ch ≠ c := by
        intro e
        rw [e] at hlt
        exact absurd hle' (Nat.not_le_of_lt hlt)
      rw [hdl, hrm, if_neg hcne]
      exact hinv.unborn c hle'
    · intro c x y hx hy
      have hx' : Event.removed c x ∈
          b.log ++ [Event.removed ch Cause.reply, Event.delivered ch v] := hx
      have hy' : Event.removed c y ∈
          b.log ++ [Event.removed ch Cause.reply, Event.delivered ch v] := hy
      rw [List.mem_append, List.mem_cons, List.mem_singleton] at hx' hy'
      rcases hx' with hx' | hx' | hx' <;> rcases hy' with hy' | hy' | hy'
      · exact hinv.exclusive c x y hx' hy'
      · injection hy' with e3 e4
        exact absurd hx' (e3 ▸ not_removed_of_removals_zero hr0 x)
      · injection hy'
      · injection hx' with e1 e2
        exact absurd hy' (e1 ▸ not_removed_of_removals_zero hr0 y)
      · injection hx' with _ e2
        injection hy' with _ e4
        rw [e2, e4]
      · injection hy'
      · injection hx'
      · injection hx'
      · injection hx'
    · intro c w hw
      have hw' : Event.delivered c w ∈
          b.log ++ [Event.removed ch Cause.reply, Event.delivered ch v] := hw
      show Event.removed c Cause.reply ∈
          b.log ++ [Event.removed ch Cause.reply, Event.delivered ch v]
      rw [List.mem_append, List.mem_cons, List.mem_singleton] at hw'
      rcases hw' with hw' | hw' | hw'
      · exact List.mem_append_left _ (hinv.paired c w hw')
      · injection hw'
      · injection hw' with e1 _
        rw [e1]
        exact List.mem_append_right _ (List.mem_cons_self _ _)

theorem inv_receive {b : MCPBridge} {ch : Nat} {v : RawMessage} {chans : List (List RawMessage)}
    (hinv : Inv b) (h : chanRecv b.chans ch = some (v, chans)) : Inv { b with chans := chans } := by
  unfold chanRecv at h
  cases hslot : b.chans[ch]? with
  | none =>
    rw [hslot] at h
    injection h
  | some buf =>
    cases buf with
    | nil =>
      rw [hslot] at h
      injection h
    | cons w rest =>
      rw [hslot] at h
      injection h with h
      injection h with _ h
      subst h
      refine ⟨?_, hinv.owner, hinv.once, ?_, hinv.exclusive, hinv.paired⟩
      · intro k c hm
        obtain ⟨h1, h2⟩ := hinv.fresh k c hm
        refine ⟨?_, h2⟩
        have hcne : ch ≠ c := by
          intro e
          rw [e, h1] at hslot
          injection hslot with hslot
          injection hslot
        show (b.chans.set ch rest)[c]? = some []
        rw [List.getElem?_set_ne hcne]
        exact h1
      · intro c hle
        have hle' : b.chans.length ≤ c := by
          have : (b.chans.set ch rest).length ≤ c := hle
          rwa [List.length_set] at this
        exact hinv.unborn c hle'

theorem inv_step {unmarshal : String → Option MCPResponse} {b b' : MCPBridge} {s : Step}
    (hinv : Inv b) (h : step unmarshal b s = .ok b') : Inv b' := by
  cases s with
  | register req =>
    simp only [step] at h
    cases hreg : register b req with
    | error f =>
      rw [hreg] at h
      injection h
    | ok r =>
      obtain ⟨b1, id, respChan⟩ := r
      rw [hreg] at h
      injection h with h
      subst h
      exact inv_register hinv hreg
  | sendFailure id => exact inv_deleteKey hinv h
  | readLine line => exact inv_handleLine hinv h
  | timeout id => exact inv_deleteKey hinv h
  | receive ch =>
    simp only [step] at h
    cases hrecv : chanRecv b.chans ch with
    | none =>
      rw [hrecv] at h
      injection h with h
      subst h
      exact hinv
    | some r =>
      obtain ⟨v, chans⟩ := r
      rw [hrecv] at h
      injection h with h
      subst h
      exact inv_receive hinv hrecv

theorem step_not_blocked {unmarshal : String → Option MCPResponse} {b : MCPBridge}
    (hinv : Inv b) (s : Step) : step unmarshal b s ≠ .error Fault.sendBlocked := by
  cases s with
  | register req =>
    intro h
    simp only [step] at h
    cases hreg : register b req with
    | ok r =>
      rw [hreg] at h
      injection h
    | error f =>
      rw [hreg] at h
      injection h with h
      subst h
      exact absurd (register_fault hreg) (by decide)
  | sendFailure id =>
    simp only [step, deleteKey]
    split <;> simp
  | readLine line => exact handleLine_not_blocked hinv line
  | timeout id =>
    simp only [step, deleteKey]
    split <;> simp
  | receive ch =>
    simp only [step]
    split <;> simp

theorem inv_run {unmarshal : String → Option MCPResponse} {steps : List Step}
    {b b' : MCPBridge} (hinv : Inv b) (h : run unmarshal steps b = .ok b') : Inv b' := by
  induction steps generalizing b with
  | nil =>
    injection h with h
    exact h ▸ hinv
  | cons s rest ih =>
    simp only [run] at h
    cases hs : step unmarshal b s with
    | error f =>
      rw [hs] at h
      injection h
    | ok b1 =>
      rw [hs] at h
      exact ih (inv_step hinv hs) h

theorem run_not_blocked {unmarshal : String → Option MCPResponse} {steps : List Step}
    {b : MCPBridge} (hinv : Inv b) : run unmarshal steps b ≠ .error Fault.sendBlocked := by
  induction steps generalizing b with
  | nil =>
    intro h
    injection h
  | cons s rest ih =>
    simp only [run]
    cases hs : step unmarshal b s with
    | error f =>
      intro h
      exact step_not_blocked hinv s (hs.trans h)
    | ok b1 => exact ih (inv_step hinv hs)

theorem inv_readResponses {unmarshal : String → Option MCPResponse} {lines : List String}
    {b b' : MCPBridge} (hinv : Inv b) (h : readResponses unmarshal lines b = .ok b') :
    Inv b' := by
  induction lines generalizing b with
  | nil =>
    injection h with h
    exact h ▸ hinv
  | cons x rest ih =>
    simp only [readResponses] at h
    cases hx : handleLine unmarshal b x with
    | error f =>
      rw [hx] at h
      injection h
    | ok b1 =>
      rw [hx] at h
      exact ih (inv_handleLine hinv hx) h

/-! ### The request counter -/

theorem wrapInt_add_wrapInt (x y : Int) : wrapInt (wrapInt x + y) = wrapInt (x + y) := by
  unfold wrapInt
  norm_num
  omega

theorem wrapInt_of_range {x : Int} (h₁ : -2 ^ 63 ≤ x) (h₂ : x < 2 ^ 63) : wrapInt x = x := by
  unfold wrapInt
  norm_num at h₁ h₂ ⊢
  omega

theorem step_requestID {unmarshal : String → Option MCPResponse} {b b' : MCPBridge} {s : Step}
    (hs : ∀ req, s ≠ Step.register req) (h : step unmarshal b s = .ok b') :
    b'.requestID = b.requestID := by
  cases s with
  | register req => exact absurd rfl (hs req)
  | sendFailure id =>
    simp only [step, deleteKey] at h
    split at h
    · injection h with h
      rw [← h]
    · injection h
  | readLine line =>
    rcases handleLine_ok_cases h with h1 | ⟨_, _, _, _, _, _, _, h1⟩ <;> rw [h1]
  | timeout id =>
    simp only [step, deleteKey] at h
    split at h
    · injection h with h
      rw [← h]
    · injection h
  | receive ch =>
    simp only [step] at h
    split at h <;> (injection h with h; rw [← h])

theorem assignedIDs_eq (unmarshal : String → Option MCPResponse) (steps : List Step)
    (b : MCPBridge) :
    assignedIDs unmarshal steps b =
      (List.range (assignedIDs unmarshal steps b).length).map
        (fun (i : Nat) => GoValue.int (wrapInt (b.requestID + 1 + (i : Int)))) := by
  induction steps generalizing b with
  | nil => rfl
  | cons s rest ih =>
    cases s with
    | register req =>
      simp only [assignedIDs]
      cases hreg : register b req with
      | error f => rfl
      | ok r =>
        obtain ⟨b1, id, respChan⟩ := r
        obtain ⟨-, -, hid, hrid, -, -, -⟩ := register_ok hreg
        simp only
        by_cases hn : req.ID = GoValue.null
        · rw [if_pos hn] at hid hrid ⊢
          rw [List.length_cons, List.range_succ_eq_map, List.map_cons, List.map_map]
          congr 1
          · rw [hid]
            simp
          · have := ih b1
            rw [hrid] at this
            rw [this, List.length_map, List.length_range]
            apply List.map_congr_left
            intro i _
            simp only [Function.comp, Nat.succ_eq_add_one, Nat.cast_add, Nat.cast_one]
            rw [Int.add_assoc (wrapInt (b.requestID + 1)), wrapInt_add_wrapInt]
            congr 2
            ring
        · rw [if_neg hn] at hrid ⊢
          have := ih b1
          rw [hrid] at this
          exact this
    | sendFailure id =>
      simp only [assignedIDs]
      cases hs : step unmarshal b (Step.sendFailure id) with
      | error f => rfl
      | ok b1 =>
        have := ih b1
        rw [step_requestID (fun req => by simp) hs] at this
        exact this
    | readLine line =>
      simp only [assignedIDs]
      cases hs : step unmarshal b (Step.readLine line) with
      | error f => rfl
      | ok b1 =>
        have := ih b1
        rw [step_requestID (fun req => by simp) hs] at this
        exact this
    | timeout id =>
      simp only [assignedIDs]
      cases hs : step unmarshal b (Step.timeout id) with
      | error f => rfl
      | ok b1 =>
        have := ih b1
        rw [step_requestID (fun req => by simp) hs] at this
        exact this
    | receive ch =>
      simp only [assignedIDs]
      cases hs : step unmarshal b (Step.receive ch) with
      | error f => rfl
      | ok b1 =>
        have := ih b1
        rw [step_requestID (fun req => by simp) hs] at this
        exact this

theorem assignedIDs_replicate_length (unmarshal : String → Option MCPResponse) (n : Nat)
    (b : MCPBridge) :
    (assignedIDs unmarshal (List.replicate n (Step.register listToolsReq)) b).length = n := by
  induction n generalizing b with
  | zero => rfl
  | succ n ih =>
    rw [List.replicate_succ, assignedIDs, register_listTools]
    simp only
    have hnull : listToolsReq.ID = GoValue.null := rfl
    rw [if_pos hnull, List.length_cons, ih]

/-! ### Counter identifiers against decoded identifiers -/

theorem handleLine_keeps_slot {unmarshal : String → Option MCPResponse}
    (hjson : ∀ line resp, unmarshal line = some resp → resp.ID.jsonDecoded = true)
    {b b' : MCPBridge} {line : String} {n : Int} {c : Nat}
    (h : handleLine unmarshal b line = .ok b') (hslot : b.chans[c]? = some [])
    (hown : ∀ k, lookup k b.pending = some c → k = GoValue.int n) :
    b'.chans[c]? = some [] ∧ ∀ k, lookup k b'.pending = some c → k = GoValue.int n := by
  rcases handleLine_ok_cases h with h1 | ⟨resp, ch, chans, hdec, -, hfound, hsend, h1⟩
  · rw [h1]
    exact ⟨hslot, hown⟩
  · have hne : resp.ID ≠ GoValue.int n := by
      intro e
      have := hjson line resp hdec
      rw [e] at this
      exact Bool.noConfusion this
    have hch : ch ≠ c := fun e => hne (hown _ (e ▸ hfound))
    subst h1
    refine ⟨?_, ?_⟩
    · show chans[c]? = some []
      rw [chanSend_other hsend hch]
      exact hslot
    · intro k hk
      have hk' : lookup k (delete resp.ID b.pending) = some c := hk
      by_cases e : k = resp.ID
      · rw [e, lookup_delete_self] at hk'
        injection hk'
      · rw [lookup_delete_ne e] at hk'
        exact hown k hk'

theorem readResponses_keeps_slot {unmarshal : String → Option MCPResponse}
    (hjson : ∀ line resp, unmarshal line = some resp → resp.ID.jsonDecoded = true)
    {lines : List String} {b b' : MCPBridge} {n : Int} {c : Nat}
    (h : readResponses unmarshal lines b = .ok b') (hslot : b.chans[c]? = some [])
    (hown : ∀ k, lookup k b.pending = some c → k = GoValue.int n) :
    b'.chans[c]? = some [] := by
  induction lines generalizing b with
  | nil =>
    injection h with h
    rw [← h]
    exact hslot
  | cons x rest ih =>
    simp only [readResponses] at h
    cases hx : handleLine unmarshal b x with
    | error f =>
      rw [hx] at h
      injection h
    | ok b1 =>
      rw [hx] at h
      obtain ⟨h1, h2⟩ := handleLine_keeps_slot hjson hx hslot hown
      exact ih h h1 h2

/-- A call without caller-supplied identifier is never answered. Its entry is stored under a
Go `int`; whatever lines the subprocess sends, a decoder that yields JSON dynamic types finds
no identifier equal to that key, so the caller's channel stays empty and the call ends with
`request timeout`. -/
theorem counter_id_never_answered (unmarshal : String → Option MCPResponse)
    (hjson : ∀ line resp, unmarshal line = some resp → resp.ID.jsonDecoded = true)
    (b b1 b2 : MCPBridge) (hb : ∀ k c, (k, c) ∈ b.pending → c < b.chans.length)
    (req : MCPRequest) (hnull : req.ID = GoValue.null) (id : GoValue) (respChan : Nat)
    (lines : List String) (hreg : register b req = .ok (b1, id, respChan))
    (hread : readResponses unmarshal lines b1 = .ok b2) :
    ∃ b3, sendRequest unmarshal b req none none lines =
      .ok (b3, none, some "request timeout") := by
  obtain ⟨hh, hc, hid, -, hp, hch, -⟩ := register_ok hreg
  rw [if_pos hnull] at hid
  have hslot : b1.chans[respChan]? = some [] := by
    rw [hch, hc]
    simp
  have hown : ∀ k, lookup k b1.pending = some respChan →
      k = GoValue.int (wrapInt (b.requestID + 1)) := by
    intro k hk
    by_contra hne
    rw [hp, lookup_store_ne (hid ▸ hne)] at hk
    have := hb k respChan (mem_of_lookup hk)
    omega
  have hkeep := readResponses_keeps_slot hjson hread hslot hown
  obtain ⟨b3, hdel, -⟩ := deleteKey_ok Cause.timeout b2 hh
  have hsend := sendRequest_wait hreg hread
  simp only [chanRecv, hkeep, hdel] at hsend
  exact ⟨b3, hsend⟩

/-- The same exchange with the string identifier of `initialize` is matched: the reply is
delivered and returned. -/
theorem string_id_reply_matched :
    sendRequest sampleUnmarshal NewMCPBridge initReq none none [lineInitOk] =
      .ok ({ requestID := 0, pending := [], chans := [[]],
             log := [Event.removed 0 Cause.reply, Event.delivered 0 (some "\x7b\x7d")] },
           some "\x7b\x7d", none) :=
  rfl

/-! ### Claims -/

/-- C1 (failing input). A `tools/list` call on a new bridge is registered under the Go `int`
1. The reply line with `"id":1` decodes to the `float64` 1, which is not that key: the reader
leaves table and channel untouched, and the call returns a nil result with the error
`request timeout`, its entry being removed by the timer and nothing ever delivered. -/
theorem counter_id_reply_unmatched :
    register NewMCPBridge listToolsReq = .ok
        ({ requestID := 1, pending := [(GoValue.int 1, 0)], chans := [[]], log := [] },
          GoValue.int 1, 0) ∧
      (sampleUnmarshal lineResult1).map MCPResponse.ID = some (GoValue.float64 1) ∧
      handleLine sampleUnmarshal
          { requestID := 1, pending := [(GoValue.int 1, 0)], chans := [[]], log := [] }
          lineResult1 =
        .ok { requestID := 1, pending := [(GoValue.int 1, 0)], chans := [[]], log := [] } ∧
      sendRequest sampleUnmarshal NewMCPBridge listToolsReq none none [lineResult1] =
        .ok ({ requestID := 1, pending := [], chans := [[]],
               log := [Event.removed 0 Cause.timeout] }, none, some "request timeout") :=
  ⟨rfl, rfl, rfl, rfl⟩

/-- C2 (as amended). When the one line read while a caller waits matches its identifier and
carries an error object, the reader removes the entry and delivers nil, and `sendRequest`
returns a nil result together with a nil error: code and message reach only the log. -/
theorem remote_error_returns_nil (unmarshal : String → Option MCPResponse) (b b1 : MCPBridge)
    (req : MCPRequest) (id : GoValue) (respChan : Nat) (line : String) (resp : MCPResponse)
    (e : MCPError) (hreg : register b req = .ok (b1, id, respChan))
    (hdec : unmarshal line = some resp) (hid : resp.ID = id) (herr : resp.Error = some e) :
    ∃ b2, sendRequest unmarshal b req none none [line] = .ok (b2, none, none) ∧
      lookup id b2.pending = none := by
  obtain ⟨hh, hc, -, -, hp, hch, -⟩ := register_ok hreg
  have hfound : lookup resp.ID b1.pending = some respChan := by
    rw [hid, hp, lookup_store_self]
  have hslot : b1.chans[respChan]? = some [] := by
    rw [hch, hc]
    simp
  have hv : (if resp.Error.isSome then none else resp.Result) = (none : RawMessage) := by
    rw [herr]
    rfl
  have hline := handleLine_found b1 hdec (hid ▸ hh) hfound
    (by rw [hv]; exact chanSend_empty none hslot)
  have hlen : respChan < b1.chans.length := by
    rw [hch, hc]
    simp
  have hread : readResponses unmarshal [line] b1 = .ok
      { b1 with
        pending := delete resp.ID b1.pending,
        chans := b1.chans.set respChan [none],
        log := b1.log ++ [Event.removed respChan Cause.reply, Event.delivered respChan none] } := by
    simp only [readResponses, hline, hv]
  have hsend := sendRequest_wait hreg hread
  simp only [chanRecv, List.getElem?_set_self hlen] at hsend
  refine ⟨_, hsend, ?_⟩
  rw [hid]
  exact lookup_delete_self _ _

/-- C2 (witness). -/
theorem remote_error_returns_nil_witness :
    ∃ b2, sendRequest sampleUnmarshal NewMCPBridge initReq none none [lineInitErr] =
        .ok (b2, none, none) ∧ lookup (GoValue.str "init") b2.pending = none :=
  remote_error_returns_nil sampleUnmarshal NewMCPBridge _ initReq (GoValue.str "init") 0
    lineInitErr _ { Code := -32603, Message := "boom" } rfl rfl rfl rfl

/-- C2 (counterexample). The call `initialize` (identifier `"init"`) on a new bridge, answered
by an error object with code -32603 and message `boom`, returns result nil and error nil. -/
theorem remote_error_lost :
    ∃ b2, sendRequest sampleUnmarshal NewMCPBridge initReq none none [lineInitErr] =
      .ok (b2, none, none) :=
  ⟨_, rfl⟩

/-- C3. When the timer fires while no reply is buffered in the caller's channel,
`sendRequest` returns a nil result and the error `request timeout`; afterwards the caller's
identifier is not a key of the table and every other key maps to what it mapped to before. -/
theorem timeout_cancels (unmarshal : String → Option MCPResponse) (b b1 b2 : MCPBridge)
    (req : MCPRequest) (id : GoValue) (respChan : Nat) (lines : List String)
    (hreg : register b req = .ok (b1, id, respChan))
    (hread : readResponses unmarshal lines b1 = .ok b2)
    (hempty : chanRecv b2.chans respChan = none) :
    ∃ b3, sendRequest unmarshal b req none none lines = .ok (b3, none, some "request timeout") ∧
      lookup id b3.pending = none ∧
      (∀ k, k ≠ id → lookup k b3.pending = lookup k b2.pending) ∧ b3.chans = b2.chans := by
  obtain ⟨hh, -⟩ := register_ok hreg
  obtain ⟨b3, hdel, hp, hch, -⟩ := deleteKey_ok Cause.timeout b2 hh
  have hsend := sendRequest_wait hreg hread
  simp only [hempty, hdel] at hsend
  refine ⟨b3, hsend, ?_, ?_, hch⟩
  · rw [hp]
    exact lookup_delete_self _ _
  · intro k hk
    rw [hp]
    exact lookup_delete_ne hk _

/-- C3 (witness). A `tools/list` call on a new bridge while the stream stays silent. -/
theorem timeout_cancels_witness :
    ∃ b3, sendRequest sampleUnmarshal NewMCPBridge listToolsReq none none [] =
        .ok (b3, none, some "request timeout") ∧
      lookup (GoValue.int 1) b3.pending = none ∧
      (∀ k, k ≠ GoValue.int 1 → lookup k b3.pending =
        lookup k [(GoValue.int 1, 0)]) ∧ b3.chans = [[]] :=
  timeout_cancels sampleUnmarshal NewMCPBridge
    { requestID := 1, pending := [(GoValue.int 1, 0)], chans := [[]], log := [] }
    { requestID := 1, pending := [(GoValue.int 1, 0)], chans := [[]], log := [] }
    listToolsReq (GoValue.int 1) 0 [] rfl rfl rfl

/-- C4. A decoded response whose identifier is a scalar (hence hashable, as every JSON-RPC
identifier is) and is not a key of the table leaves the whole bridge state as it was: same
table, same channel buffers, nothing added to the history, and the iteration ends normally. -/
theorem late_reply_dropped (unmarshal : String → Option MCPResponse) (b : MCPBridge)
    (line : String) (resp : MCPResponse) (hdec : unmarshal line = some resp)
    (hid : resp.ID.hashable = true) (habsent : lookup resp.ID b.pending = none) :
    handleLine unmarshal b line = .ok b ∧ readResponses unmarshal [line] b = .ok b := by
  have h := handleLine_absent b hdec hid habsent
  refine ⟨h, ?_⟩
  simp only [readResponses, h]

/-- C4 (witness). The reply to call 7 arrives while only `init` is pending. -/
theorem late_reply_dropped_witness :
    handleLine sampleUnmarshal
        initPending
        lineResult7 =
      .ok initPending ∧
    readResponses sampleUnmarshal [lineResult7]
        initPending =
      .ok initPending :=
  late_reply_dropped sampleUnmarshal initPending lineResult7 _ rfl rfl rfl

/-- C5 (as amended). When the stream ends the reader returns and does nothing more. In every
reachable state, an entry for which no line with its identifier was read is still in the
table after `readResponses` has returned, under the same channel, and that channel is empty
and has never been delivered to: no terminal error is handed to the waiting caller. -/
theorem stream_end_keeps_pending (unmarshal : String → Option MCPResponse)
    (steps : List Step) (lines : List String) (b b' : MCPBridge) (k : GoValue) (c : Nat)
    (hreach : run unmarshal steps NewMCPBridge = .ok b)
    (hread : readResponses unmarshal lines b = .ok b')
    (hk : ∀ line ∈ lines, ∀ resp, unmarshal line = some resp → resp.ID ≠ k)
    (hpend : lookup k b.pending = some c) :
    readResponses unmarshal [] b' = .ok b' ∧ lookup k b'.pending = some c ∧
      b'.chans[c]? = some [] ∧ deliveries c b'.log = 0 := by
  have hl : lookup k b'.pending = some c := by
    rw [readResponses_other_key hread hk]
    exact hpend
  have hinv := inv_readResponses (inv_run inv_new hreach) hread
  obtain ⟨h1, h2, -⟩ := hinv.fresh k c (mem_of_lookup hl)
  exact ⟨rfl, hl, h1, h2⟩

/-- C5 (witness). Two calls are pending when the stream ends after a reply to call 7. -/
theorem stream_end_keeps_pending_witness :
    readResponses sampleUnmarshal [] twoPending = .ok twoPending ∧
      lookup (GoValue.int 2) twoPending.pending = some 1 ∧
      twoPending.chans[1]? = some [] ∧ deliveries 1 twoPending.log = 0 :=
  stream_end_keeps_pending sampleUnmarshal
    [Step.register listToolsReq, Step.register listToolsReq] [lineResult7] twoPending twoPending
    (GoValue.int 2) 1 rfl rfl
    (by
      intro line hl resp hdec
      rw [List.mem_singleton] at hl
      subst hl
      injection hdec with hdec
      rw [← hdec]
      simp)
    rfl

/-- C5 (counterexample). Two `tools/list` calls are pending on a new bridge and the stream
ends at once: the reader returns with both entries still in the table and nothing delivered
to either slot. -/
theorem stream_end_no_sweep :
    run sampleUnmarshal [Step.register listToolsReq, Step.register listToolsReq]
        NewMCPBridge = .ok twoPending ∧
      readResponses sampleUnmarshal [] twoPending = .ok twoPending ∧
      lookup (GoValue.int 1) twoPending.pending = some 0 ∧
      lookup (GoValue.int 2) twoPending.pending = some 1 ∧
      twoPending.chans = [[], []] ∧ twoPending.log = [] :=
  ⟨rfl, rfl, rfl, rfl, rfl, rfl⟩

/-- C7. When `json.Marshal` or the write to the subprocess fails, `sendRequest` returns a nil
result and that error; afterwards the request's identifier is not a key of the table and every
other key maps to what it mapped to after, and before, the registration. -/
theorem send_failure_cancels (unmarshal : String → Option MCPResponse) (b b1 : MCPBridge)
    (req : MCPRequest) (id : GoValue) (respChan : Nat) (marshalErr writeErr : Option String)
    (err : String) (lines : List String)
    (hreg : register b req = .ok (b1, id, respChan))
    (herr : marshalErr = some err ∨ (marshalErr = none ∧ writeErr = some err)) :
    ∃ b2, sendRequest unmarshal b req marshalErr writeErr lines = .ok (b2, none, some err) ∧
      lookup id b2.pending = none ∧
      (∀ k, k ≠ id → lookup k b2.pending = lookup k b1.pending) ∧
      (∀ k, k ≠ id → lookup k b2.pending = lookup k b.pending) := by
  obtain ⟨hh, -, -, -, hp1, -, -⟩ := register_ok hreg
  obtain ⟨b2, hdel, hp, -, -⟩ := deleteKey_ok Cause.sendFailure b1 hh
  have hsend := sendRequest_fail unmarshal lines hreg herr
  simp only [hdel] at hsend
  refine ⟨b2, hsend, ?_, ?_, ?_⟩
  · rw [hp]
    exact lookup_delete_self _ _
  · intro k hk
    rw [hp]
    exact lookup_delete_ne hk _
  · intro k hk
    rw [hp, lookup_delete_ne hk, hp1, lookup_store_ne hk]

/-- C7 (witness). The pipe is closed when a `tools/list` call is written while `init` is
pending. -/
theorem send_failure_cancels_witness :
    ∃ b2, sendRequest sampleUnmarshal
        initPending
        listToolsReq none (some "write |1: file already closed") [lineInitOk] =
          .ok (b2, none, some "write |1: file already closed") ∧
      lookup (GoValue.int 1) b2.pending = none ∧
      (∀ k, k ≠ GoValue.int 1 → lookup k b2.pending =
        lookup k [(GoValue.int 1, 1), (GoValue.str "init", 0)]) ∧
      (∀ k, k ≠ GoValue.int 1 → lookup k b2.pending = lookup k [(GoValue.str "init", 0)]) :=
  send_failure_cancels sampleUnmarshal
    initPending
    { requestID := 1, pending := [(GoValue.int 1, 1), (GoValue.str "init", 0)],
      chans := [[], []], log := [] }
    listToolsReq (GoValue.int 1) 1 none (some "write |1: file already closed")
    "write |1: file already closed" [lineInitOk] rfl (Or.inr ⟨rfl, rfl⟩)

/-- C8 (as amended). Registering an identifier (caller-supplied, or the next counter value)
that is already a key of the table does not fail: the call gets a new channel and the table
maps the identifier to that new channel in place of the earlier one; every other key is
unchanged. -/
theorem register_replaces (b : MCPBridge) (req : MCPRequest) (id : GoValue) (c₀ : Nat)
    (hid : id = if req.ID = GoValue.null then GoValue.int (wrapInt (b.requestID + 1))
      else req.ID)
    (hh : id.hashable = true) (hdup : lookup id b.pending = some c₀)
    (hc₀ : c₀ < b.chans.length) :
    ∃ b', register b req = .ok (b', id, b.chans.length) ∧
      lookup id b'.pending = some b.chans.length ∧
      lookup id b'.pending ≠ lookup id b.pending ∧
      (∀ k, k ≠ id → lookup k b'.pending = lookup k b.pending) := by
  have hreg : register b req = .ok
      ({ requestID := if req.ID = GoValue.null then wrapInt (b.requestID + 1) else b.requestID,
         pending := store id b.chans.length b.pending,
         chans := b.chans ++ [[]], log := b.log }, id, b.chans.length) := by
    unfold register
    by_cases hn : req.ID = GoValue.null
    · rw [if_pos hn] at hid
      subst hid
      simp only [if_pos hn, GoValue.hashable, if_true]
    · rw [if_neg hn] at hid
      subst hid
      simp only [if_neg hn, hh, if_true]
  refine ⟨_, hreg, ?_, ?_, ?_⟩
  · exact lookup_store_self _ _ _
  · rw [hdup]
    simp only [lookup_store_self, ne_eq, Option.some.injEq]
    exact Nat.ne_of_gt hc₀
  · intro k hk
    exact lookup_store_ne hk _ _

/-- C8 (witness). A second `initialize` while the first is pending. -/
theorem register_replaces_witness :
    ∃ b', register initPending initReq = .ok (b', GoValue.str "init", 1) ∧
      lookup (GoValue.str "init") b'.pending = some 1 ∧
      lookup (GoValue.str "init") b'.pending ≠
        lookup (GoValue.str "init") [(GoValue.str "init", 0)] ∧
      (∀ k, k ≠ GoValue.str "init" → lookup k b'.pending =
        lookup k [(GoValue.str "init", 0)]) :=
  register_replaces initPending initReq (GoValue.str "init") 0 rfl rfl rfl (by decide)

/-- C8 (counterexample). On a new bridge `initialize` is registered twice: the second
registration returns normally and the table then holds the second channel for `"init"`, not
the first. -/
theorem duplicate_init_accepted :
    ∃ b₁ b₂, register NewMCPBridge initReq = .ok (b₁, GoValue.str "init", 0) ∧
      lookup (GoValue.str "init") b₁.pending = some 0 ∧
      register b₁ initReq = .ok (b₂, GoValue.str "init", 1) ∧
      lookup (GoValue.str "init") b₂.pending = some 1 :=
  ⟨_, _, rfl, rfl, rfl, rfl⟩

/-- C9 (as amended). As long as fewer than `2^63` calls without caller-supplied identifier
have been made, the `k`-th of them (counted from one) gets the Go `int` `k`, whatever other
steps are interleaved, so these identifiers are strictly increasing and pairwise distinct; a
call with a (hashable) caller-supplied identifier keeps it and leaves the counter alone. -/
theorem counter_ids_sequential (unmarshal : String → Option MCPResponse) (steps : List Step)
    (k : Nat) (b : MCPBridge) (req : MCPRequest)
    (hk : k < (assignedIDs unmarshal steps NewMCPBridge).length) (hbound : k + 1 < 2 ^ 63)
    (hid : req.ID ≠ GoValue.null) (hh : req.ID.hashable = true) :
    (assignedIDs unmarshal steps NewMCPBridge)[k]? = some (GoValue.int (k + 1)) ∧
      (∀ j, j < k → ∃ m : Int, (assignedIDs unmarshal steps NewMCPBridge)[j]? =
        some (GoValue.int m) ∧ m < k + 1) ∧
      ∃ b' c, register b req = .ok (b', req.ID, c) ∧ b'.requestID = b.requestID := by
  have hall : ∀ j : Nat, j ≤ k →
      (assignedIDs unmarshal steps NewMCPBridge)[j]? = some (GoValue.int (j + 1)) := by
    intro j hj
    rw [assignedIDs_eq, List.getElem?_map, List.getElem?_range (Nat.lt_of_le_of_lt hj hk)]
    simp only [Option.map_some', NewMCPBridge, Option.some.injEq, GoValue.int.injEq]
    have h1 : ((j : Int) + 1) < 2 ^ 63 := by
      have : j + 1 < 2 ^ 63 := by omega
      exact_mod_cast this
    rw [wrapInt_of_range (by norm_num; omega) (by norm_num at h1 ⊢; omega)]
    ring
  refine ⟨hall k (Nat.le_refl k), ?_, ?_⟩
  · intro j hj
    exact ⟨(j : Int) + 1, hall j (Nat.le_of_lt hj), by exact_mod_cast Nat.succ_lt_succ hj⟩
  · refine ⟨{ requestID := b.requestID, pending := store req.ID b.chans.length b.pending,
              chans := b.chans ++ [[]], log := b.log }, b.chans.length, ?_, rfl⟩
    unfold register
    simp only [if_neg hid, hh, if_true]

/-- C9 (witness). `initialize`, then two `tools/list` calls around the reply to `init`. -/
theorem counter_ids_sequential_witness :
    (assignedIDs sampleUnmarshal
        [Step.register initReq, Step.register listToolsReq, Step.readLine lineInitOk,
          Step.register listToolsReq] NewMCPBridge)[1]? = some (GoValue.int ((1 : Nat) + 1)) ∧
      (∀ j, j < 1 → ∃ m : Int, (assignedIDs sampleUnmarshal
        [Step.register initReq, Step.register listToolsReq, Step.readLine lineInitOk,
          Step.register listToolsReq] NewMCPBridge)[j]? = some (GoValue.int m) ∧
            m < (1 : Nat) + 1) ∧
      ∃ b' c, register twoPending initReq = .ok (b', initReq.ID, c) ∧
        b'.requestID = twoPending.requestID :=
  counter_ids_sequential sampleUnmarshal
    [Step.register initReq, Step.register listToolsReq, Step.readLine lineInitOk,
      Step.register listToolsReq] 1 twoPending initReq (by decide) (by norm_num) (by decide) rfl

/-- C9 (counterexample). On a new bridge, the `2^63`-th consecutive `tools/list` call gets
the identifier `-2^63`: the 64-bit counter has wrapped. -/
theorem counter_wraps_around :
    (assignedIDs sampleUnmarshal (List.replicate (2 ^ 63) (Step.register listToolsReq))
        NewMCPBridge)[2 ^ 63 - 1]? = some (GoValue.int (-2 ^ 63)) := by
  rw [assignedIDs_eq, assignedIDs_replicate_length, List.getElem?_map,
    List.getElem?_range (by norm_num)]
  simp only [Option.map_some', NewMCPBridge, Option.some.injEq, GoValue.int.injEq]
  unfold wrapInt
  norm_num

/-- C10. In every state the bridge reaches from `NewMCPBridge` by registrations, removals
after a failed send, reader iterations, timeouts and receives, in any order: no reader
iteration finds its channel full (the send under the lock never blocks); every reply slot has
received at most one value; every entry has been removed at most once, so all removals of an
entry name one cause; and a slot that received a value belongs to an entry removed by the
reader, not by a timeout or a failed send. -/
theorem slots_resolved_once (unmarshal : String → Option MCPResponse) (steps : List Step) :
    run unmarshal steps NewMCPBridge ≠ .error Fault.sendBlocked ∧
      ∀ b, run unmarshal steps NewMCPBridge = .ok b → ∀ ch,
        deliveries ch b.log ≤ 1 ∧ removals ch b.log ≤ 1 ∧
        (∀ x y, Event.removed ch x ∈ b.log → Event.removed ch y ∈ b.log → x = y) ∧
        (∀ v, Event.delivered ch v ∈ b.log →
          Event.removed ch Cause.reply ∈ b.log ∧ Event.removed ch Cause.timeout ∉ b.log ∧
            Event.removed ch Cause.sendFailure ∉ b.log) := by
  refine ⟨run_not_blocked inv_new, ?_⟩
  intro b hrun ch
  have hinv := inv_run inv_new hrun
  refine ⟨(hinv.once ch).1, (hinv.once ch).2, hinv.exclusive ch, ?_⟩
  intro v hv
  have hr := hinv.paired ch v hv
  refine ⟨hr, ?_, ?_⟩
  · intro ht
    exact absurd (hinv.exclusive ch _ _ hr ht) (by decide)
  · intro ht
    exact absurd (hinv.exclusive ch _ _ hr ht) (by decide)

/-- C10 (witness). `initialize` is answered, its timer fires nevertheless, the caller takes
the value and the reply is repeated. -/
theorem slots_resolved_once_witness :
    run sampleUnmarshal
        [Step.register initReq, Step.readLine lineInitOk, Step.timeout (GoValue.str "init"),
          Step.receive 0, Step.readLine lineInitOk] NewMCPBridge =
      .ok { requestID := 0, pending := [], chans := [[]],
            log := [Event.removed 0 Cause.reply, Event.delivered 0 (some "\x7b\x7d")] } ∧
    deliveries 0 [Event.removed 0 Cause.reply, Event.delivered 0 (some "\x7b\x7d")] ≤ 1 ∧
    removals 0 [Event.removed 0 Cause.reply, Event.delivered 0 (some "\x7b\x7d")] ≤ 1 :=
  ⟨rfl,
    ((slots_resolved_once sampleUnmarshal
      [Step.register initReq, Step.readLine lineInitOk, Step.timeout (GoValue.str "init"),
        Step.receive 0, Step.readLine lineInitOk]).2 _ rfl 0).1,
    ((slots_resolved_once sampleUnmarshal
      [Step.register initReq, Step.readLine lineInitOk, Step.timeout (GoValue.str "init"),
        Step.receive 0, Step.readLine lineInitOk]).2 _ rfl 0).2.1⟩

end Bridge

namespace Mcp

open Koneksi

/-! ### Dispatch -/

theorem HandleRequest_init {L : Lib} (W : World) (s : Server) {requestStr : String}
    (h : L.gjsonString requestStr "method" = "initialize") :
    HandleRequest L W s requestStr = handleInitialize s (L.gjsonValue requestStr "id") := by
  unfold HandleRequest
  simp only [h, if_true]

theorem HandleRequest_toolsList {L : Lib} (W : World) (s : Server) {requestStr : String}
    (h : L.gjsonString requestStr "method" = "tools/list") :
    HandleRequest L W s requestStr = handleToolsList s (L.gjsonValue requestStr "id") := by
  unfold HandleRequest
  rw [h, if_neg (by decide), if_pos rfl]

theorem HandleRequest_toolCall {L : Lib} (W : World) (s : Server) {requestStr : String}
    (h : L.gjsonString requestStr "method" = "tools/call") :
    HandleRequest L W s requestStr =
      handleToolCall L W s requestStr (L.gjsonValue requestStr "id") := by
  unfold HandleRequest
  rw [h, if_neg (by decide), if_neg (by decide), if_pos rfl]

theorem HandleRequest_other {L : Lib} (W : World) (s : Server) {requestStr : String}
    (h₁ : L.gjsonString requestStr "method" ≠ "initialize")
    (h₂ : L.gjsonString requestStr "method" ≠ "tools/list")
    (h₃ : L.gjsonString requestStr "method" ≠ "tools/call") :
    HandleRequest L W s requestStr =
      { server := s, effects := [],
        result := Result.error ("unknown method: " ++ L.gjsonString requestStr "method") } := by
  unfold HandleRequest
  simp only [if_neg h₁, if_neg h₂, if_neg h₃]

theorem handleToolCall_undecodable {L : Lib} (W : World) (s : Server) {request : String}
    (id : Value) {e : String}
    (h : L.jsonUnmarshalMap (L.gjsonString request "params.arguments") = .error e) :
    handleToolCall L W s request id =
      { server := s, effects := [],
        result := Result.error ("failed to parse arguments: " ++ e) } := by
  unfold handleToolCall
  simp only [h]

theorem handleToolCall_decoded {L : Lib} (W : World) (s : Server) {request : String}
    (id : Value) {arguments : List (String × Value)}
    (h : L.jsonUnmarshalMap (L.gjsonString request "params.arguments") = .ok arguments) :
    handleToolCall L W s request id =
      if L.gjsonString request "params.name" = "upload_file" then
        toolResponse id (uploadFile L W s arguments)
      else if L.gjsonString request "params.name" = "download_file" then
        toolResponse id (downloadFile L W s arguments)
      else if L.gjsonString request "params.name" = "list_directories" then
        toolResponse id (listDirectories L W s)
      else if L.gjsonString request "params.name" = "create_directory" then
        toolResponse id (createDirectory W s arguments)
      else if L.gjsonString request "params.name" = "search_files" then
        toolResponse id (searchFiles W s arguments)
      else if L.gjsonString request "params.name" = "backup_file" then
        toolResponse id (backupFile L W s arguments)
      else
        { server := s, effects := [],
          result := Result.error ("unknown tool: " ++ L.gjsonString request "params.name") } := by
  unfold handleToolCall
  simp only [h]

theorem toolResponse_error (id : Value) (s : Server) (effects : List Effect) (msg : String) :
    toolResponse id { server := s, effects := effects, result := Result.error msg } =
      { server := s, effects := effects, result := Result.error msg } :=
  rfl

theorem toolResponse_server (id : Value) (h : Handled) :
    (toolResponse id h).server = h.server ∧ (toolResponse id h).effects = h.effects := by
  unfold toolResponse
  cases h.result <;> exact ⟨rfl, rfl⟩

/-! ### Required arguments -/

theorem requiredArgs_cases (toolName : String) :
    (toolName = "upload_file" ∧ requiredArgs toolName = ["filePath"]) ∨
      (toolName = "download_file" ∧ requiredArgs toolName = ["fileId", "outputPath"]) ∨
      (toolName = "create_directory" ∧ requiredArgs toolName = ["name"]) ∨
      (toolName = "search_files" ∧ requiredArgs toolName = ["directoryId"]) ∨
      (toolName = "backup_file" ∧ requiredArgs toolName = ["filePath"]) ∨
      requiredArgs toolName = [] := by
  by_cases h1 : toolName = "upload_file"
  · subst h1
    exact Or.inl ⟨rfl, rfl⟩
  by_cases h2 : toolName = "download_file"
  · subst h2
    exact Or.inr (Or.inl ⟨rfl, rfl⟩)
  by_cases h3 : toolName = "list_directories"
  · subst h3
    exact Or.inr (Or.inr (Or.inr (Or.inr (Or.inr rfl))))
  by_cases h4 : toolName = "create_directory"
  · subst h4
    exact Or.inr (Or.inr (Or.inl ⟨rfl, rfl⟩))
  by_cases h5 : toolName = "search_files"
  · subst h5
    exact Or.inr (Or.inr (Or.inr (Or.inl ⟨rfl, rfl⟩)))
  by_cases h6 : toolName = "backup_file"
  · subst h6
    exact Or.inr (Or.inr (Or.inr (Or.inr (Or.inl ⟨rfl, rfl⟩))))
  refine Or.inr (Or.inr (Or.inr (Or.inr (Or.inr ?_))))
  have e1 : ¬ "upload_file" = toolName := fun e => h1 e.symm
  have e2 : ¬ "download_file" = toolName := fun e => h2 e.symm
  have e3 : ¬ "list_directories" = toolName := fun e => h3 e.symm
  have e4 : ¬ "create_directory" = toolName := fun e => h4 e.symm
  have e5 : ¬ "search_files" = toolName := fun e => h5 e.symm
  have e6 : ¬ "backup_file" = toolName := fun e => h6 e.symm
  simp [requiredArgs, tools, List.find?, Value.field, get, Value.asString, e1, e2, e3, e4,
    e5, e6]

theorem uploadFile_missing (L : Lib) (W : World) (s : Server) {args : List (String × Value)}
    (h : (get "filePath" args).asString = none) :
    uploadFile L W s args =
      { server := s, effects := [], result := Result.error "filePath is required" } := by
  unfold uploadFile
  rw [h]

theorem backupFile_missing (L : Lib) (W : World) (s : Server) {args : List (String × Value)}
    (h : (get "filePath" args).asString = none) :
    backupFile L W s args =
      { server := s, effects := [], result := Result.error "filePath is required" } := by
  unfold backupFile
  rw [h]

theorem downloadFile_missing_fileId (L : Lib) (W : World) (s : Server)
    {args : List (String × Value)} (h : (get "fileId" args).asString = none) :
    downloadFile L W s args =
      { server := s, effects := [], result := Result.error "fileId is required" } := by
  unfold downloadFile
  rw [h]

theorem downloadFile_missing_outputPath (L : Lib) (W : World) (s : Server)
    {args : List (String × Value)} (h₁ : (get "fileId" args).asString ≠ none)
    (h₂ : (get "outputPath" args).asString = none) :
    downloadFile L W s args =
      { server := s, effects := [], result := Result.error "outputPath is required" } := by
  unfold downloadFile
  cases hf : (get "fileId" args).asString with
  | none => exact absurd hf h₁
  | some fileId =>
    simp only
    rw [h₂]

theorem createDirectory_missing (W : World) (s : Server) {args : List (String × Value)}
    (h : (get "name" args).asString = none) :
    createDirectory W s args =
      { server := s, effects := [], result := Result.error "name is required" } := by
  unfold createDirectory
  rw [h]

theorem searchFiles_missing (W : World) (s : Server) {args : List (String × Value)}
    (h : (get "directoryId" args).asString = none) :
    searchFiles W s args =
      { server := s, effects := [], result := Result.error "directoryId is required" } := by
  unfold searchFiles
  rw [h]

theorem singleton_split {α : Type} {a arg : α} {pre post : List α}
    (h : [a] = pre ++ arg :: post) : pre = [] ∧ arg = a := by
  cases pre with
  | nil =>
    simp only [List.nil_append, List.cons.injEq] at h
    exact ⟨rfl, h.1.symm⟩
  | cons x rest =>
    simp only [List.cons_append, List.cons.injEq] at h
    have := h.2
    cases rest <;> simp at this

theorem pair_split {α : Type} {a b arg : α} {pre post : List α}
    (h : [a, b] = pre ++ arg :: post) :
    (pre = [] ∧ arg = a) ∨ (pre = [a] ∧ arg = b) := by
  cases pre with
  | nil =>
    simp only [List.nil_append, List.cons.injEq] at h
    exact Or.inl ⟨rfl, h.1.symm⟩
  | cons x rest =>
    simp only [List.cons_append, List.cons.injEq] at h
    obtain ⟨hx, hrest⟩ := h
    obtain ⟨h1, h2⟩ := singleton_split hrest
    exact Or.inr ⟨by rw [h1, hx], h2⟩

/-! ### The server's state -/

theorem sameUpToDirectory_refl (s : Server) : Server.sameUpToDirectory s s := by
  unfold Server.sameUpToDirectory
  refine ⟨rfl, rfl, ?_⟩
  cases s.client <;> simp

theorem handleInitialize_server (s : Server) (id : Value) :
    (handleInitialize s id).server = s ∧ (handleInitialize s id).effects = [] :=
  ⟨rfl, rfl⟩

theorem handleToolsList_server (s : Server) (id : Value) :
    (handleToolsList s id).server = s ∧ (handleToolsList s id).effects = [] :=
  ⟨rfl, rfl⟩

theorem downloadFile_server (L : Lib) (W : World) (s : Server) (args : List (String × Value)) :
    (downloadFile L W s args).server = s := by
  unfold downloadFile
  dsimp only
  repeat' split
  all_goals rfl

theorem listDirectories_server (L : Lib) (W : World) (s : Server) :
    (listDirectories L W s).server = s := by
  unfold listDirectories
  dsimp only
  repeat' split
  all_goals rfl

theorem createDirectory_server (W : World) (s : Server) (args : List (String × Value)) :
    (createDirectory W s args).server = s := by
  unfold createDirectory
  dsimp only
  repeat' split
  all_goals rfl

theorem searchFiles_server (W : World) (s : Server) (args : List (String × Value)) :
    (searchFiles W s args).server = s := by
  unfold searchFiles
  dsimp only
  repeat' split
  all_goals rfl

theorem sameUpToDirectory_set (s : Server) (c : Client) (d : String) (h : s.client = some c) :
    Server.sameUpToDirectory s { s with client := some { c with DirectoryID := d } } := by
  unfold Server.sameUpToDirectory
  refine ⟨rfl, rfl, ?_⟩
  rw [h]
  exact ⟨rfl, rfl, rfl⟩

theorem uploadFile_server (L : Lib) (W : World) (s : Server) (args : List (String × Value)) :
    Server.sameUpToDirectory s (uploadFile L W s args).server := by
  unfold uploadFile
  split
  · exact sameUpToDirectory_refl s
  · split
    · exact sameUpToDirectory_refl s
    · split
      · exact sameUpToDirectory_refl s
      · split
        · exact sameUpToDirectory_refl s
        · rename_i c hc
          simp only
          split <;> split <;> exact sameUpToDirectory_set s c _ hc

theorem backupFile_server (L : Lib) (W : World) (s : Server) (args : List (String × Value)) :
    Server.sameUpToDirectory s (backupFile L W s args).server := by
  unfold backupFile
  split
  · exact sameUpToDirectory_refl s
  · split
    · exact sameUpToDirectory_refl s
    · split
      · exact sameUpToDirectory_refl s
      · split
        · exact sameUpToDirectory_refl s
        · rename_i c hc
          simp only
          have hset : Server.sameUpToDirectory s
              { s with client := some (if ((get "directoryId" args).asString).getD "" ≠ "" then
                  { c with DirectoryID := ((get "directoryId" args).asString).getD "" }
                else c) } := by
            split
            · exact sameUpToDirectory_set s c _ hc
            · have := sameUpToDirectory_set s c c.DirectoryID hc
              exact this
          split <;> exact hset

theorem handleToolCall_server (L : Lib) (W : World) (s : Server) (request : String)
    (id : Value) :
    Server.sameUpToDirectory s (handleToolCall L W s request id).server ∧
      (L.gjsonString request "params.name" ≠ "upload_file" →
        L.gjsonString request "params.name" ≠ "backup_file" →
        (handleToolCall L W s request id).server = s) := by
  cases hargs : L.jsonUnmarshalMap (L.gjsonString request "params.arguments") with
  | error e =>
    rw [handleToolCall_undecodable W s id hargs]
    exact ⟨sameUpToDirectory_refl s, fun _ _ => rfl⟩
  | ok arguments =>
    rw [handleToolCall_decoded W s id hargs]
    by_cases h1 : L.gjsonString request "params.name" = "upload_file"
    · rw [if_pos h1, (toolResponse_server id _).1]
      exact ⟨uploadFile_server L W s arguments, fun h _ => absurd h1 h⟩
    rw [if_neg h1]
    by_cases h2 : L.gjsonString request "params.name" = "download_file"
    · rw [if_pos h2, (toolResponse_server id _).1, downloadFile_server]
      exact ⟨sameUpToDirectory_refl s, fun _ _ => rfl⟩
    rw [if_neg h2]
    by_cases h3 : L.gjsonString request "params.name" = "list_directories"
    · rw [if_pos h3, (toolResponse_server id _).1, listDirectories_server]
      exact ⟨sameUpToDirectory_refl s, fun _ _ => rfl⟩
    rw [if_neg h3]
    by_cases h4 : L.gjsonString request "params.name" = "create_directory"
    · rw [if_pos h4, (toolResponse_server id _).1, createDirectory_server]
      exact ⟨sameUpToDirectory_refl s, fun _ _ => rfl⟩
    rw [if_neg h4]
    by_cases h5 : L.gjsonString request "params.name" = "search_files"
    · rw [if_pos h5, (toolResponse_server id _).1, searchFiles_server]
      exact ⟨sameUpToDirectory_refl s, fun _ _ => rfl⟩
    rw [if_neg h5]
    by_cases h6 : L.gjsonString request "params.name" = "backup_file"
    · rw [if_pos h6, (toolResponse_server id _).1]
      exact ⟨backupFile_server L W s arguments, fun _ h => absurd h6 h⟩
    rw [if_neg h6]
    exact ⟨sameUpToDirectory_refl s, fun _ _ => rfl⟩

theorem uploadFile_sets_directory (L : Lib) (W : World) (s : Server)
    (args : List (String × Value)) (filePath : String) (size : Int) (c : Client)
    (hpath : (get "filePath" args).asString = some filePath)
    (hopen : W.osOpen filePath = .ok ()) (hstat : W.fileStat filePath = .ok size)
    (hc : s.client = some c) :
    (uploadFile L W s args).server =
      s.withDirectory c (((get "directoryId" args).asString).getD "") := by
  unfold uploadFile Server.withDirectory
  simp only [hpath, hopen, hstat, hc]
  by_cases hd : ((get "directoryId" args).asString).getD "" = ""
  · simp only [hd, ne_eq, not_true_eq_false, if_false]
    split <;> rfl
  · simp only [hd, ne_eq, not_false_eq_true, if_true]
    split <;> rfl

/-! ### Panics and identifiers of responses -/

theorem toolResponse_no_panic (id : Value) {h : Handled} (hp : h.result ≠ Result.panic) :
    (toolResponse id h).result ≠ Result.panic := by
  unfold toolResponse
  cases hr : h.result with
  | ok r => simp
  | error m => simp [hr]
  | panic => exact absurd hr hp

theorem uploadFile_no_panic (L : Lib) (W : World) {s : Server} {c : Client}
    (hc : s.client = some c) (args : List (String × Value)) :
    (uploadFile L W s args).result ≠ Result.panic := by
  unfold uploadFile
  dsimp only
  rw [hc]
  repeat' split
  all_goals simp_all

theorem backupFile_no_panic (L : Lib) (W : World) {s : Server} {c : Client}
    (hc : s.client = some c) (args : List (String × Value)) :
    (backupFile L W s args).result ≠ Result.panic := by
  unfold backupFile
  dsimp only
  rw [hc]
  repeat' split
  all_goals simp_all

theorem downloadFile_no_panic (L : Lib) (W : World) {s : Server} {c : Client}
    (hc : s.client = some c) (args : List (String × Value)) :
    (downloadFile L W s args).result ≠ Result.panic := by
  unfold downloadFile
  dsimp only
  rw [hc]
  repeat' split
  all_goals simp_all

theorem listDirectories_no_panic (L : Lib) (W : World) {s : Server} {c : Client}
    (hc : s.client = some c) : (listDirectories L W s).result ≠ Result.panic := by
  unfold listDirectories
  dsimp only
  rw [hc]
  repeat' split
  all_goals simp_all

theorem createDirectory_no_panic (W : World) {s : Server} {c : Client}
    (hc : s.client = some c) (args : List (String × Value)) :
    (createDirectory W s args).result ≠ Result.panic := by
  unfold createDirectory
  dsimp only
  rw [hc]
  repeat' split
  all_goals simp_all

theorem searchFiles_no_panic (W : World) {s : Server} {c : Client}
    (hc : s.client = some c) (args : List (String × Value)) :
    (searchFiles W s args).result ≠ Result.panic := by
  unfold searchFiles
  dsimp only
  rw [hc]
  repeat' split
  all_goals simp_all

theorem HandleRequest_no_panic (L : Lib) (W : World) {s : Server} {c : Client}
    (hc : s.client = some c) (requestStr : String) :
    (HandleRequest L W s requestStr).result ≠ Result.panic := by
  by_cases h1 : L.gjsonString requestStr "method" = "initialize"
  · rw [HandleRequest_init W s h1]
    simp [handleInitialize]
  by_cases h2 : L.gjsonString requestStr "method" = "tools/list"
  · rw [HandleRequest_toolsList W s h2]
    simp [handleToolsList]
  by_cases h3 : L.gjsonString requestStr "method" = "tools/call"
  · rw [HandleRequest_toolCall W s h3]
    cases hargs : L.jsonUnmarshalMap (L.gjsonString requestStr "params.arguments") with
    | error e =>
      rw [handleToolCall_undecodable W s _ hargs]
      simp
    | ok arguments =>
      rw [handleToolCall_decoded W s _ hargs]
      repeat' split
      · exact toolResponse_no_panic _ (uploadFile_no_panic L W hc _)
      · exact toolResponse_no_panic _ (downloadFile_no_panic L W hc _)
      · exact toolResponse_no_panic _ (listDirectories_no_panic L W hc)
      · exact toolResponse_no_panic _ (createDirectory_no_panic W hc _)
      · exact toolResponse_no_panic _ (searchFiles_no_panic W hc _)
      · exact toolResponse_no_panic _ (backupFile_no_panic L W hc _)
      · simp
  rw [HandleRequest_other W s h1 h2 h3]
  simp

theorem toolResponse_ok_id (id : Value) {h : Handled} {response : Value}
    (hr : (toolResponse id h).result = Result.ok response) : response.field "id" = id := by
  unfold toolResponse at hr
  cases hres : h.result with
  | ok r =>
    rw [hres] at hr
    simp only [Result.ok.injEq] at hr
    rw [← hr]
    rfl
  | error m =>
    rw [hres] at hr
    simp only at hr
    rw [hres] at hr
    simp at hr
  | panic =>
    rw [hres] at hr
    simp only at hr
    rw [hres] at hr
    simp at hr

theorem HandleRequest_ok_id (L : Lib) (W : World) (s : Server) {requestStr : String}
    {response : Value} (hr : (HandleRequest L W s requestStr).result = Result.ok response)
    (hid : (L.gjsonValue requestStr "id").isNil = false) :
    response.field "id" = L.gjsonValue requestStr "id" := by
  by_cases h1 : L.gjsonString requestStr "method" = "initialize"
  · rw [HandleRequest_init W s h1] at hr
    unfold handleInitialize at hr
    simp only [hid, Bool.false_eq_true, if_false, Result.ok.injEq] at hr
    rw [← hr]
    rfl
  by_cases h2 : L.gjsonString requestStr "method" = "tools/list"
  · rw [HandleRequest_toolsList W s h2] at hr
    unfold handleToolsList at hr
    simp only [hid, Bool.false_eq_true, if_false, Result.ok.injEq] at hr
    rw [← hr]
    rfl
  by_cases h3 : L.gjsonString requestStr "method" = "tools/call"
  · rw [HandleRequest_toolCall W s h3] at hr
    cases hargs : L.jsonUnmarshalMap (L.gjsonString requestStr "params.arguments") with
    | error e =>
      rw [handleToolCall_undecodable W s _ hargs] at hr
      simp at hr
    | ok arguments =>
      rw [handleToolCall_decoded W s _ hargs] at hr
      repeat' split at hr
      all_goals first
        | exact toolResponse_ok_id _ hr
        | simp at hr
  rw [HandleRequest_other W s h1 h2 h3] at hr
  simp at hr

/-! ### The message loop -/

theorem mainStep_decoded {L : Lib} (W : World) (s : Server) {request : String}
    {req : List (String × Value)} (hparse : L.jsonUnmarshalMap request = .ok req) :
    mainStep L W s request =
      match (HandleRequest L W s request).result with
      | Result.panic =>
        { server := (HandleRequest L W s request).server,
          effects := (HandleRequest L W s request).effects, output := [], panicked := true }
      | Result.error msg =>
        if (get "id" req).isNil then
          { server := (HandleRequest L W s request).server,
            effects := (HandleRequest L W s request).effects, output := [], panicked := false }
        else
          { server := (HandleRequest L W s request).server,
            effects := (HandleRequest L W s request).effects,
            output := [Value.map
              [("jsonrpc", Value.str "2.0"),
               ("id", get "id" req),
               ("error", Value.map
                 [("code", Value.number (-32603)), ("message", Value.str msg)])]],
            panicked := false }
      | Result.ok response =>
        if (get "id" req).isNil then
          { server := (HandleRequest L W s request).server,
            effects := (HandleRequest L W s request).effects, output := [], panicked := false }
        else
          { server := (HandleRequest L W s request).server,
            effects := (HandleRequest L W s request).effects, output := [response],
            panicked := false } := by
  unfold mainStep
  simp only [hparse]

theorem mainStep_notification (L : Lib) (W : World) (s : Server) {request : String}
    {req : List (String × Value)} (hparse : L.jsonUnmarshalMap request = .ok req)
    (hid : (get "id" req).isNil = true) :
    (mainStep L W s request).output = [] ∧
      (mainStep L W s request).server = (HandleRequest L W s request).server ∧
      (mainStep L W s request).effects = (HandleRequest L W s request).effects := by
  rw [mainStep_decoded W s hparse]
  cases (HandleRequest L W s request).result with
  | ok response => simp [hid]
  | error msg => simp [hid]
  | panic => simp

theorem mainStep_request (L : Lib) (W : World) (s : Server) {c : Client} {request : String}
    {req : List (String × Value)} (hc : s.client = some c)
    (hparse : L.jsonUnmarshalMap request = .ok req) (hid : (get "id" req).isNil = false) :
    ∃ envelope, (mainStep L W s request).output = [envelope] ∧
      (mainStep L W s request).panicked = false ∧
      (mainStep L W s request).server = (HandleRequest L W s request).server ∧
      (mainStep L W s request).effects = (HandleRequest L W s request).effects ∧
      (∀ msg, (HandleRequest L W s request).result = Result.error msg →
        envelope.field "id" = get "id" req) ∧
      (L.gjsonValue request "id" = get "id" req → envelope.field "id" = get "id" req) := by
  rw [mainStep_decoded W s hparse]
  cases hr : (HandleRequest L W s request).result with
  | ok response =>
    have hresp : L.gjsonValue request "id" = get "id" req →
        response.field "id" = get "id" req := by
      intro hagree
      rw [← hagree]
      exact HandleRequest_ok_id L W s hr (hagree ▸ hid)
    exact ⟨response, by simp [hid], by simp [hid], by simp [hid], by simp [hid],
      fun msg hm => by simp at hm, hresp⟩
  | error msg =>
    exact ⟨Value.map
        [("jsonrpc", Value.str "2.0"),
         ("id", get "id" req),
         ("error", Value.map [("code", Value.number (-32603)), ("message", Value.str msg)])],
      by simp [hid], by simp [hid], by simp [hid], by simp [hid], fun _ _ => rfl, fun _ => rfl⟩
  | panic => exact absurd hr (HandleRequest_no_panic L W hc request)

/-! ### Claims -/

/-- C13. A request whose extracted method is none of `initialize`, `tools/list` and
`tools/call` (an absent method and unparsable input give the empty method) gets no response
and the error `unknown method: ` followed by the extracted method; the server is unchanged
and nothing outside the process is called. -/
theorem unknown_method_rejected (L : Lib) (W : World) (s : Server) (requestStr : String)
    (h₁ : L.gjsonString requestStr "method" ≠ "initialize")
    (h₂ : L.gjsonString requestStr "method" ≠ "tools/list")
    (h₃ : L.gjsonString requestStr "method" ≠ "tools/call") :
    (HandleRequest L W s requestStr).result =
        Result.error ("unknown method: " ++ L.gjsonString requestStr "method") ∧
      (HandleRequest L W s requestStr).server = s ∧
      (HandleRequest L W s requestStr).effects = [] := by
  rw [HandleRequest_other W s h₁ h₂ h₃]
  exact ⟨rfl, rfl, rfl⟩

/-- C13 (witness). The request `unknown method` of `TestServer_ErrorHandling`. -/
theorem unknown_method_rejected_witness :
    (HandleRequest sampleLib sampleWorld sampleServer reqUnknown).result =
        Result.error ("unknown method: " ++ "unknown") ∧
      (HandleRequest sampleLib sampleWorld sampleServer reqUnknown).server = sampleServer ∧
      (HandleRequest sampleLib sampleWorld sampleServer reqUnknown).effects = [] :=
  unknown_method_rejected sampleLib sampleWorld sampleServer reqUnknown (by decide) (by decide)
    (by decide)

/-- C14 (as amended). A `tools/call` request whose arguments text decodes and whose tool name
is not in the catalog fails with `unknown tool: ` followed by the name; the server is
unchanged and nothing outside the process is called. -/
theorem unknown_tool_rejected (L : Lib) (W : World) (s : Server) (requestStr : String)
    (arguments : List (String × Value))
    (hm : L.gjsonString requestStr "method" = "tools/call")
    (hargs : L.jsonUnmarshalMap (L.gjsonString requestStr "params.arguments") = .ok arguments)
    (hname : L.gjsonString requestStr "params.name" ∉ toolNames) :
    (HandleRequest L W s requestStr).result =
        Result.error ("unknown tool: " ++ L.gjsonString requestStr "params.name") ∧
      (HandleRequest L W s requestStr).server = s ∧
      (HandleRequest L W s requestStr).effects = [] := by
  have hn : toolNames = ["upload_file", "download_file", "list_directories", "create_directory",
      "search_files", "backup_file"] := rfl
  rw [hn] at hname
  simp only [List.mem_cons, List.mem_singleton, List.not_mem_nil, or_false, not_or] at hname
  obtain ⟨h1, h2, h3, h4, h5, h6⟩ := hname
  rw [HandleRequest_toolCall W s hm, handleToolCall_decoded W s _ hargs, if_neg h1, if_neg h2,
    if_neg h3, if_neg h4, if_neg h5, if_neg h6]
  exact ⟨rfl, rfl, rfl⟩

/-- C14 (witness). The request `unknown tool` of `TestServer_ErrorHandling`. -/
theorem unknown_tool_rejected_witness :
    (HandleRequest sampleLib sampleWorld sampleServer reqUnknownTool).result =
        Result.error ("unknown tool: " ++ "unknown_tool") ∧
      (HandleRequest sampleLib sampleWorld sampleServer reqUnknownTool).server = sampleServer ∧
      (HandleRequest sampleLib sampleWorld sampleServer reqUnknownTool).effects = [] :=
  unknown_tool_rejected sampleLib sampleWorld sampleServer reqUnknownTool [] rfl rfl (by decide)

/-- C14 (counterexample). A `tools/call` of the tool `unknown_tool`, which is not in the
catalog, sent without arguments: the error is the argument decoder's, not `unknown tool`. -/
theorem unknown_tool_without_arguments :
    sampleLib.gjsonString reqUnknownToolNoArgs "method" = "tools/call" ∧
      sampleLib.gjsonString reqUnknownToolNoArgs "params.name" = "unknown_tool" ∧
      "unknown_tool" ∉ toolNames ∧
      (HandleRequest sampleLib sampleWorld sampleServer reqUnknownToolNoArgs).result =
        Result.error "failed to parse arguments: unexpected end of JSON input" :=
  ⟨rfl, rfl, by decide, rfl⟩

/-- C15. A `tools/call` request whose arguments text `json.Unmarshal` rejects fails with
`failed to parse arguments: ` followed by the decoder's message, whatever the tool name is;
the server is unchanged and nothing outside the process is called. -/
theorem undecodable_arguments_rejected (L : Lib) (W : World) (s : Server)
    (requestStr : String) (e : String)
    (hm : L.gjsonString requestStr "method" = "tools/call")
    (hargs : L.jsonUnmarshalMap (L.gjsonString requestStr "params.arguments") = .error e) :
    (HandleRequest L W s requestStr).result =
        Result.error ("failed to parse arguments: " ++ e) ∧
      (HandleRequest L W s requestStr).server = s ∧
      (HandleRequest L W s requestStr).effects = [] := by
  rw [HandleRequest_toolCall W s hm, handleToolCall_undecodable W s _ hargs]
  exact ⟨rfl, rfl, rfl⟩

/-- C15 (witness). The request `invalid arguments` of `TestServer_ErrorHandling`. -/
theorem undecodable_arguments_rejected_witness :
    (HandleRequest sampleLib sampleWorld sampleServer reqUploadBadArgs).result =
        Result.error ("failed to parse arguments: " ++
          "invalid character 'i' looking for beginning of value") ∧
      (HandleRequest sampleLib sampleWorld sampleServer reqUploadBadArgs).server =
        sampleServer ∧
      (HandleRequest sampleLib sampleWorld sampleServer reqUploadBadArgs).effects = [] :=
  undecodable_arguments_rejected sampleLib sampleWorld sampleServer reqUploadBadArgs
    "invalid character 'i' looking for beginning of value" rfl rfl

/-- C16. Every `tools/list` request succeeds, whatever its identifier and parameters and
whatever the server's state: the `tools` list of the result has six entries, named
`upload_file`, `download_file`, `list_directories`, `create_directory`, `search_files`,
`backup_file` in this order; the server is unchanged and nothing outside is called. -/
theorem tools_list_catalog (L : Lib) (W : World) (s : Server) (requestStr : String)
    (hm : L.gjsonString requestStr "method" = "tools/list") :
    ∃ response, (HandleRequest L W s requestStr).result = Result.ok response ∧
      ((response.field "result").field "tools").elems.length = 6 ∧
      ((response.field "result").field "tools").elems.map
          (fun t => (t.field "name").asString) =
        [some "upload_file", some "download_file", some "list_directories",
          some "create_directory", some "search_files", some "backup_file"] ∧
      (HandleRequest L W s requestStr).server = s ∧
      (HandleRequest L W s requestStr).effects = [] := by
  rw [HandleRequest_toolsList W s hm]
  unfold handleToolsList
  cases hnil : (L.gjsonValue requestStr "id").isNil
  · exact ⟨_, rfl, rfl, rfl, rfl, rfl⟩
  · exact ⟨_, rfl, rfl, rfl, rfl, rfl⟩

/-- C16 (witness). The request of `TestServer_HandleToolsList`. -/
theorem tools_list_catalog_witness :
    ∃ response, (HandleRequest sampleLib sampleWorld sampleServer reqToolsList).result =
        Result.ok response ∧
      ((response.field "result").field "tools").elems.length = 6 ∧
      ((response.field "result").field "tools").elems.map
          (fun t => (t.field "name").asString) =
        [some "upload_file", some "download_file", some "list_directories",
          some "create_directory", some "search_files", some "backup_file"] ∧
      (HandleRequest sampleLib sampleWorld sampleServer reqToolsList).server = sampleServer ∧
      (HandleRequest sampleLib sampleWorld sampleServer reqToolsList).effects = [] :=
  tools_list_catalog sampleLib sampleWorld sampleServer reqToolsList rfl

/-- C17. On a server made by `NewServer name version client`, every `initialize` request
succeeds, whatever its parameters: the response has `jsonrpc` equal to `2.0`, and its result
has `protocolVersion` equal to `2024-11-05` and `serverInfo` with the given name and
version. -/
theorem initialize_metadata (L : Lib) (W : World) (name version : String)
    (client : Option Client) (requestStr : String)
    (hm : L.gjsonString requestStr "method" = "initialize") :
    ∃ response,
      (HandleRequest L W (NewServer name version client) requestStr).result =
        Result.ok response ∧
      response.field "jsonrpc" = Value.str "2.0" ∧
      (response.field "result").field "protocolVersion" = Value.str "2024-11-05" ∧
      ((response.field "result").field "serverInfo").field "name" = Value.str name ∧
      ((response.field "result").field "serverInfo").field "version" = Value.str version := by
  rw [HandleRequest_init W _ hm]
  unfold handleInitialize
  cases hnil : (L.gjsonValue requestStr "id").isNil
  · exact ⟨_, rfl, rfl, rfl, rfl, rfl⟩
  · exact ⟨_, rfl, rfl, rfl, rfl, rfl⟩

/-- C17 (witness). The request of `TestServer_HandleInitialize`, on a server without
client. -/
theorem initialize_metadata_witness :
    ∃ response,
      (HandleRequest sampleLib sampleWorld (NewServer "test-server" "1.0.0" none)
        reqInit).result = Result.ok response ∧
      response.field "jsonrpc" = Value.str "2.0" ∧
      (response.field "result").field "protocolVersion" = Value.str "2024-11-05" ∧
      ((response.field "result").field "serverInfo").field "name" = Value.str "test-server" ∧
      ((response.field "result").field "serverInfo").field "version" = Value.str "1.0.0" :=
  initialize_metadata sampleLib sampleWorld "test-server" "1.0.0" none reqInit rfl

/-- C18. In a `tools/call` whose arguments decode: when the arguments that the catalog lists
as required before `arg` are strings and `arg` itself is absent or not a string, the call
fails with `<arg> is required`, and no file is touched and no storage method called. The
lists are `filePath` for `upload_file` and `backup_file`, `fileId` then `outputPath` for
`download_file`, `name` for `create_directory`, `directoryId` for `search_files`. -/
theorem required_argument_checked (L : Lib) (W : World) (s : Server) (requestStr : String)
    (arguments : List (String × Value)) (pre post : List String) (arg : String)
    (hm : L.gjsonString requestStr "method" = "tools/call")
    (hargs : L.jsonUnmarshalMap (L.gjsonString requestStr "params.arguments") = .ok arguments)
    (hreq : requiredArgs (L.gjsonString requestStr "params.name") = pre ++ arg :: post)
    (hpre : ∀ a ∈ pre, (get a arguments).asString ≠ none)
    (harg : (get arg arguments).asString = none) :
    (HandleRequest L W s requestStr).result = Result.error (arg ++ " is required") ∧
      (HandleRequest L W s requestStr).effects = [] ∧
      (HandleRequest L W s requestStr).server = s := by
  rw [HandleRequest_toolCall W s hm, handleToolCall_decoded W s _ hargs]
  rcases requiredArgs_cases (L.gjsonString requestStr "params.name") with
    ⟨hn, hr⟩ | ⟨hn, hr⟩ | ⟨hn, hr⟩ | ⟨hn, hr⟩ | ⟨hn, hr⟩ | hr
  · rw [hr] at hreq
    obtain ⟨-, ha⟩ := singleton_split hreq
    subst ha
    rw [hn, if_pos rfl, uploadFile_missing L W s harg]
    exact ⟨rfl, rfl, rfl⟩
  · rw [hr] at hreq
    rw [hn, if_neg (by decide), if_pos rfl]
    rcases pair_split hreq with ⟨-, ha⟩ | ⟨hp, ha⟩
    · subst ha
      rw [downloadFile_missing_fileId L W s harg]
      exact ⟨rfl, rfl, rfl⟩
    · subst ha
      have hf := hpre "fileId" (by rw [hp]; exact List.mem_singleton.mpr rfl)
      rw [downloadFile_missing_outputPath L W s hf harg]
      exact ⟨rfl, rfl, rfl⟩
  · rw [hr] at hreq
    obtain ⟨-, ha⟩ := singleton_split hreq
    subst ha
    rw [hn, if_neg (by decide), if_neg (by decide), if_neg (by decide), if_pos rfl,
      createDirectory_missing W s harg]
    exact ⟨rfl, rfl, rfl⟩
  · rw [hr] at hreq
    obtain ⟨-, ha⟩ := singleton_split hreq
    subst ha
    rw [hn, if_neg (by decide), if_neg (by decide), if_neg (by decide), if_neg (by decide),
      if_pos rfl, searchFiles_missing W s harg]
    exact ⟨rfl, rfl, rfl⟩
  · rw [hr] at hreq
    obtain ⟨-, ha⟩ := singleton_split hreq
    subst ha
    rw [hn, if_neg (by decide), if_neg (by decide), if_neg (by decide), if_neg (by decide),
      if_neg (by decide), if_pos rfl, backupFile_missing L W s harg]
    exact ⟨rfl, rfl, rfl⟩
  · rw [hr] at hreq
    cases pre <;> simp at hreq

/-- C18 (witness). The request `upload_file missing filePath` of
`TestServer_HandleToolCall_RequiredParameters`. -/
theorem required_argument_checked_witness :
    (HandleRequest sampleLib sampleWorld sampleServer reqUploadNoPath).result =
        Result.error ("filePath" ++ " is required") ∧
      (HandleRequest sampleLib sampleWorld sampleServer reqUploadNoPath).effects = [] ∧
      (HandleRequest sampleLib sampleWorld sampleServer reqUploadNoPath).server =
        sampleServer :=
  required_argument_checked sampleLib sampleWorld sampleServer reqUploadNoPath [] [] []
    "filePath" rfl rfl rfl (fun a ha => absurd ha (List.not_mem_nil a)) rfl

/-- C19 (as amended). `HandleRequest` never changes the server's name and version nor the
client's base URL, identifier and secret, and it leaves the whole state as it was for every
request other than a `tools/call` of `upload_file` or `backup_file`. An `upload_file` whose
file could be opened sets the client's `DirectoryID` to its `directoryId` argument, and to
the empty string when there is none. -/
theorem request_state_effect (L : Lib) (W : World) (s : Server) (requestStr : String) :
    Server.sameUpToDirectory s (HandleRequest L W s requestStr).server ∧
      (¬ (L.gjsonString requestStr "method" = "tools/call" ∧
          (L.gjsonString requestStr "params.name" = "upload_file" ∨
            L.gjsonString requestStr "params.name" = "backup_file")) →
        (HandleRequest L W s requestStr).server = s) ∧
      (∀ arguments filePath size c,
        L.gjsonString requestStr "method" = "tools/call" →
        L.gjsonString requestStr "params.name" = "upload_file" →
        L.jsonUnmarshalMap (L.gjsonString requestStr "params.arguments") = .ok arguments →
        (get "filePath" arguments).asString = some filePath →
        W.osOpen filePath = .ok () → W.fileStat filePath = .ok size → s.client = some c →
        (HandleRequest L W s requestStr).server =
          s.withDirectory c (((get "directoryId" arguments).asString).getD "")) := by
  refine ⟨?_, ?_, ?_⟩
  · by_cases h1 : L.gjsonString requestStr "method" = "initialize"
    · rw [HandleRequest_init W s h1]
      exact sameUpToDirectory_refl s
    by_cases h2 : L.gjsonString requestStr "method" = "tools/list"
    · rw [HandleRequest_toolsList W s h2]
      exact sameUpToDirectory_refl s
    by_cases h3 : L.gjsonString requestStr "method" = "tools/call"
    · rw [HandleRequest_toolCall W s h3]
      exact (handleToolCall_server L W s requestStr _).1
    rw [HandleRequest_other W s h1 h2 h3]
    exact sameUpToDirectory_refl s
  · intro hnot
    by_cases h1 : L.gjsonString requestStr "method" = "initialize"
    · rw [HandleRequest_init W s h1]
      rfl
    by_cases h2 : L.gjsonString requestStr "method" = "tools/list"
    · rw [HandleRequest_toolsList W s h2]
      rfl
    by_cases h3 : L.gjsonString requestStr "method" = "tools/call"
    · rw [HandleRequest_toolCall W s h3]
      exact (handleToolCall_server L W s requestStr _).2
        (fun h => hnot ⟨h3, Or.inl h⟩) (fun h => hnot ⟨h3, Or.inr h⟩)
    rw [HandleRequest_other W s h1 h2 h3]
  · intro arguments filePath size c hm hn hargs hpath hopen hstat hc
    rw [HandleRequest_toolCall W s hm, handleToolCall_decoded W s _ hargs, if_pos hn,
      (toolResponse_server _ _).1]
    exact uploadFile_sets_directory L W s arguments filePath size c hpath hopen hstat hc

/-- C19 (witness). The `initialize` request leaves the sample server as it was. -/
theorem request_state_effect_witness :
    (HandleRequest sampleLib sampleWorld sampleServer reqInit).server = sampleServer :=
  (request_state_effect sampleLib sampleWorld sampleServer reqInit).2.1 (by decide)

/-- C19 (counterexample). On the server that `main` builds without configured directory, an
upload into directory `dir-9` leaves the client's `DirectoryID` at `dir-9`; a following backup
that names no directory is then uploaded with that `DirectoryID`, while the same backup on
the fresh server is uploaded with none. -/
theorem upload_changes_state :
    (HandleRequest sampleLib sampleWorld sampleServer reqUploadDir).server ≠ sampleServer ∧
      (HandleRequest sampleLib sampleWorld sampleServer reqUploadDir).server.client =
        some (NewClient "https://staging.koneksi.co.kr" "id" "secret" "dir-9") ∧
      (HandleRequest sampleLib sampleWorld
          (HandleRequest sampleLib sampleWorld sampleServer reqUploadDir).server
          reqBackup).effects =
        [Effect.osOpen "/tmp/a.txt", Effect.fileStat "/tmp/a.txt",
          Effect.UploadFile (NewClient "https://staging.koneksi.co.kr" "id" "secret" "dir-9")
            "a.txt" "/tmp/a.txt" 5] ∧
      (HandleRequest sampleLib sampleWorld sampleServer reqBackup).effects =
        [Effect.osOpen "/tmp/a.txt", Effect.fileStat "/tmp/a.txt",
          Effect.UploadFile (NewClient "https://staging.koneksi.co.kr" "id" "secret" "")
            "a.txt" "/tmp/a.txt" 5] :=
  ⟨by decide, rfl, rfl, rfl⟩

end Mcp

namespace Bridge

/-- C20 (as amended). Whatever path a call of `sendRequest` takes, it holds `b.mu` when it
advances the counter, stores its entry and deletes its entry, and it does not hold `b.mu`
when it serialises the request, writes the line to the subprocess and waits for the reply:
the write comes after the lock has been released. -/
theorem write_outside_lock (hasID : Bool) (marshalErr writeErr : Option String)
    (timedOut : Bool) (op : Op) (held : Bool)
    (h : (op, held) ∈ lockTrace false (sendRequestOps hasID marshalErr writeErr timedOut)) :
    ((op = Op.assignID ∨ op = Op.storePending ∨ op = Op.deletePending) → held = true) ∧
      ((op = Op.marshal ∨ op = Op.write ∨ op = Op.wait) → held = false) := by
  cases hasID <;> cases marshalErr <;> cases writeErr <;> cases timedOut <;>
    simp [sendRequestOps, lockTrace] at h <;>
    rcases h with h | h | h | h | h | h | h | h | h | h <;>
    simp_all

/-- C20 (witness). A `tools/list` call that is written and then times out. -/
theorem write_outside_lock_witness :
    (Op.write, false) ∈ lockTrace false (sendRequestOps false none none true) ∧
      (((Op.write = Op.assignID ∨ Op.write = Op.storePending ∨ Op.write = Op.deletePending) →
          false = true) ∧
        ((Op.write = Op.marshal ∨ Op.write = Op.write ∨ Op.write = Op.wait) → false = false)) :=
  ⟨by decide, write_outside_lock false none none true Op.write false (by decide)⟩

/-- C20 (counterexample). In a call that succeeds, the caller has released `b.mu` after
storing its entry and does not hold it when it writes the request line. -/
theorem write_after_unlock :
    lockTrace false (sendRequestOps false none none false) =
      [(Op.lock, false), (Op.assignID, true), (Op.storePending, true), (Op.unlock, true),
        (Op.marshal, false), (Op.write, false), (Op.wait, false)] :=
  rfl

end Bridge

namespace Koneksi

set_option maxRecDepth 8192

/-! ### The storage client -/

theorem foldl_append_singleton {α β : Type} (f : α → β) (xs : List α) (init : List β) :
    xs.foldl (fun acc x => acc ++ [f x]) init = init ++ xs.map f := by
  induction xs generalizing init with
  | nil => simp
  | cons x rest ih => simp [List.foldl_cons, ih]

theorem UploadFile_of_response (H : Http) (K : Codec) (c : Client) (fileName content : String)
    (size : Int) (checksum : String) (resp : Response)
    (hreq : H.NewRequest "POST" (uploadURL c) = none)
    (hdo : H.Do (uploadRequest K c fileName content) = .ok resp) :
    (UploadFile H K c fileName (.ok content) size checksum).result =
      if resp.StatusCode ≠ 200 ∧ resp.StatusCode ≠ 201 then
        .error ("upload failed with status " ++ toString resp.StatusCode ++ ": " ++ resp.Body)
      else
        match K.decodeUpload resp.Body with
        | .error e => .error ("failed to parse response: " ++ e)
        | .ok apiResp =>
          .ok { FileID := if apiResp.Data.FileID = "" then apiResp.Data.Hash
                          else apiResp.Data.FileID,
                FileName := apiResp.Data.Name, Size := apiResp.Data.Size, UploadedAt := K.now,
                Status := apiResp.Status } := by
  unfold UploadFile
  simp only [hreq, hdo]
  split
  · rfl
  · cases K.decodeUpload resp.Body <;> rfl

theorem UploadFile_sent (H : Http) (K : Codec) (c : Client) (fileName : String)
    (fileData : Except String String) (size : Int) (checksum : String) :
    ∀ r ∈ (UploadFile H K c fileName fileData size checksum).sent,
      r.Method = "POST" ∧ r.URL = uploadURL c := by
  intro r hr
  unfold UploadFile at hr
  cases fileData with
  | error e => simp at hr
  | ok content =>
    simp only at hr
    cases hn : H.NewRequest "POST" (uploadURL c) with
    | some e => simp [hn] at hr
    | none =>
      simp only [hn] at hr
      have key : r = uploadRequest K c fileName content := by
        cases hd : H.Do (uploadRequest K c fileName content) with
        | error e => simpa [hd] using hr
        | ok resp =>
          simp only [hd] at hr
          split at hr
          · simpa using hr
          · cases hb : K.decodeUpload resp.Body <;> simpa [hb] using hr
      subst key
      exact ⟨rfl, rfl⟩

theorem ListDirectories_of_response (H : Http) (K : Codec) (c : Client) (resp : Response)
    (hreq : H.NewRequest "GET" (listRequest c).URL = none)
    (hdo : H.Do (listRequest c) = .ok resp) :
    (ListDirectories H K c).result =
      if resp.StatusCode ≠ 200 then
        .error ("request failed with status " ++ toString resp.StatusCode ++ ": " ++ resp.Body)
      else
        match K.decodeList resp.Body with
        | .error e => .error ("failed to parse response: " ++ e)
        | .ok data => .ok (rootInfo K data :: data.Subdirectories.map (subdirInfo K)) := by
  unfold ListDirectories
  simp only [hreq, hdo]
  split
  · rfl
  · cases K.decodeList resp.Body with
    | error e => rfl
    | ok data => simp [foldl_append_singleton]

theorem GetDirectoryFiles_of_response (H : Http) (K : Codec) (c : Client)
    (directoryID : String) (resp : Response)
    (hreq : H.NewRequest "GET" (filesRequest c directoryID).URL = none)
    (hdo : H.Do (filesRequest c directoryID) = .ok resp) :
    (GetDirectoryFiles H K c directoryID).result =
      if resp.StatusCode ≠ 200 then
        .error ("request failed with status " ++ toString resp.StatusCode ++ ": " ++ resp.Body)
      else
        match K.decodeFiles resp.Body with
        | .error e => .error ("failed to parse response: " ++ e)
        | .ok entries => .ok (entries.map fileInfo) := by
  unfold GetDirectoryFiles
  simp only [hreq, hdo]
  split
  · rfl
  · cases K.decodeFiles resp.Body with
    | error e => rfl
    | ok entries => simp [foldl_append_singleton]

theorem forall₂_map_left {α β : Type} (f : α → β) (R : β → α → Prop) (xs : List α)
    (h : ∀ x, R (f x) x) : List.Forall₂ R (xs.map f) xs := by
  induction xs with
  | nil => exact List.Forall₂.nil
  | cons x rest ih => exact List.Forall₂.cons (h x) ih

theorem ListDirectories_ok (H : Http) (K : Codec) (c : Client) {dirs : List DirectoryInfo}
    (h : (ListDirectories H K c).result = .ok dirs) :
    ∃ data, dirs = rootInfo K data :: data.Subdirectories.map (subdirInfo K) := by
  unfold ListDirectories at h
  cases hn : H.NewRequest "GET" (listRequest c).URL with
  | some e => simp [hn] at h
  | none =>
    simp only [hn] at h
    cases hd : H.Do (listRequest c) with
    | error e => simp [hd] at h
    | ok resp =>
      simp only [hd] at h
      split at h
      · simp at h
      · cases hb : K.decodeList resp.Body with
        | error e => simp [hb] at h
        | ok data =>
          simp only [hb, foldl_append_singleton, Except.ok.injEq] at h
          exact ⟨data, h.symm⟩

theorem ListDirectories_later_entries (H : Http) (K : Codec) (c : Client)
    {dirs : List DirectoryInfo} (h : (ListDirectories H K c).result = .ok dirs) :
    ∀ d ∈ dirs.tail, d.FileCount = 0 ∧ d.Description = "" := by
  obtain ⟨data, rfl⟩ := ListDirectories_ok H K c h
  intro d hd
  simp only [List.tail_cons, List.mem_map] at hd
  obtain ⟨e, -, rfl⟩ := hd
  exact ⟨rfl, rfl⟩

/-! ### Claims -/

/-- C22. When the service answers an upload with status 200 or 201 and a body that decodes,
`UploadFile` returns a result whose `FileID` is the body's `data.file_id` if that is not
empty, and the body's `data.hash` otherwise. -/
theorem upload_file_id (H : Http) (K : Codec) (c : Client) (fileName content : String)
    (size : Int) (checksum : String) (resp : Response) (apiResp : UploadReply)
    (hreq : H.NewRequest "POST" (uploadURL c) = none)
    (hdo : H.Do (uploadRequest K c fileName content) = .ok resp)
    (hstatus : resp.StatusCode = 200 ∨ resp.StatusCode = 201)
    (hbody : K.decodeUpload resp.Body = .ok apiResp) :
    ∃ r, (UploadFile H K c fileName (.ok content) size checksum).result = .ok r ∧
      (apiResp.Data.FileID ≠ "" → r.FileID = apiResp.Data.FileID) ∧
      (apiResp.Data.FileID = "" → r.FileID = apiResp.Data.Hash) := by
  rw [UploadFile_of_response H K c fileName content size checksum resp hreq hdo,
    if_neg (by omega), hbody]
  refine ⟨_, rfl, ?_, ?_⟩
  · intro h
    simp [h]
  · intro h
    simp [h]

/-- C22 (witness). The case `file_id fallback to hash` of `TestClient_UploadFile`. -/
theorem upload_file_id_witness :
    ∃ r, (UploadFile (sampleHttp 200 bodyUploadNoID) sampleCodec testClient "test.txt"
        (.ok "test file content") 17 "checksum").result = .ok r ∧
      (("" : String) ≠ "" → r.FileID = "") ∧ (("" : String) = "" → r.FileID = "test-hash") :=
  upload_file_id (sampleHttp 200 bodyUploadNoID) sampleCodec testClient "test.txt"
    "test file content" 17 "checksum" ⟨200, bodyUploadNoID⟩
    ⟨⟨"", "test-hash", "test.txt", 100⟩, "success"⟩ rfl rfl (Or.inl rfl) rfl

/-- C23. When the service answers an upload with a status other than 200 and 201,
`UploadFile` returns no result and the error `upload failed with status <code>: <body>`; when
it answers with 200 or 201 and a body that decodes, `UploadFile` returns a result and no
error. -/
theorem upload_status_checked (H : Http) (K : Codec) (c : Client) (fileName content : String)
    (size : Int) (checksum : String) (resp : Response)
    (hreq : H.NewRequest "POST" (uploadURL c) = none)
    (hdo : H.Do (uploadRequest K c fileName content) = .ok resp) :
    (resp.StatusCode ≠ 200 → resp.StatusCode ≠ 201 →
      (UploadFile H K c fileName (.ok content) size checksum).result =
        .error ("upload failed with status " ++ toString resp.StatusCode ++ ": " ++
          resp.Body)) ∧
    (resp.StatusCode = 200 ∨ resp.StatusCode = 201 →
      ∀ apiResp, K.decodeUpload resp.Body = .ok apiResp →
        ∃ r, (UploadFile H K c fileName (.ok content) size checksum).result = .ok r) := by
  rw [UploadFile_of_response H K c fileName content size checksum resp hreq hdo]
  constructor
  · intro h1 h2
    rw [if_pos ⟨h1, h2⟩]
  · intro h apiResp hbody
    rw [if_neg (by omega), hbody]
    exact ⟨_, rfl⟩

/-- C23 (witness). The cases `upload failure` and `successful upload` of
`TestClient_UploadFile`. -/
theorem upload_status_checked_witness :
    (UploadFile (sampleHttp 400 "Bad Request") sampleCodec testClient "test.txt"
        (.ok "test file content") 17 "checksum").result =
      .error "upload failed with status 400: Bad Request" ∧
    ∃ r, (UploadFile (sampleHttp 200 bodyUpload) sampleCodec testClient "test.txt"
        (.ok "test file content") 17 "checksum").result = .ok r :=
  ⟨(upload_status_checked (sampleHttp 400 "Bad Request") sampleCodec testClient "test.txt"
      "test file content" 17 "checksum" ⟨400, "Bad Request"⟩ rfl rfl).1
      (by decide) (by decide),
   (upload_status_checked (sampleHttp 200 bodyUpload) sampleCodec testClient "test.txt"
      "test file content" 17 "checksum" ⟨200, bodyUpload⟩ rfl rfl).2 (Or.inl rfl)
      ⟨⟨"test-file-id", "test-hash", "test.txt", 100⟩, "success"⟩ rfl⟩

/-- C24. `DownloadFile` sends one `GET` request for the base URL followed by
`/api/clients/v1/files/<fileID>/download`. For an answer with a status other than 200 it
returns no stream and the error `download failed with status <code>: <body>`; for an answer
with status 200 it returns a stream whose content is the response body. -/
theorem download_status_checked (H : Http) (c : Client) (fileID : String) (resp : Response)
    (hreq : H.NewRequest "GET" (downloadRequest c fileID).URL = none)
    (hdo : H.Do (downloadRequest c fileID) = .ok resp) :
    (DownloadFile H c fileID).sent = [downloadRequest c fileID] ∧
    (downloadRequest c fileID).Method = "GET" ∧
    (downloadRequest c fileID).URL =
      c.BaseURL ++ ("/api/clients/v1/files/" ++ fileID ++ "/download") ∧
    (resp.StatusCode ≠ 200 →
      (DownloadFile H c fileID).result =
        .error ("download failed with status " ++ toString resp.StatusCode ++ ": " ++
          resp.Body)) ∧
    (resp.StatusCode = 200 → (DownloadFile H c fileID).result = .ok resp.Body) := by
  unfold DownloadFile
  simp only [hreq, hdo]
  refine ⟨?_, rfl, rfl, ?_, ?_⟩
  · split <;> rfl
  · intro h
    rw [if_pos h]
  · intro h
    rw [if_neg (not_not.mpr h)]

/-- C24 (witness). The case `download not found` of `TestClient_DownloadFile`. -/
theorem download_status_checked_witness :
    (DownloadFile (sampleHttp 404 "File not found") testClient "test-file-id").sent =
      [downloadRequest testClient "test-file-id"] ∧
    (downloadRequest testClient "test-file-id").Method = "GET" ∧
    (downloadRequest testClient "test-file-id").URL =
      testClient.BaseURL ++ ("/api/clients/v1/files/" ++ "test-file-id" ++ "/download") ∧
    ((404 : Int) ≠ 200 →
      (DownloadFile (sampleHttp 404 "File not found") testClient "test-file-id").result =
        .error ("download failed with status " ++ toString (404 : Int) ++ ": " ++
          "File not found")) ∧
    ((404 : Int) = 200 →
      (DownloadFile (sampleHttp 404 "File not found") testClient "test-file-id").result =
        .ok "File not found") :=
  download_status_checked (sampleHttp 404 "File not found") testClient "test-file-id"
    ⟨404, "File not found"⟩ rfl rfl

/-- C25 (failing input). The answer of `TestClient_ListDirectories`, status 200 with a list of
two directory records under `data`, is refused by the decoder of `ListDirectories`, which
expects an object there: the call fails and returns no directory. -/
theorem record_list_not_decoded :
    (ListDirectories (sampleHttp 200 bodyRecordList) sampleCodec testClient).result =
      .error ("failed to parse response: " ++
        "json: cannot unmarshal array into Go struct field .data of type struct") :=
  rfl

/-- C26. When the service answers with status 200 and a body whose `data.files` decodes to
`entries`, `GetDirectoryFiles` returns as many values as there are entries, in the same
order, each with the identifier, name, size, content type and hash of its entry; for an
answer with another status it returns an error. -/
theorem directory_files_in_order (H : Http) (K : Codec) (c : Client) (directoryID : String)
    (resp : Response)
    (hreq : H.NewRequest "GET" (filesRequest c directoryID).URL = none)
    (hdo : H.Do (filesRequest c directoryID) = .ok resp) :
    (resp.StatusCode = 200 → ∀ entries, K.decodeFiles resp.Body = .ok entries →
      ∃ files, (GetDirectoryFiles H K c directoryID).result = .ok files ∧
        files.length = entries.length ∧
        List.Forall₂ (fun (f : FileInfo) (e : FileEntry) => f.ID = e.ID ∧ f.Name = e.Name ∧
          f.Size = e.Size ∧ f.ContentType = e.ContentType ∧ f.Hash = e.Hash) files entries) ∧
    (resp.StatusCode ≠ 200 →
      (GetDirectoryFiles H K c directoryID).result =
        .error ("request failed with status " ++ toString resp.StatusCode ++ ": " ++
          resp.Body)) := by
  rw [GetDirectoryFiles_of_response H K c directoryID resp hreq hdo]
  constructor
  · intro h entries hbody
    rw [if_neg (not_not.mpr h), hbody]
    exact ⟨_, rfl, List.length_map _ _,
      forall₂_map_left fileInfo _ entries (fun e => ⟨rfl, rfl, rfl, rfl, rfl⟩)⟩
  · intro h
    rw [if_pos h]

/-- C26 (witness). The answer of `TestClient_GetDirectoryFiles`: two files, the first with
identifier `file1`, the second of size 200. -/
theorem directory_files_in_order_witness :
    (GetDirectoryFiles (sampleHttp 200 bodyFiles) sampleCodec testClient "test-dir-id").result =
      .ok [⟨"file1", "file1.txt", 100, "text/plain", "hash1"⟩,
           ⟨"file2", "file2.txt", 200, "text/plain", "hash2"⟩] := by
  obtain ⟨files, hres, -, hall⟩ :=
    (directory_files_in_order (sampleHttp 200 bodyFiles) sampleCodec testClient "test-dir-id"
      ⟨200, bodyFiles⟩ rfl rfl).1 rfl
      [⟨"file1", "file1.txt", 100, "text/plain", "hash1"⟩,
       ⟨"file2", "file2.txt", 200, "text/plain", "hash2"⟩] rfl
  rw [hres]
  rcases hall with _ | ⟨⟨h1, h2, h3, h4, h5⟩, _ | ⟨⟨k1, k2, k3, k4, k5⟩, _ | _⟩⟩
  rename_i f1 f2
  cases f1
  cases f2
  simp only at h1 h2 h3 h4 h5 k1 k2 k3 k4 k5
  subst h1 h2 h3 h4 h5 k1 k2 k3 k4 k5
  rfl

/-- C27. `UploadFileFromBytes` leaves the client as it found it, whatever the upload returns,
and it is the upload of the content by a client whose `DirectoryID` is the argument
`directoryID` when that is not empty and the client's own otherwise: every request sent goes
to the upload URL of that directory. -/
theorem upload_from_bytes_restores (H : Http) (K : Codec) (c : Client)
    (fileName fileContent directoryID : String) :
    (UploadFileFromBytes H K c fileName fileContent directoryID).1 = c ∧
    (UploadFileFromBytes H K c fileName fileContent directoryID).2 =
      UploadFile H K
        (NewClient c.BaseURL c.ClientID c.ClientSecret
          (if directoryID ≠ "" then directoryID else c.DirectoryID))
        fileName (.ok fileContent) fileContent.utf8ByteSize "" ∧
    ∀ r ∈ (UploadFileFromBytes H K c fileName fileContent directoryID).2.sent,
      r.URL = uploadURL (NewClient c.BaseURL c.ClientID c.ClientSecret
        (if directoryID ≠ "" then directoryID else c.DirectoryID)) := by
  have hc : (if directoryID ≠ "" then { c with DirectoryID := directoryID } else c : Client) =
      NewClient c.BaseURL c.ClientID c.ClientSecret
        (if directoryID ≠ "" then directoryID else c.DirectoryID) := by
    by_cases h : directoryID ≠ ""
    · rw [if_pos h, if_pos h]
      rfl
    · rw [if_neg h, if_neg h]
      rfl
  refine ⟨?_, ?_, ?_⟩
  · unfold UploadFileFromBytes
    by_cases h : directoryID ≠ ""
    · simp only [if_pos h]
    · simp only [if_neg h]
  · unfold UploadFileFromBytes
    simp only [hc]
  · intro r hr
    unfold UploadFileFromBytes at hr
    simp only [hc] at hr
    exact (UploadFile_sent H K _ fileName _ _ _ r hr).2

/-- C28. When the service answers with status 200 and a body that decodes to the root
directory, `n` subdirectories and a list of files, `ListDirectories` returns `n + 1` entries:
first the root, described as `Root directory`, with the number of listed files as its file
count and the root's size as its total size; then one entry for each subdirectory, in the
order of the answer, with file count 0 and an empty description. -/
theorem list_directories_root_first (H : Http) (K : Codec) (c : Client) (resp : Response)
    (data : ListReply)
    (hreq : H.NewRequest "GET" (listRequest c).URL = none)
    (hdo : H.Do (listRequest c) = .ok resp)
    (hstatus : resp.StatusCode = 200)
    (hbody : K.decodeList resp.Body = .ok data) :
    ∃ root subs, (ListDirectories H K c).result = .ok (root :: subs) ∧
      (root :: subs).length = data.Subdirectories.length + 1 ∧
      root.ID = data.Directory.ID ∧ root.Name = data.Directory.Name ∧
      root.Description = "Root directory" ∧ root.FileCount = data.Files.length ∧
      root.TotalSize = data.Directory.Size ∧
      List.Forall₂ (fun (d : DirectoryInfo) (e : SubdirEntry) => d.ID = e.ID ∧
        d.Name = e.Name ∧ d.TotalSize = e.Size ∧ d.FileCount = 0 ∧ d.Description = "")
        subs data.Subdirectories := by
  rw [ListDirectories_of_response H K c resp hreq hdo, if_neg (not_not.mpr hstatus), hbody]
  refine ⟨_, _, rfl, ?_, rfl, rfl, rfl, rfl, rfl, ?_⟩
  · simp
  · exact forall₂_map_left (subdirInfo K) _ data.Subdirectories
      (fun e => ⟨rfl, rfl, rfl, rfl, rfl⟩)

/-- C28 (witness). A root directory with two subdirectories and one file. -/
theorem list_directories_root_first_witness :
    ∃ root subs,
      (ListDirectories (sampleHttp 200 bodyRoot) sampleCodec testClient).result =
        .ok (root :: subs) ∧
      (root :: subs).length = 2 + 1 ∧ root.ID = "root" ∧ root.Name = "root" ∧
      root.Description = "Root directory" ∧ root.FileCount = 1 ∧ root.TotalSize = 3072 ∧
      List.Forall₂ (fun (d : DirectoryInfo) (e : SubdirEntry) => d.ID = e.ID ∧
        d.Name = e.Name ∧ d.TotalSize = e.Size ∧ d.FileCount = 0 ∧ d.Description = "")
        subs
        [⟨"dir1", "Directory 1", 1024, "2023-01-01T00:00:00Z", "2023-01-01T00:00:00Z"⟩,
         ⟨"dir2", "Directory 2", 2048, "2023-01-02T00:00:00Z", "2023-01-02T00:00:00Z"⟩] :=
  list_directories_root_first (sampleHttp 200 bodyRoot) sampleCodec testClient
    ⟨200, bodyRoot⟩
    ⟨⟨"root", "root", 3072, "2023-01-01T00:00:00Z"⟩,
     [⟨"dir1", "Directory 1", 1024, "2023-01-01T00:00:00Z", "2023-01-01T00:00:00Z"⟩,
      ⟨"dir2", "Directory 2", 2048, "2023-01-02T00:00:00Z", "2023-01-02T00:00:00Z"⟩],
     [⟨"file1", "file1.txt", 100⟩]⟩ rfl rfl rfl rfl

end Koneksi

namespace Mcp

open Koneksi

/-! ### Backups -/

theorem backupFile_upload (L : Lib) (W : World) (s : Server) (args : List (String × Value))
    (filePath : String) (size : Int) (c : Client)
    (hp : (get "filePath" args).asString = some filePath)
    (ho : W.osOpen filePath = .ok ()) (hs : W.fileStat filePath = .ok size)
    (hc : s.client = some c) :
    ∃ c' fileName, (backupFile L W s args).effects =
      [Effect.osOpen filePath, Effect.fileStat filePath,
       Effect.UploadFile c' fileName filePath size] := by
  unfold backupFile
  simp only [hp, ho, hs, hc]
  cases W.UploadFile _ _ filePath size <;> exact ⟨_, _, rfl⟩

/-! ### Envelopes -/

theorem toolResponse_ok_shape (id : Value) {h : Handled} {response : Value}
    (hr : (toolResponse id h).result = Result.ok response) :
    response.field "jsonrpc" = Value.str "2.0" ∧ response.hasKey "result" = true ∧
      response.hasKey "error" = false := by
  unfold toolResponse at hr
  cases hres : h.result with
  | ok r =>
    rw [hres] at hr
    simp only [Result.ok.injEq] at hr
    rw [← hr]
    exact ⟨rfl, rfl, rfl⟩
  | error m =>
    rw [hres] at hr
    simp only at hr
    rw [hres] at hr
    simp at hr
  | panic =>
    rw [hres] at hr
    simp only at hr
    rw [hres] at hr
    simp at hr

theorem HandleRequest_ok_shape (L : Lib) (W : World) (s : Server) {requestStr : String}
    {response : Value} (hr : (HandleRequest L W s requestStr).result = Result.ok response) :
    response.field "jsonrpc" = Value.str "2.0" ∧ response.hasKey "result" = true ∧
      response.hasKey "error" = false := by
  by_cases h1 : L.gjsonString requestStr "method" = "initialize"
  · rw [HandleRequest_init W s h1] at hr
    unfold handleInitialize at hr
    simp only [Result.ok.injEq] at hr
    rw [← hr]
    cases (L.gjsonValue requestStr "id").isNil <;> exact ⟨rfl, rfl, rfl⟩
  by_cases h2 : L.gjsonString requestStr "method" = "tools/list"
  · rw [HandleRequest_toolsList W s h2] at hr
    unfold handleToolsList at hr
    simp only [Result.ok.injEq] at hr
    rw [← hr]
    cases (L.gjsonValue requestStr "id").isNil <;> exact ⟨rfl, rfl, rfl⟩
  by_cases h3 : L.gjsonString requestStr "method" = "tools/call"
  · rw [HandleRequest_toolCall W s h3] at hr
    cases hargs : L.jsonUnmarshalMap (L.gjsonString requestStr "params.arguments") with
    | error e =>
      rw [handleToolCall_undecodable W s _ hargs] at hr
      simp at hr
    | ok arguments =>
      rw [handleToolCall_decoded W s _ hargs] at hr
      repeat' split at hr
      all_goals first
        | exact toolResponse_ok_shape _ hr
        | simp at hr
  rw [HandleRequest_other W s h1 h2 h3] at hr
  simp at hr

theorem mainStep_envelope (L : Lib) (W : World) (s : Server) (request : String) (env : Value)
    (henv : env ∈ (mainStep L W s request).output) :
    env.field "jsonrpc" = Value.str "2.0" ∧
      ((env.hasKey "result" = true ∧ env.hasKey "error" = false) ∨
       (env.hasKey "result" = false ∧ env.hasKey "error" = true ∧
         ∃ msg, (HandleRequest L W s request).result = Result.error msg ∧
           env.field "error" = Value.map
             [("code", Value.number (-32603)), ("message", Value.str msg)])) := by
  cases hparse : L.jsonUnmarshalMap request with
  | error e =>
    unfold mainStep at henv
    simp [hparse] at henv
  | ok req =>
    rw [mainStep_decoded W s hparse] at henv
    cases hres : (HandleRequest L W s request).result with
    | panic =>
      rw [hres] at henv
      simp at henv
    | error msg =>
      rw [hres] at henv
      simp only at henv
      split at henv
      · simp at henv
      · simp only [List.mem_singleton] at henv
        subst henv
        exact ⟨rfl, Or.inr ⟨rfl, rfl, msg, rfl, rfl⟩⟩
    | ok response =>
      rw [hres] at henv
      simp only at henv
      split at henv
      · simp at henv
      · simp only [List.mem_singleton] at henv
        subst henv
        obtain ⟨h1, h2, h3⟩ := HandleRequest_ok_shape L W s hres
        exact ⟨h1, Or.inl ⟨h2, h3⟩⟩

/-! ### Claims -/

/-- C21 (failing input). A `backup_file` call for `/tmp/a.txt` with `compress` and `encrypt`
set to true hands to the storage upload the opened file itself, all five bytes of it: only
the name given to the upload changes, to `a.txt.gz.enc`, and the answer reports compression
and encryption as done. -/
theorem backup_uploads_file_as_is :
    (backupFile sampleLib sampleWorld sampleServer argsBackupEncrypt).effects =
      [Effect.osOpen "/tmp/a.txt", Effect.fileStat "/tmp/a.txt",
       Effect.UploadFile (NewClient "https://staging.koneksi.co.kr" "id" "secret" "")
         "a.txt.gz.enc" "/tmp/a.txt" 5] ∧
    (backupFile sampleLib sampleWorld sampleServer argsBackupEncrypt).result =
      Result.ok (textContent ("File backed up successfully!\nFile ID: f1\nFile Name: " ++
        "a.txt.gz.enc\nSize: 5 bytes\nCompression: true\nEncryption: true\n" ++
        "Encryption password was provided")) ∧
    (backupFile sampleLib sampleWorld sampleServer [("filePath", Value.str "/tmp/a.txt")]).effects =
      [Effect.osOpen "/tmp/a.txt", Effect.fileStat "/tmp/a.txt",
       Effect.UploadFile (NewClient "https://staging.koneksi.co.kr" "id" "secret" "")
         "a.txt" "/tmp/a.txt" 5] :=
  ⟨rfl, rfl, rfl⟩

/-- C29. Every envelope that the message loop hands to the encoder has `jsonrpc` equal to
`2.0` and either the key `result` and not the key `error`, or the key `error` and not the key
`result`; in the second case the error is the object with code -32603 and, as message, the text
of the error that `HandleRequest` returned for one of the lines. -/
theorem envelope_result_or_error (L : Lib) (steps : List (World × String)) (s : Server)
    (env : Value) (henv : env ∈ (mainLoop L steps s).output) :
    env.field "jsonrpc" = Value.str "2.0" ∧
      ((env.hasKey "result" = true ∧ env.hasKey "error" = false) ∨
       (env.hasKey "result" = false ∧ env.hasKey "error" = true ∧
         ∃ W request s' msg, (W, request) ∈ steps ∧
           (HandleRequest L W s' request).result = Result.error msg ∧
           env.field "error" = Value.map
             [("code", Value.number (-32603)), ("message", Value.str msg)])) := by
  induction steps generalizing s with
  | nil => simp [mainLoop] at henv
  | cons step rest ih =>
    obtain ⟨W, request⟩ := step
    have hhead : env ∈ (mainStep L W s request).output →
        env.field "jsonrpc" = Value.str "2.0" ∧
        ((env.hasKey "result" = true ∧ env.hasKey "error" = false) ∨
         (env.hasKey "result" = false ∧ env.hasKey "error" = true ∧
           ∃ W' request' s' msg, (W', request') ∈ (W, request) :: rest ∧
             (HandleRequest L W' s' request').result = Result.error msg ∧
             env.field "error" = Value.map
               [("code", Value.number (-32603)), ("message", Value.str msg)])) := by
      intro h
      obtain ⟨h1, h2⟩ := mainStep_envelope L W s request env h
      refine ⟨h1, ?_⟩
      rcases h2 with h2 | ⟨h2, h3, msg, h4, h5⟩
      · exact Or.inl h2
      · exact Or.inr ⟨h2, h3, W, request, s, msg, List.mem_cons_self _ _, h4, h5⟩
    unfold mainLoop at henv
    by_cases hp : (mainStep L W s request).panicked = true
    · simp only [hp, if_true] at henv
      exact hhead henv
    · simp only [hp] at henv
      simp only [Bool.false_eq_true, if_false, List.mem_append] at henv
      rcases henv with h | h
      · exact hhead h
      · obtain ⟨h1, h2⟩ := ih _ h
        refine ⟨h1, ?_⟩
        rcases h2 with h2 | ⟨h2, h3, W', request', s', msg, hmem, h4, h5⟩
        · exact Or.inl h2
        · exact Or.inr ⟨h2, h3, W', request', s', msg, List.mem_cons_of_mem _ hmem, h4, h5⟩

/-- C29 (witness). The loop run on the request `unknown method` of
`TestServer_ErrorHandling` writes one envelope, with an error and without result. -/
theorem envelope_result_or_error_witness :
    envUnknown.field "jsonrpc" = Value.str "2.0" ∧
      ((envUnknown.hasKey "result" = true ∧ envUnknown.hasKey "error" = false) ∨
       (envUnknown.hasKey "result" = false ∧ envUnknown.hasKey "error" = true ∧
         ∃ W request s' msg, (W, request) ∈ [(sampleWorld, reqUnknown)] ∧
           (HandleRequest sampleLib W s' request).result = Result.error msg ∧
           envUnknown.field "error" = Value.map
             [("code", Value.number (-32603)), ("message", Value.str msg)])) :=
  envelope_result_or_error sampleLib [(sampleWorld, reqUnknown)] sampleServer envUnknown
    (List.mem_singleton.mpr rfl)

end Mcp

namespace Bridge

open Mcp

/-! ### The tool-call endpoint -/

theorem toolCallRequest_decoded (J : Json) {body name argsJSON : String}
    {arguments : Option (List (String × Value))}
    (hbody : J.decodeToolCall body = .ok (name, arguments))
    (hmarshal : J.marshal (argumentsValue arguments) = .ok argsJSON) :
    toolCallRequest J body = .ok (mcpReq name argsJSON) := by
  unfold toolCallRequest
  simp only [hbody, hmarshal]

theorem requestDocument_mcpReq (b : MCPBridge) (name argsJSON : String) :
    requestDocument b (mcpReq name argsJSON) =
      some (Value.map [("jsonrpc", Value.str "2.0"),
        ("id", Value.number (wrapInt (b.requestID + 1))),
        ("method", Value.str "tools/call"),
        ("params", Value.map [("name", Value.str name), ("arguments", Value.str argsJSON)])]) := by
  unfold requestDocument register
  simp [mcpReq, GoValue.hashable, MCPRequest.toValue, GoValue.toValue, paramsValue]

theorem requestLine_marshal {J : Json} {b : MCPBridge} {req : MCPRequest} {line : String}
    (hline : requestLine J b req = some line) :
    ∃ doc, requestDocument b req = some doc ∧ J.marshal doc = .ok line := by
  unfold requestLine at hline
  cases hdoc : requestDocument b req with
  | none => simp [hdoc] at hline
  | some doc =>
    simp only [hdoc] at hline
    cases hm : J.marshal doc with
    | error e => simp [hm] at hline
    | ok text =>
      simp only [hm, Option.some.injEq] at hline
      subst hline
      exact ⟨doc, rfl, hm⟩

theorem handleToolCall_input (L : Lib) (W : World) (s : Server) (request : String)
    (id : Value) :
    handleToolCall L W s request id =
      match (toolCallInput L request).2 with
      | .error e =>
        { server := s, effects := [],
          result := Result.error ("failed to parse arguments: " ++ e) }
      | .ok arguments =>
        if (toolCallInput L request).1 = "upload_file" then
          toolResponse id (uploadFile L W s arguments)
        else if (toolCallInput L request).1 = "download_file" then
          toolResponse id (downloadFile L W s arguments)
        else if (toolCallInput L request).1 = "list_directories" then
          toolResponse id (listDirectories L W s)
        else if (toolCallInput L request).1 = "create_directory" then
          toolResponse id (createDirectory W s arguments)
        else if (toolCallInput L request).1 = "search_files" then
          toolResponse id (searchFiles W s arguments)
        else if (toolCallInput L request).1 = "backup_file" then
          toolResponse id (backupFile L W s arguments)
        else
          { server := s, effects := [],
            result := Result.error ("unknown tool: " ++ (toolCallInput L request).1) } :=
  rfl

theorem sample_reads (doc : Value) (text : String)
    (hdoc : requestDocument NewMCPBridge (mcpReq "upload_file" wireArgs) = some doc)
    (hm : sampleJson.marshal doc = .ok text) : GjsonReads wireLib text doc := by
  rw [requestDocument_mcpReq] at hdoc
  injection hdoc with hdoc
  subst hdoc
  have ht : text = wireLine := by
    have h : sampleJson.marshal (Value.map [("jsonrpc", Value.str "2.0"),
        ("id", Value.number (wrapInt (NewMCPBridge.requestID + 1))),
        ("method", Value.str "tools/call"),
        ("params", Value.map [("name", Value.str "upload_file"),
          ("arguments", Value.str wireArgs)])]) = .ok wireLine := rfl
    rw [h] at hm
    injection hm with hm
    exact hm.symm
  subst ht
  refine ⟨?_, ?_, ?_⟩
  · intro v hv
    have hv' : "tools/call" = v := Value.str.inj hv
    subst hv'
    rfl
  · intro v hv
    have hv' : "upload_file" = v := Value.str.inj hv
    subst hv'
    rfl
  · intro v hv
    have hv' : wireArgs = v := Value.str.inj hv
    subst hv'
    rfl

theorem sample_round (text : String)
    (hm : sampleJson.marshal
      (Value.map [("filePath", Value.str "/tmp/a.txt"), ("directoryId", Value.str "dir-9")]) =
        .ok text) :
    wireLib.jsonUnmarshalMap text =
      .ok [("filePath", Value.str "/tmp/a.txt"), ("directoryId", Value.str "dir-9")] := by
  have h : sampleJson.marshal
      (Value.map [("filePath", Value.str "/tmp/a.txt"), ("directoryId", Value.str "dir-9")]) =
        .ok wireArgs := rfl
  rw [h] at hm
  injection hm with hm
  subst hm
  rfl

/-- What the code of the repository contributes to the round trip of a tool call, the text
encodings being left to the libraries. Let a tool name and a JSON object of arguments be
posted to the bridge's tool-call endpoint, and assume of `encoding/json` and `gjson` that they
agree on what the bridge writes: `gjson` finds in the marshalled request the strings of its
document, and `json.Unmarshal` reads the marshalled arguments back as the arguments. Then the
bridge builds a request with method `tools/call` whose document holds the name under
`params.name` and the marshalled arguments, as a string, under `params.arguments`; and from
the line written for it the server's `HandleRequest` reaches `handleToolCall`, which reads
the posted tool name and decodes the posted arguments. -/
theorem tool_call_keys_agree (J : Json) (L : Lib) (W : World) (s : Server) (b : MCPBridge)
    (body name : String) (args : List (String × Value)) (argsJSON line : String)
    (hbody : J.decodeToolCall body = .ok (name, some args))
    (hmarshal : J.marshal (Value.map args) = .ok argsJSON)
    (hline : requestLine J b (mcpReq name argsJSON) = some line)
    (hreads : ∀ doc text, requestDocument b (mcpReq name argsJSON) = some doc →
      J.marshal doc = .ok text → GjsonReads L text doc)
    (hround : ∀ text, J.marshal (Value.map args) = .ok text →
      L.jsonUnmarshalMap text = .ok args) :
    toolCallRequest J body = .ok (mcpReq name argsJSON) ∧
    (∃ doc, requestDocument b (mcpReq name argsJSON) = some doc ∧
      doc.field "method" = Value.str "tools/call" ∧
      (doc.field "params").field "name" = Value.str name ∧
      (doc.field "params").field "arguments" = Value.str argsJSON) ∧
    HandleRequest L W s line = handleToolCall L W s line (L.gjsonValue line "id") ∧
    toolCallInput L line = (name, .ok args) := by
  obtain ⟨doc, hdoc, hm⟩ := requestLine_marshal hline
  obtain ⟨h1, h2, h3⟩ := hreads doc line hdoc hm
  rw [requestDocument_mcpReq] at hdoc
  injection hdoc with hdoc
  subst hdoc
  have hmethod : L.gjsonString line "method" = "tools/call" := h1 _ rfl
  have hname : L.gjsonString line "params.name" = name := h2 _ rfl
  have hargs : L.gjsonString line "params.arguments" = argsJSON := h3 _ rfl
  refine ⟨toolCallRequest_decoded J hbody hmarshal, ?_, HandleRequest_toolCall W s hmethod, ?_⟩
  · rw [requestDocument_mcpReq]
    exact ⟨_, rfl, rfl, rfl, rfl⟩
  · unfold toolCallInput
    rw [hname, hargs, hround argsJSON hmarshal]

/-- An `upload_file` call with two arguments posted to a new bridge, with libraries for which
the two assumptions hold. -/
theorem tool_call_keys_agree_sample :
    toolCallRequest sampleJson bodyToolCall = .ok (mcpReq "upload_file" wireArgs) ∧
    (∃ doc, requestDocument NewMCPBridge (mcpReq "upload_file" wireArgs) = some doc ∧
      doc.field "method" = Value.str "tools/call" ∧
      (doc.field "params").field "name" = Value.str "upload_file" ∧
      (doc.field "params").field "arguments" = Value.str wireArgs) ∧
    HandleRequest wireLib sampleWorld sampleServer wireLine =
      handleToolCall wireLib sampleWorld sampleServer wireLine
        (wireLib.gjsonValue wireLine "id") ∧
    toolCallInput wireLib wireLine =
      ("upload_file",
       .ok [("filePath", Value.str "/tmp/a.txt"), ("directoryId", Value.str "dir-9")]) :=
  tool_call_keys_agree sampleJson wireLib sampleWorld sampleServer NewMCPBridge bodyToolCall
    "upload_file" [("filePath", Value.str "/tmp/a.txt"), ("directoryId", Value.str "dir-9")]
    wireArgs wireLine rfl rfl rfl sample_reads sample_round

end Bridge

namespace Scanner

/-! ### The scanner -/

theorem utf8Len_replicate_blank (n : Nat) : String.utf8Len (List.replicate n ' ') = n := by
  induction n with
  | zero => rfl
  | succ k ih =>
    rw [List.replicate_succ, String.utf8Len_cons, ih]
    rfl

theorem tooLong_append_padding (s : String) : tooLong (s ++ padding) = true := by
  have h : (s ++ padding).utf8ByteSize = s.utf8ByteSize + MaxScanTokenSize := by
    show String.utf8Len (s.data ++ (List.replicate MaxScanTokenSize ' ')) = _
    rw [String.utf8Len_append, utf8Len_replicate_blank]
    rfl
  unfold tooLong
  rw [h]
  exact decide_eq_true (Nat.le_add_left _ _)

theorem dropCR_append_padding (s : String) : dropCR (s ++ padding) = s ++ padding := by
  have h : (s ++ padding).data.getLast? = some ' ' := by
    show (s.data ++ List.replicate MaxScanTokenSize ' ').getLast? = some ' '
    rw [List.getLast?_append, List.getLast?_replicate]
    rfl
  unfold dropCR
  rw [h, if_neg (by decide)]

theorem tooLong_eq_false {line : String} (h : line.utf8ByteSize < MaxScanTokenSize) :
    tooLong line = false := by
  unfold tooLong
  exact decide_eq_false (Nat.not_le.mpr h)

theorem scanLines_cons_short {line : String} (rest : List String)
    (h : line.utf8ByteSize < MaxScanTokenSize) :
    scanLines (line :: rest) = dropCR line :: scanLines rest := by
  simp only [scanLines, tooLong_eq_false h, Bool.false_eq_true, if_false]

theorem scanLines_cons_long {line : String} (rest : List String) (h : tooLong line = true) :
    scanLines (line :: rest) = [] := by
  simp only [scanLines, h, if_true]

end Scanner

namespace Bridge

open Scanner

/-! ### The reader on a stream -/

theorem readStream_cons_short (unmarshal : String → Option MCPResponse) {line : String}
    (rest : List String) (b : MCPBridge) (h : line.utf8ByteSize < MaxScanTokenSize) :
    readStream unmarshal (line :: rest) b =
      match handleLine unmarshal b (dropCR line) with
      | .ok b' => readStream unmarshal rest b'
      | .error f => .error f := by
  unfold readStream
  rw [scanLines_cons_short rest h]
  rfl

theorem readStream_cons_long (unmarshal : String → Option MCPResponse) {line : String}
    (rest : List String) (b : MCPBridge) (h : tooLong line = true) :
    readStream unmarshal (line :: rest) b = .ok b := by
  unfold readStream
  rw [scanLines_cons_long rest h]
  rfl

theorem readStream_too_long (unmarshal : String → Option MCPResponse) (xs ys : List String)
    {long : String} (b : MCPBridge) (h : tooLong long = true) :
    readStream unmarshal (xs ++ [long] ++ ys) b = readStream unmarshal xs b := by
  induction xs generalizing b with
  | nil => exact readStream_cons_long unmarshal ys b h
  | cons x rest ih =>
    by_cases hx : tooLong x = true
    · rw [List.cons_append, List.cons_append, readStream_cons_long unmarshal _ b hx,
        readStream_cons_long unmarshal _ b hx]
    · have hx' : x.utf8ByteSize < MaxScanTokenSize := by
        unfold tooLong at hx
        simpa using hx
      rw [List.cons_append, List.cons_append, readStream_cons_short unmarshal _ b hx',
        readStream_cons_short unmarshal _ b hx']
      cases handleLine unmarshal b (dropCR x) with
      | ok b' => exact ih b'
      | error f => rfl

/-! ### Claims -/

/-- C6 (as amended). A line of fewer than 64 KiB whose text does not decode is skipped:
reading the stream `xs ++ [bad] ++ ys` gives the same outcome (table, channel buffers,
history, or fault) as reading `xs ++ ys`. -/
theorem malformed_line_skipped (unmarshal : String → Option MCPResponse) (xs ys : List String)
    (bad : String) (b : MCPBridge) (hlen : bad.utf8ByteSize < MaxScanTokenSize)
    (hbad : unmarshal (dropCR bad) = none) :
    readStream unmarshal (xs ++ [bad] ++ ys) b = readStream unmarshal (xs ++ ys) b := by
  induction xs generalizing b with
  | nil =>
    rw [List.nil_append, List.nil_append, List.singleton_append,
      readStream_cons_short unmarshal ys b hlen, handleLine_undecodable b hbad]
  | cons x rest ih =>
    by_cases hx : tooLong x = true
    · rw [List.cons_append, List.cons_append, List.cons_append,
        readStream_cons_long unmarshal _ b hx, readStream_cons_long unmarshal _ b hx]
    · have hx' : x.utf8ByteSize < MaxScanTokenSize := by
        unfold tooLong at hx
        simpa using hx
      rw [List.cons_append, List.cons_append, List.cons_append,
        readStream_cons_short unmarshal _ b hx', readStream_cons_short unmarshal _ b hx']
      cases handleLine unmarshal b (dropCR x) with
      | ok b' => exact ih b'
      | error f => rfl

/-- C6 (witness). Garbage between a stray reply and the reply to `init`. -/
theorem malformed_line_skipped_witness :
    readStream sampleUnmarshal ([lineResult7] ++ ["Koneksi MCP server started"] ++ [lineInitOk])
        initPending =
      readStream sampleUnmarshal ([lineResult7] ++ [lineInitOk]) initPending :=
  malformed_line_skipped sampleUnmarshal [lineResult7] [lineInitOk] "Koneksi MCP server started"
    initPending (by decide) rfl

/-- C6 (counterexample). A line of log text followed by 64 KiB of blanks does not decode, yet
it is not skipped: the scanner gives up at it and the reader returns, so the reply to `init`
that follows is never read, while without the long line it is delivered. -/
theorem long_line_stops_reader :
    sampleUnmarshal lineLong = none ∧
    readStream sampleUnmarshal ([lineResult7] ++ [lineLong] ++ [lineInitOk]) initPending =
      .ok initPending ∧
    readStream sampleUnmarshal ([lineResult7] ++ [lineInitOk]) initPending =
      .ok { requestID := 0, pending := [], chans := [[some "\x7b\x7d"]],
            log := [Event.removed 0 Cause.reply, Event.delivered 0 (some "\x7b\x7d")] } ∧
    readStream sampleUnmarshal ([lineResult7] ++ [lineLong] ++ [lineInitOk]) initPending ≠
      readStream sampleUnmarshal ([lineResult7] ++ [lineInitOk]) initPending := by
  have hlong : tooLong lineLong = true := tooLong_append_padding _
  have h1 : readStream sampleUnmarshal ([lineResult7] ++ [lineLong] ++ [lineInitOk])
      initPending = .ok initPending := by
    rw [readStream_too_long sampleUnmarshal [lineResult7] [lineInitOk] initPending hlong]
    rfl
  have h2 : readStream sampleUnmarshal ([lineResult7] ++ [lineInitOk]) initPending =
      .ok { requestID := 0, pending := [], chans := [[some "\x7b\x7d"]],
            log := [Event.removed 0 Cause.reply, Event.delivered 0 (some "\x7b\x7d")] } :=
    rfl
  refine ⟨?_, h1, h2, ?_⟩
  · decide
  · rw [h1, h2]
    intro h
    injection h with h
    injection h with _ h
    exact absurd h (by decide)

end Bridge

namespace Mcp

open Koneksi Scanner

/-! ### The message loop on a stream -/

theorem mainStream_cons_short (L : Lib) (W : World) {line : String}
    (rest : List (World × String)) (s : Server) (h : line.utf8ByteSize < MaxScanTokenSize) :
    mainStream L ((W, line) :: rest) s =
      if (mainStep L W s (dropCR line)).panicked then mainStep L W s (dropCR line)
      else
        { server := (mainStream L rest (mainStep L W s (dropCR line)).server).server,
          effects := (mainStep L W s (dropCR line)).effects ++
            (mainStream L rest (mainStep L W s (dropCR line)).server).effects,
          output := (mainStep L W s (dropCR line)).output ++
            (mainStream L rest (mainStep L W s (dropCR line)).server).output,
          panicked := (mainStream L rest (mainStep L W s (dropCR line)).server).panicked } := by
  unfold mainStream
  simp only [scanInput, tooLong_eq_false h, Bool.false_eq_true, if_false, mainLoop]

theorem mainStream_cons_long (L : Lib) (W : World) {line : String}
    (rest : List (World × String)) (s : Server) (h : tooLong line = true) :
    mainStream L ((W, line) :: rest) s =
      { server := s, effects := [], output := [], panicked := false } := by
  unfold mainStream
  simp only [scanInput, h, if_true, mainLoop]

theorem padLib_gjsonString_long (L : Lib) (short : String) {json : String}
    (h : tooLong json = true) (path : String) :
    (padLib L short).gjsonString json path = L.gjsonString short path := by
  simp only [padLib, h, if_true]

theorem padLib_gjsonValue_long (L : Lib) (short : String) {json : String}
    (h : tooLong json = true) (path : String) :
    (padLib L short).gjsonValue json path = L.gjsonValue short path := by
  simp only [padLib, h, if_true]

theorem padLib_jsonUnmarshalMap_long (L : Lib) (short : String) {data : String}
    (h : tooLong data = true) :
    (padLib L short).jsonUnmarshalMap data = L.jsonUnmarshalMap short := by
  simp only [padLib, h, if_true]

/-! ### Claims -/

/-- C11 (as amended). A line of fewer than 64 KiB whose text decodes to a JSON object without
identifier (absent, or null) is handed to `HandleRequest`, whose effects and change of state
take place, but nothing is written to standard output for it, whether `HandleRequest`
succeeds, fails or panics; unless it panics, the loop goes on with the lines that follow. -/
theorem notification_not_answered (L : Lib) (W : World) (s : Server) (line : String)
    (req : List (String × Value)) (rest : List (World × String))
    (hlen : line.utf8ByteSize < MaxScanTokenSize)
    (hparse : L.jsonUnmarshalMap (dropCR line) = .ok req)
    (hid : (get "id" req).isNil = true) :
    (mainStep L W s (dropCR line)).output = [] ∧
      (mainStep L W s (dropCR line)).server = (HandleRequest L W s (dropCR line)).server ∧
      (mainStep L W s (dropCR line)).effects = (HandleRequest L W s (dropCR line)).effects ∧
      (mainStream L ((W, line) :: rest) s).output =
        (if (mainStep L W s (dropCR line)).panicked then []
         else (mainStream L rest (HandleRequest L W s (dropCR line)).server).output) ∧
      (mainStream L ((W, line) :: rest) s).effects =
        (HandleRequest L W s (dropCR line)).effects ++
          (if (mainStep L W s (dropCR line)).panicked then []
           else (mainStream L rest (HandleRequest L W s (dropCR line)).server).effects) := by
  obtain ⟨h1, h2, h3⟩ := mainStep_notification L W s hparse hid
  refine ⟨h1, h2, h3, ?_, ?_⟩
  · rw [mainStream_cons_short L W rest s hlen]
    cases hp : (mainStep L W s (dropCR line)).panicked
    · simp only [Bool.false_eq_true, if_false, h1, h2, List.nil_append]
    · simp only [if_true, h1]
  · rw [mainStream_cons_short L W rest s hlen]
    cases hp : (mainStep L W s (dropCR line)).panicked
    · simp only [Bool.false_eq_true, if_false, h2, h3]
    · simp only [if_true, h3, List.append_nil]

/-- C11 (witness). The notification `notifications/initialized`, which `HandleRequest`
rejects as an unknown method, followed by an `initialize` request. -/
theorem notification_not_answered_witness :
    (mainStep sampleLib sampleWorld sampleServer (dropCR reqNotify)).output = [] ∧
      (mainStep sampleLib sampleWorld sampleServer (dropCR reqNotify)).server =
        (HandleRequest sampleLib sampleWorld sampleServer (dropCR reqNotify)).server ∧
      (mainStep sampleLib sampleWorld sampleServer (dropCR reqNotify)).effects =
        (HandleRequest sampleLib sampleWorld sampleServer (dropCR reqNotify)).effects ∧
      (mainStream sampleLib [(sampleWorld, reqNotify), (sampleWorld, reqInit)]
          sampleServer).output =
        (if (mainStep sampleLib sampleWorld sampleServer (dropCR reqNotify)).panicked then []
         else (mainStream sampleLib [(sampleWorld, reqInit)]
          (HandleRequest sampleLib sampleWorld sampleServer (dropCR reqNotify)).server).output) ∧
      (mainStream sampleLib [(sampleWorld, reqNotify), (sampleWorld, reqInit)]
          sampleServer).effects =
        (HandleRequest sampleLib sampleWorld sampleServer (dropCR reqNotify)).effects ++
          (if (mainStep sampleLib sampleWorld sampleServer (dropCR reqNotify)).panicked then []
           else (mainStream sampleLib [(sampleWorld, reqInit)]
            (HandleRequest sampleLib sampleWorld sampleServer
              (dropCR reqNotify)).server).effects) :=
  notification_not_answered sampleLib sampleWorld sampleServer reqNotify
    [("jsonrpc", Value.str "2.0"), ("method", Value.str "notifications/initialized")]
    [(sampleWorld, reqInit)] (by decide) rfl rfl

/-- C11 (counterexample). An `upload_file` call without identifier, followed by 64 KiB of
blanks, decodes to a JSON object without identifier, and `HandleRequest` would open, measure
and upload `/tmp/a.txt` for it. The loop never hands it over: the scanner gives up at the
line, nothing is done or written, and the `initialize` request that follows is not handled
either. -/
theorem long_notification_not_handled :
    (∃ req, (padLib edgeLib reqNotifyUpload).jsonUnmarshalMap (dropCR reqLongNotify) = .ok req ∧
      (get "id" req).isNil = true) ∧
    (HandleRequest (padLib edgeLib reqNotifyUpload) sampleWorld sampleServer
        reqLongNotify).effects =
      [Effect.osOpen "/tmp/a.txt", Effect.fileStat "/tmp/a.txt",
       Effect.UploadFile (NewClient "https://staging.koneksi.co.kr" "id" "secret" "")
         "a.txt" "/tmp/a.txt" 5] ∧
    (mainStream (padLib edgeLib reqNotifyUpload)
        [(sampleWorld, reqLongNotify), (sampleWorld, reqInit)] sampleServer).effects = [] ∧
    (mainStream (padLib edgeLib reqNotifyUpload)
        [(sampleWorld, reqLongNotify), (sampleWorld, reqInit)] sampleServer).output = [] := by
  have hlong : tooLong reqLongNotify = true := tooLong_append_padding _
  have hdrop : dropCR reqLongNotify = reqLongNotify := dropCR_append_padding _
  have hm : (padLib edgeLib reqNotifyUpload).gjsonString reqLongNotify "method" =
      "tools/call" := by
    rw [padLib_gjsonString_long _ _ hlong]
    rfl
  have hn : (padLib edgeLib reqNotifyUpload).gjsonString reqLongNotify "params.name" =
      "upload_file" := by
    rw [padLib_gjsonString_long _ _ hlong]
    rfl
  have ha : (padLib edgeLib reqNotifyUpload).gjsonString reqLongNotify "params.arguments" =
      argsBackup := by
    rw [padLib_gjsonString_long _ _ hlong]
    rfl
  have hargs : (padLib edgeLib reqNotifyUpload).jsonUnmarshalMap argsBackup =
      .ok [("filePath", Value.str "/tmp/a.txt")] := rfl
  refine ⟨⟨[("jsonrpc", Value.str "2.0"), ("method", Value.str "tools/call"),
      ("params", Value.map [("name", Value.str "upload_file"),
        ("arguments", Value.str argsBackup)])], ?_, rfl⟩, ?_, ?_, ?_⟩
  · rw [hdrop, padLib_jsonUnmarshalMap_long _ _ hlong]
    rfl
  · rw [HandleRequest_toolCall sampleWorld sampleServer hm,
      handleToolCall_decoded sampleWorld sampleServer _ (ha.symm ▸ hargs), hn, if_pos rfl,
      (toolResponse_server _ _).2]
    rfl
  · rw [mainStream_cons_long _ sampleWorld _ sampleServer hlong]
  · rw [mainStream_cons_long _ sampleWorld _ sampleServer hlong]

/-- C12 (as amended). On a server with a client, as `main` builds it, a line of fewer than
64 KiB whose text decodes to a JSON object with a non-null identifier makes the loop write
exactly one envelope for it, whether `HandleRequest` succeeds or fails, and go on with the
lines that follow. The `id` of an error envelope is the request's identifier; so is the `id`
of every envelope when `gjson` extracts the identifier that `encoding/json` decoded, as it
does for an object that has the key `id` once. -/
theorem request_answered_once (L : Lib) (W : World) (s : Server) (c : Client)
    (line : String) (req : List (String × Value)) (rest : List (World × String))
    (hc : s.client = some c) (hlen : line.utf8ByteSize < MaxScanTokenSize)
    (hparse : L.jsonUnmarshalMap (dropCR line) = .ok req)
    (hid : (get "id" req).isNil = false) :
    ∃ envelope, (mainStep L W s (dropCR line)).output = [envelope] ∧
      (mainStream L ((W, line) :: rest) s).output =
        envelope :: (mainStream L rest (HandleRequest L W s (dropCR line)).server).output ∧
      (∀ msg, (HandleRequest L W s (dropCR line)).result = Result.error msg →
        envelope.field "id" = get "id" req) ∧
      (L.gjsonValue (dropCR line) "id" = get "id" req →
        envelope.field "id" = get "id" req) := by
  obtain ⟨envelope, h1, h2, h3, -, h5, h6⟩ := mainStep_request L W s hc hparse hid
  refine ⟨envelope, h1, ?_, h5, h6⟩
  rw [mainStream_cons_short L W rest s hlen]
  simp only [h2, Bool.false_eq_true, if_false, h1, h3, List.singleton_append]

/-- C12 (witness). The request of `TestServer_HandleInitialize`, identifier 1, followed by
the request of `TestServer_HandleToolsList`. -/
theorem request_answered_once_witness :
    ∃ envelope, (mainStep sampleLib sampleWorld sampleServer (dropCR reqInit)).output =
        [envelope] ∧
      (mainStream sampleLib [(sampleWorld, reqInit), (sampleWorld, reqToolsList)]
          sampleServer).output =
        envelope :: (mainStream sampleLib [(sampleWorld, reqToolsList)]
          (HandleRequest sampleLib sampleWorld sampleServer (dropCR reqInit)).server).output ∧
      (∀ msg, (HandleRequest sampleLib sampleWorld sampleServer (dropCR reqInit)).result =
          Result.error msg → envelope.field "id" = Value.number 1) ∧
      (sampleLib.gjsonValue (dropCR reqInit) "id" = Value.number 1 →
        envelope.field "id" = Value.number 1) :=
  request_answered_once sampleLib sampleWorld sampleServer
    (NewClient "https://staging.koneksi.co.kr" "id" "secret" "") reqInit
    [("jsonrpc", Value.str "2.0"), ("id", Value.number 1), ("method", Value.str "initialize"),
      ("params", Value.map [])] [(sampleWorld, reqToolsList)] rfl (by decide) rfl rfl

/-- C12 (counterexample). An `initialize` request whose object has the key `id` twice, 1 and
then 2, decodes to the identifier 2 and is answered by an envelope with the identifier 1,
which `gjson` extracted. And an `initialize` request with identifier 1 followed by 64 KiB of
blanks gets no envelope at all: the scanner gives up at the line. -/
theorem doubled_id_and_long_request :
    (∃ req envelope, edgeLib.jsonUnmarshalMap (dropCR reqDupId) = .ok req ∧
      get "id" req = Value.number 2 ∧
      (mainStream edgeLib [(sampleWorld, reqDupId)] sampleServer).output = [envelope] ∧
      envelope.field "id" = Value.number 1 ∧ envelope.field "id" ≠ get "id" req) ∧
    (∃ req, (padLib sampleLib reqInit).jsonUnmarshalMap (dropCR reqLongInit) = .ok req ∧
      (get "id" req).isNil = false ∧
      (mainStream (padLib sampleLib reqInit) [(sampleWorld, reqLongInit)]
        sampleServer).output = []) := by
  have hlong : tooLong reqLongInit = true := tooLong_append_padding _
  have hdrop : dropCR reqLongInit = reqLongInit := dropCR_append_padding _
  refine ⟨⟨[("jsonrpc", Value.str "2.0"), ("id", Value.number 2),
      ("method", Value.str "initialize")],
    Value.map [("jsonrpc", Value.str "2.0"),
      ("result", Value.map
        [("protocolVersion", Value.str "2024-11-05"),
         ("capabilities", Value.map [("tools", Value.map [])]),
         ("serverInfo", Value.map
           [("name", Value.str "koneksi-storage"), ("version", Value.str "1.0.0")])]),
      ("id", Value.number 1)], rfl, rfl, rfl, rfl, ?_⟩,
    ⟨[("jsonrpc", Value.str "2.0"), ("id", Value.number 1),
      ("method", Value.str "initialize"), ("params", Value.map [])], ?_, rfl, ?_⟩⟩
  · intro h
    have h' : Value.number 1 = Value.number 2 := h
    injection h' with h'
    norm_num at h'
  · rw [hdrop, padLib_jsonUnmarshalMap_long _ _ hlong]
    rfl
  · rw [mainStream_cons_long _ sampleWorld _ sampleServer hlong]

end Mcp
